import Mathlib

/-!
# Glitch overlay: animation run, intensity ramp, noise regeneration, capture and resize

A shallow embedding of the rendering core of `src/Main.cpp` and `src/Random.h` and of the
smart pointer of `src/ComPtr.h`.

Conventions of the embedding:

* `float` values are rationals (`ℚ`): every finite `float` is a rational number.  Each
  arithmetic operation on `float` operands, each conversion of an `int` to `float` and each
  `float` literal or argument is rounded to the nearest `float` of the IEEE 754 binary32
  format, ties to even (`to_float`), as when `float` expressions are evaluated in single
  precision.  No rounding is written where the operation is exact on `float` values: the
  literals `0.0f`, `0.5f`, `0.75f`, `1.0f`, `2.0f`, comparisons, `std::abs`, and the doubling
  in `CreateFullscreenTriangle`; the test against `0.89f` is written with the decimal
  `0.89`, which decides every `float` draw the same way (`noise_threshold_float`).  Overflow
  to infinity is not modelled: the values that occur are far below `2 ^ 128`.
* `int` values are mathematical integers (`Int`); the only bit operation, `& ~1`, is the
  two's-complement `Int.land` with `Int.not 1`.
* `HRESULT` is an integer status, `FAILED hr` is `hr < 0` as in the Windows headers.
* Everything outside the process (the random generator, `IDXGISwapChain::Present`, the
  capture refresh) answers through a `Host`: the `n`-th call of a kind receives the `n`-th
  answer.  The context counts the calls made so far and keeps a log of the calls in order.
* The `Map` of the noise texture succeeds in the functions of the animation run; the
  functions whose name ends in `mapped` take its status as an argument and are left by the
  exception of `HRT` when it is a failure.
-/

namespace gt

/-! ## Status codes (ErrorHandling.h) -/

/-- A Windows `HRESULT`. -/
abbrev HRESULT := Int

/-- The success status `S_OK`. -/
def S_OK : HRESULT := 0

/-- The generic failure status `E_FAIL` (0x80004005 as a signed 32-bit value). -/
def E_FAIL : HRESULT := -2147467259

/-- The `FAILED(hr)` test used by the `HR` macro (ErrorHandling.h:5-12): `hr < 0`. -/
def FAILED (hr : HRESULT) : Bool := decide (hr < 0)

/-! ## Numeric helpers (Main.cpp) -/

/-- Rounds a rational to the nearest integer, ties to the even one (the rounding of C's
`rint` in the default rounding mode). -/
def rint (x : ℚ) : Int :=
  if x - ⌊x⌋ < 1 / 2 then ⌊x⌋
  else if 1 / 2 < x - ⌊x⌋ then ⌊x⌋ + 1
  else if ⌊x⌋ % 2 = 0 then ⌊x⌋ else ⌊x⌋ + 1

/-- The exponent of the unit in the last place of the binary32 format at `x`: a `float` of
the binade `2 ^ e ≤ |x| < 2 ^ (e + 1)` is a multiple of `2 ^ (e - 23)` (24 significant
bits), and below the smallest normal number `2 ^ (-126)` the spacing stays `2 ^ (-149)`. -/
def ulp_exponent (x : ℚ) : Int := max (Int.log 2 |x|) (-126) - 23

/-- The `float` nearest to `x`, ties to even: the value of the `float` literal written `x`,
of the conversion of the number `x` to `float`, and of a `float` operation whose exact
result is `x`. -/
def to_float (x : ℚ) : ℚ := (rint (x / 2 ^ ulp_exponent x) : ℚ) * 2 ^ ulp_exponent x

/-- Models `Lerp(a, b, t)` (Main.cpp:271-274): `a + (b - a) * t` on `float` parameters, each
operation rounded to `float`. -/
def Lerp (a b t : ℚ) : ℚ :=
  let a := to_float a
  let b := to_float b
  let t := to_float t
  to_float (a + to_float (to_float (b - a) * t))

/-- Models `TriangleSeries(index, steps, min, max)` (Main.cpp:695-698):
`max - std::abs((max - min) * (2.0f * index / steps - 1.0f))` with `int` parameters `index`
and `steps`, which the arithmetic converts to `float`, and `float` parameters `min` and
`max`; each operation is rounded to `float`.  At its call site `steps` is the frame count,
which is not zero. -/
def TriangleSeries (index steps : Int) (min max : ℚ) : ℚ :=
  let min := to_float min
  let max := to_float max
  to_float (max - |to_float (to_float (max - min) *
    to_float (to_float (to_float (2 * to_float (index : ℚ)) / to_float (steps : ℚ)) - 1))|)

/-- Models `static_cast<int>(x)` for a `float` `x` whose truncation fits in an `int`: the
fractional part is discarded (rounding towards zero). -/
def static_cast_int {K : Type} [LinearOrderedField K] [FloorRing K] (x : K) : Int :=
  if 0 ≤ x then ⌊x⌋ else ⌈x⌉

/-- The expression `static_cast<int>(x) & ~1` of Main.cpp:705, which the specification calls
`floor_to_even`. -/
def floor_to_even {K : Type} [LinearOrderedField K] [FloorRing K] (x : K) : Int :=
  Int.land (static_cast_int x) (Int.not 1)

/-- The frame count of a run for the random draw `r` (Main.cpp:705):
`static_cast<int>(15 + RandomFloat() * 40) & ~1`, where the product and the sum are `float`
operations. -/
def RenderFrame.frames (r : ℚ) : Int :=
  floor_to_even (to_float (to_float 15 + to_float (r * to_float 40)))

/-- The guard of `DigitalGlitch::Update` (Main.cpp:419): with the draw `r` the noise texture
is regenerated exactly when `r > Lerp(0.9f, 0.5f, constants.intensity)`.  The draw is a
`float` in the code; the comparison is defined for a draw of any ordered field, so that the
share of the real draws of `[0, 1)` that pass it can be measured. -/
def DigitalGlitch.regenerates {K : Type} [LinearOrderedField K] (intensity : ℚ) (r : K) :
    Bool :=
  decide (r > ((Lerp (9 / 10) (1 / 2) intensity : ℚ) : K))

/-! ## The host and the render context -/

/-- The calls that are recorded in the log of a context, in the order they are made. -/
inductive Call where
  /-- Models `RenderContext::RefreshCapture()`. -/
  | RefreshCapture : Call
  /-- Models `RenderContext::RenderSingleFrame(intensity)`. -/
  | RenderSingleFrame (intensity : ℚ) : Call
  /-- Models `DigitalGlitch::UpdateNoiseTexture()`. -/
  | UpdateNoiseTexture : Call
  /-- Models `DigitalGlitch::OnRenderImage` drawing with trash frame 1 or 2. -/
  | OnRenderImage (trashFrame : Nat) : Call
  /-- Models `swapChain->Present(SyncInterval, Flags)`. -/
  | Present (SyncInterval Flags : Nat) : Call
  deriving DecidableEq

/-- The answers of everything outside the process. -/
structure Host where
  /-- The value returned by the `n`-th call of `RandomFloat()`. -/
  RandomFloat : Nat → ℚ
  /-- The status returned by the `n`-th call of `swapChain->Present`. -/
  Present : Nat → HRESULT
  /-- The status returned by the `n`-th call of `RenderContext::RefreshCapture`. -/
  RefreshCapture : Nat → HRESULT

/-- The fields of `RenderContext` (Main.cpp:199-269) and of its `DigitalGlitch` that the
animation run reads or writes, together with the counters of host calls and the call log. -/
structure RenderContext where
  /-- Models `RenderContext::initialized`. -/
  initialized : Bool
  /-- Models `RenderContext::frameCount` (`unsigned`). -/
  frameCount : Nat
  /-- Models `digitalGlitch->constants.intensity`. -/
  intensity : ℚ
  /-- The pixels of `digitalGlitch->noiseTexture`, row by row. -/
  noiseTexture : List (List Nat)
  /-- Number of `RandomFloat()` calls made so far. -/
  draws : Nat
  /-- Number of `Present` calls made so far. -/
  presents : Nat
  /-- Number of `RefreshCapture` calls made so far. -/
  refreshes : Nat
  /-- The calls made so far, oldest first. -/
  log : List Call

/-- Append a call to the log. -/
def RenderContext.emit (ctx : RenderContext) (c : Call) : RenderContext :=
  { ctx with log := ctx.log ++ [c] }

/-- The way a call ends: it returns a value, or it is left by the `_com_error` that the
`HRT` macro (ErrorHandling.h:14-21) throws on a failure status; the context is the one
reached when the exception is thrown. -/
inductive Exit (α : Type) where
  /-- The call returns `value`. -/
  | returned (value : α) : Exit α
  /-- The call is left by a `_com_error` carrying the status `hr`. -/
  | thrown (hr : HRESULT) (ctx : RenderContext) : Exit α

/-- The intensities of the `RenderSingleFrame` calls of a log, in order. -/
def renderCalls : List Call → List ℚ
  | [] => []
  | Call.RenderSingleFrame x :: l => x :: renderCalls l
  | _ :: l => renderCalls l

/-- The number of `RefreshCapture` calls of a log. -/
def refreshCalls : List Call → Nat
  | [] => 0
  | Call.RefreshCapture :: l => refreshCalls l + 1
  | _ :: l => refreshCalls l

/-! ## Random source (Random.h) -/

/-- Models `RandomFloat()` (Random.h:52-58): the next draw of the generator. -/
def RandomFloat (host : Host) (ctx : RenderContext) : ℚ × RenderContext :=
  (host.RandomFloat ctx.draws, { ctx with draws := ctx.draws + 1 })

/-- Models `RandomByte()` (Random.h:60-63): the `float` product `RandomFloat() * 255`
converted to `uint8_t`. -/
def RandomByte (host : Host) (ctx : RenderContext) : Nat × RenderContext :=
  let (r, ctx) := RandomFloat host ctx
  ((static_cast_int (to_float (r * to_float 255))).toNat % 256, ctx)

/-- Models `RandomColorBGRA()` (Random.h:70-77): four bytes drawn in the order `b, g, r, a` and
combined as `b | (g << 8) | (r << 8) | (a << 8)` in a `uint32_t`. -/
def RandomColorBGRA (host : Host) (ctx : RenderContext) : Nat × RenderContext :=
  let (b, ctx) := RandomByte host ctx
  let (g, ctx) := RandomByte host ctx
  let (r, ctx) := RandomByte host ctx
  let (a, ctx) := RandomByte host ctx
  ((b ||| (g <<< 8) ||| (r <<< 8) ||| (a <<< 8)) % 2 ^ 32, ctx)

/-! ## DigitalGlitch (Main.cpp:318-460) -/

/-- The inner loop of `UpdateNoiseTexture` (Main.cpp:407-411) over the `width` remaining
pixels of a row: returns the pixels written, the colour carried on and the context.  The
test `RandomFloat() > 0.89f` is written with the decimal `0.89`: the literal `0.89f` is the
`float` just below `0.89`, and a `float` draw exceeds the one exactly when it exceeds the
other (`noise_threshold_float`). -/
def DigitalGlitch.UpdateNoiseTexture.row (host : Host) :
    Nat → Nat → RenderContext → List Nat × Nat × RenderContext
  | 0, color, ctx => ([], color, ctx)
  | width + 1, color, ctx =>
    let (r, ctx) := RandomFloat host ctx
    let (color, ctx) := if r > 89 / 100 then RandomColorBGRA host ctx else (color, ctx)
    let (rest, last, ctx) := DigitalGlitch.UpdateNoiseTexture.row host width color ctx
    (color :: rest, last, ctx)

/-- The outer loop of `UpdateNoiseTexture` (Main.cpp:403-412) over the `height` remaining
rows. -/
def DigitalGlitch.UpdateNoiseTexture.rows (host : Host) (width : Nat) :
    Nat → Nat → RenderContext → List (List Nat) × RenderContext
  | 0, _, ctx => ([], ctx)
  | height + 1, color, ctx =>
    let (r, color, ctx) := DigitalGlitch.UpdateNoiseTexture.row host width color ctx
    let (rest, ctx) := DigitalGlitch.UpdateNoiseTexture.rows host width height color ctx
    (r :: rest, ctx)

/-- The body of `UpdateNoiseTexture` (Main.cpp:401-412) for a texture of the given width
and height: the initial colour is drawn, then the rows are written. -/
def DigitalGlitch.UpdateNoiseTexture.fill (host : Host) (width height : Nat)
    (ctx : RenderContext) : RenderContext :=
  let (color, ctx) := RandomColorBGRA host ctx
  let (tex, ctx) := DigitalGlitch.UpdateNoiseTexture.rows host width height color ctx
  { ctx with noiseTexture := tex }

/-- Models `DigitalGlitch::UpdateNoiseTexture()` (Main.cpp:391-415) on the noise texture, which
`SetupResources` creates 64 wide and 32 high (Main.cpp:349), when the `Map` of the texture
succeeds.  The failure of `Map`, on which `HRT` throws, is in
`DigitalGlitch.UpdateNoiseTexture.mapped`. -/
def DigitalGlitch.UpdateNoiseTexture (host : Host) (ctx : RenderContext) : RenderContext :=
  DigitalGlitch.UpdateNoiseTexture.fill host 64 32 (ctx.emit Call.UpdateNoiseTexture)

/-- Models `DigitalGlitch::Update()` (Main.cpp:417-424): one draw decides whether the noise texture
is regenerated.  (The upload `constants.Update()` to the GPU buffer is not modelled.) -/
def DigitalGlitch.Update (host : Host) (ctx : RenderContext) : RenderContext :=
  let (r, ctx) := RandomFloat host ctx
  if DigitalGlitch.regenerates ctx.intensity r then
    DigitalGlitch.UpdateNoiseTexture host ctx
  else ctx

/-- Models `DigitalGlitch::UpdateNoiseTexture()` (Main.cpp:391-415) with the status `map` of
`context->Map(noiseTexture, ...)` explicit (Main.cpp:399): when it is a failure `HRT` throws
before any colour is drawn; otherwise the texture is written as in
`DigitalGlitch.UpdateNoiseTexture`. -/
def DigitalGlitch.UpdateNoiseTexture.mapped (host : Host) (map : HRESULT)
    (ctx : RenderContext) : Exit RenderContext :=
  let ctx := ctx.emit Call.UpdateNoiseTexture
  if FAILED map then Exit.thrown map ctx
  else Exit.returned (DigitalGlitch.UpdateNoiseTexture.fill host 64 32 ctx)

/-- Models `DigitalGlitch::Update()` (Main.cpp:417-424) with the status `map` of the `Map`
call of `UpdateNoiseTexture` explicit: the exception of the regeneration leaves `Update`. -/
def DigitalGlitch.Update.mapped (host : Host) (map : HRESULT) (ctx : RenderContext) :
    Exit RenderContext :=
  let (r, ctx) := RandomFloat host ctx
  if DigitalGlitch.regenerates ctx.intensity r then
    DigitalGlitch.UpdateNoiseTexture.mapped host map ctx
  else Exit.returned ctx

/-- Models `DigitalGlitch::OnRenderImage` (Main.cpp:426-459): one draw selects the trash frame
(`RandomFloat() > 0.5f ? trashFrame1View : trashFrame2View`), then the draw call is issued. -/
def DigitalGlitch.OnRenderImage (host : Host) (ctx : RenderContext) : RenderContext :=
  let (r, ctx) := RandomFloat host ctx
  ctx.emit (Call.OnRenderImage (if r > 1 / 2 then 1 else 2))

/-! ## RenderContext (Main.cpp:681-737) -/

/-- Models `RenderContext::RefreshCapture()` (Main.cpp:681-693) as seen by the animation run: the
call is logged and the host answers with its status. -/
def RefreshCapture (host : Host) (ctx : RenderContext) : HRESULT × RenderContext :=
  (host.RefreshCapture ctx.refreshes,
    { ctx with refreshes := ctx.refreshes + 1, log := ctx.log ++ [Call.RefreshCapture] })

/-- Models `RenderContext::RenderSingleFrame(intensity)` (Main.cpp:720-737).  The clear of the back
buffer and `UpdateConstants()` (whose status the source discards) leave the modelled fields
unchanged. -/
def RenderSingleFrame (host : Host) (intensity : ℚ) (ctx : RenderContext) :
    HRESULT × RenderContext :=
  let ctx := ctx.emit (Call.RenderSingleFrame intensity)
  let ctx := { ctx with intensity := intensity }
  let ctx := DigitalGlitch.Update host ctx
  let ctx := DigitalGlitch.OnRenderImage host ctx
  let hr := host.Present ctx.presents
  let ctx := { ctx with presents := ctx.presents + 1, log := ctx.log ++ [Call.Present 1 0] }
  if FAILED hr then (hr, ctx)
  else (S_OK, { ctx with frameCount := (ctx.frameCount + 1) % 2 ^ 32 })

/-- Models `RenderContext::RenderSingleFrame(intensity)` (Main.cpp:720-737) with the status
`map` of the `Map` call of `UpdateNoiseTexture` explicit: when the noise texture is
regenerated and `Map` fails, the exception thrown in `Update` leaves `RenderSingleFrame`
before the draw call and before `Present`. -/
def RenderSingleFrame.mapped (host : Host) (map : HRESULT) (intensity : ℚ)
    (ctx : RenderContext) : Exit (HRESULT × RenderContext) :=
  let ctx := ctx.emit (Call.RenderSingleFrame intensity)
  let ctx := { ctx with intensity := intensity }
  match DigitalGlitch.Update.mapped host map ctx with
  | Exit.thrown hr ctx => Exit.thrown hr ctx
  | Exit.returned ctx =>
    let ctx := DigitalGlitch.OnRenderImage host ctx
    let hr := host.Present ctx.presents
    let ctx := { ctx with presents := ctx.presents + 1, log := ctx.log ++ [Call.Present 1 0] }
    if FAILED hr then Exit.returned (hr, ctx)
    else Exit.returned (S_OK, { ctx with frameCount := (ctx.frameCount + 1) % 2 ^ 32 })

/-- The `for` loop of `RenderFrame` (Main.cpp:706-713).  The first argument is the number
`frames - i` of iterations still to run, so the loop test `i < frames` holds exactly when it
is not zero.  The result is `some hr` when an `HR(...)` returned `hr` from inside the loop
and `none` when the loop ran to its end. -/
def RenderFrame.loop (host : Host) (frames : Int) :
    Nat → Nat → RenderContext → Option HRESULT × RenderContext
  | 0, _, ctx => (none, ctx)
  | n + 1, i, ctx =>
    let ctx := if i % 10 = 9 then (RefreshCapture host ctx).2 else ctx
    let intensity := TriangleSeries i frames 0 (3 / 4)
    let (hr, ctx) := RenderSingleFrame host intensity ctx
    if FAILED hr then (some hr, ctx)
    else RenderFrame.loop host frames n (i + 1) ctx

/-- The part of `RenderFrame` after `frames` has been computed (Main.cpp:706-717): the ramp
loop, then the settle frame at intensity `0.0f`. -/
def RenderFrame.animate (host : Host) (frames : Int) (ctx : RenderContext) :
    HRESULT × RenderContext :=
  match RenderFrame.loop host frames frames.toNat 0 ctx with
  | (some hr, ctx) => (hr, ctx)
  | (none, ctx) =>
    let (hr, ctx) := RenderSingleFrame host 0 ctx
    if FAILED hr then (hr, ctx) else (S_OK, ctx)

/-- Models `RenderContext::RenderFrame()` (Main.cpp:700-718). -/
def RenderFrame (host : Host) (ctx : RenderContext) : HRESULT × RenderContext :=
  if !ctx.initialized then (S_OK, ctx)
  else
    let (r, ctx) := RandomFloat host ctx
    RenderFrame.animate host (RenderFrame.frames r) ctx

/-- The calls a run appended to the log: the log after the run without the entries that
were there before it. -/
def newCalls (before after : RenderContext) : List Call :=
  after.log.drop before.log.length

/-- The intensities rendered by a run with frame count `F` in which nothing fails: the `F`
ramp intensities in order, then the settle frame. -/
def rampIntensities (F : Nat) : List ℚ :=
  (List.range F).map (fun i : Nat => TriangleSeries i F 0 (3 / 4))

/-- The context `ctx'` comes from `ctx` by steps that make no `RenderSingleFrame`, `Present`
or `RefreshCapture` call and leave the fields of the render context itself alone. -/
def Quiet (ctx ctx' : RenderContext) : Prop :=
  ctx'.presents = ctx.presents ∧ ctx'.refreshes = ctx.refreshes ∧
    ctx'.frameCount = ctx.frameCount ∧ ctx'.initialized = ctx.initialized ∧
    ctx'.intensity = ctx.intensity ∧
    ∃ l, ctx'.log = ctx.log ++ l ∧ renderCalls l = [] ∧ refreshCalls l = 0

/-! ## Concrete hosts and contexts -/

/-- A host whose generator always returns `0`, whose presents succeed and whose capture
refreshes succeed. -/
def quietHost : Host :=
  { RandomFloat := fun _ => 0, Present := fun _ => S_OK, RefreshCapture := fun _ => S_OK }

/-- A host like `quietHost` whose capture refreshes all fail with `E_FAIL`. -/
def refreshFailingHost : Host :=
  { RandomFloat := fun _ => 0, Present := fun _ => S_OK, RefreshCapture := fun _ => E_FAIL }

/-- A host like `quietHost` whose fourth present (index 3) fails with `E_FAIL`. -/
def presentFailingHost : Host :=
  { RandomFloat := fun _ => 0, Present := fun n => if n = 3 then E_FAIL else S_OK,
    RefreshCapture := fun _ => S_OK }

/-- A host like `quietHost` whose generator always returns `0.75`. -/
def threeQuarterHost : Host :=
  { RandomFloat := fun _ => 3 / 4, Present := fun _ => S_OK, RefreshCapture := fun _ => S_OK }

/-- An initialized context before its first run: `frameCount = 0`, the intensity at its
initial value `0.5f` (Main.cpp:323), nothing called yet. -/
def freshContext : RenderContext :=
  { initialized := true, frameCount := 0, intensity := 1 / 2, noiseTexture := [],
    draws := 0, presents := 0, refreshes := 0, log := [] }

/-! ## Device level: status codes and platform calls

The definitions below embed the capture session, the device lifecycle and the window
bracketing of `src/Main.cpp`.  Calls into the operating system, DXGI and Direct3D are
answered by a `Platform`: the `n`-th call of one kind receives the `n`-th answer of that
kind.  A `World` holds what lies outside the process and changes: the calls made so far, in
order, and the layered-window attributes of the overlay window. -/

/-- The status `E_UNEXPECTED` (0x8000FFFF). -/
def E_UNEXPECTED : HRESULT := -2147418113

/-- The status `E_ACCESSDENIED` (0x80070005). -/
def E_ACCESSDENIED : HRESULT := -2147024891

/-- The status `DXGI_ERROR_ACCESS_LOST` (0x887A0026): the duplication session is lost. -/
def DXGI_ERROR_ACCESS_LOST : HRESULT := -2005270490

/-- The status `DXGI_ERROR_WAIT_TIMEOUT` (0x887A0027): no frame within the timeout. -/
def DXGI_ERROR_WAIT_TIMEOUT : HRESULT := -2005270489

/-- The flag `LWA_ALPHA` of `SetLayeredWindowAttributes`. -/
def LWA_ALPHA : Nat := 2

/-- The format `DXGI_FORMAT_B8G8R8A8_UNORM`. -/
def DXGI_FORMAT_B8G8R8A8_UNORM : Nat := 87

/-- The kinds of platform calls made by the code. -/
inductive Api where
  | GetLayeredWindowAttributes
  | SetLayeredWindowAttributes
  | DwmFlush
  | D3D11CreateDevice
  | QueryInterface
  | GetParent
  | EnumAdapters
  | EnumOutputs
  | DuplicateOutput
  | AcquireNextFrame
  | ReleaseFrame
  | CopyResource
  | CreateTexture2D
  | CreateShaderResourceView
  | CreateRenderTargetView
  | CreateSamplerState
  | CreateBuffer
  | CreateInputLayout
  | CreateVertexShader
  | CreatePixelShader
  | CreateRasterizerState
  | CreateSwapChainForHwnd
  | ResizeBuffers
  | GetBuffer
  | SetD3DDebugObjectName
  | ReleaseBackBufferView
  deriving DecidableEq

/-- The mode a duplication session reports (`DXGI_OUTDUPL_DESC::ModeDesc`). -/
structure ModeDesc where
  Format : Nat
  Width : Nat
  Height : Nat
  deriving DecidableEq

/-- The answers of the platform. -/
structure Platform where
  /-- The status returned by the `n`-th call of a kind. -/
  answer : Api → Nat → HRESULT
  /-- The mode reported by the session that the `n`-th `DuplicateOutput` call opens. -/
  mode : Nat → ModeDesc
  /-- The value `frameInfo.LastPresentTime.QuadPart` delivered by the `n`-th
  `AcquireNextFrame` call. -/
  LastPresentTime : Nat → Int
  /-- Width of the client area of the window (`GetClientRect`). -/
  clientWidth : Nat
  /-- Height of the client area of the window (`GetClientRect`). -/
  clientHeight : Nat

/-- The overlay window as far as `HideWindowScope` reads and writes it.  Whether the
layered-window attributes can be read or written is a property of the window. -/
structure Overlay where
  /-- The style bit `WS_VISIBLE`. -/
  visible : Bool
  /-- Whether `GetLayeredWindowAttributes` succeeds on the window. -/
  readable : Bool
  /-- Whether `SetLayeredWindowAttributes` succeeds on the window. -/
  writable : Bool
  /-- The colour key of the window. -/
  keyColor : Nat
  /-- The alpha of the window. -/
  alpha : Nat
  /-- The layered-window flags of the window. -/
  flags : Nat
  deriving DecidableEq

/-- What lies outside the process and changes. -/
structure World where
  /-- The platform calls made so far with their arguments, oldest first. -/
  calls : List (Api × List Nat)
  /-- The overlay window. -/
  overlay : Overlay
  deriving DecidableEq

/-- The number of calls of kind `a` made so far. -/
def World.count (w : World) (a : Api) : Nat :=
  (w.calls.filter (fun c => decide (c.1 = a))).length

/-- One platform call: it is recorded, and the platform answers with the status of the
next call of its kind. -/
def call (pf : Platform) (a : Api) (args : List Nat) (w : World) : HRESULT × World :=
  (pf.answer a (w.count a), { w with calls := w.calls ++ [(a, args)] })

/-- The ways a function of the model can end. -/
inductive Outcome (σ : Type) where
  /-- The function returned the status `hr` in the state `s`. -/
  | returned (hr : HRESULT) (s : σ) : Outcome σ
  /-- A method was called through a null `ComPtr` (the assertion of `ComPtr::operator->`,
  ComPtr.h:155-159, fails) or through a null pointer. -/
  | nullDereference (s : σ) : Outcome σ
  /-- The loop of `CaptureItem::Refresh` is still running when the fuel is used up. -/
  | running (s : σ) : Outcome σ
  deriving DecidableEq

/-- The macro `HR(expr)` followed by the rest of the function (ErrorHandling.h:5-12): a
failure status of `expr` is returned at once. -/
def HR {σ : Type} (expr : Outcome σ) (rest : σ → Outcome σ) : Outcome σ :=
  match expr with
  | Outcome.returned hr s => if FAILED hr then Outcome.returned hr s else rest s
  | Outcome.nullDereference s => Outcome.nullDereference s
  | Outcome.running s => Outcome.running s

/-- A call whose status the caller discards, followed by the rest of the function. -/
def discard {σ : Type} (expr : Outcome σ) (rest : σ → Outcome σ) : Outcome σ :=
  match expr with
  | Outcome.returned _ s => rest s
  | Outcome.nullDereference s => Outcome.nullDereference s
  | Outcome.running s => Outcome.running s

/-! ## Capture session (Main.cpp:254-265, 462-536) -/

/-- A duplication session: the `DuplicateOutput` call that opened it and the mode it
reports. -/
structure Duplication where
  index : Nat
  mode : ModeDesc
  deriving DecidableEq

/-- A 2D texture, by its description. -/
structure Texture2D where
  Format : Nat
  Width : Nat
  Height : Nat
  deriving DecidableEq

/-- The struct `RenderContext::CaptureItem` (Main.cpp:254-265).  A handle that is `none` (or
`false`) is a null `ComPtr`. -/
structure CaptureItem where
  /-- Whether `output` holds an output. -/
  output : Bool
  /-- The handle `outputDuplication`. -/
  outputDuplication : Option Duplication
  /-- The handle `snapshot`. -/
  snapshot : Option Texture2D
  /-- The handle `snapshotView`: the texture the view is onto. -/
  snapshotView : Option Texture2D
  /-- The content of the snapshot texture: the `AcquireNextFrame` call whose frame was
  copied into it last, if any. -/
  content : Option Nat
  deriving DecidableEq

/-- A default-constructed `CaptureItem`: all handles null. -/
def CaptureItem.empty : CaptureItem :=
  { output := false, outputDuplication := none, snapshot := none, snapshotView := none,
    content := none }

/-- The overload `CaptureItem::SetupDuplication(device)` (Main.cpp:486-506). -/
def CaptureItem.SetupDuplication (pf : Platform) (s : CaptureItem × World) :
    Outcome (CaptureItem × World) :=
  let item := { s.1 with outputDuplication := none, snapshot := none, snapshotView := none,
                         content := none }
  if !item.output then Outcome.nullDereference (item, s.2)
  else
    let n := s.2.count Api.DuplicateOutput
    let r := call pf Api.DuplicateOutput [] s.2
    if FAILED r.1 then Outcome.returned r.1 (item, r.2)
    else
      let m := pf.mode n
      let item := { item with outputDuplication := some { index := n, mode := m } }
      let r := call pf Api.CreateTexture2D [m.Format, m.Width, m.Height] r.2
      if FAILED r.1 then Outcome.returned r.1 (item, r.2)
      else
        let tex : Texture2D := { Format := m.Format, Width := m.Width, Height := m.Height }
        let item := { item with snapshot := some tex }
        let r := call pf Api.CreateShaderResourceView [] r.2
        if FAILED r.1 then Outcome.returned r.1 (item, r.2)
        else Outcome.returned S_OK ({ item with snapshotView := some tex }, r.2)

/-- The overload `CaptureItem::SetupDuplication()` without argument (Main.cpp:474-484): the
device is taken from the snapshot texture. -/
def CaptureItem.SetupDuplication0 (pf : Platform) (s : CaptureItem × World) :
    Outcome (CaptureItem × World) :=
  if s.1.snapshot.isNone then Outcome.returned E_UNEXPECTED s
  else HR (CaptureItem.SetupDuplication pf s) (fun s => Outcome.returned S_OK s)

/-- The function `CaptureItem::Initialize(device, newOutput)` (Main.cpp:462-472);
`newOutput` tells whether the argument is a non-null output. -/
def CaptureItem.Initialize (pf : Platform) (newOutput : Bool) (s : CaptureItem × World) :
    Outcome (CaptureItem × World) :=
  let bound : Outcome (CaptureItem × World) :=
    if newOutput then
      let r := call pf Api.QueryInterface [] s.2
      Outcome.returned r.1 ({ s.1 with output := !FAILED r.1 }, r.2)
    else Outcome.returned S_OK s
  HR bound (fun s => HR (CaptureItem.SetupDuplication pf s) (fun s => Outcome.returned S_OK s))

/-- The statements of `CaptureItem::Refresh` after its loop (Main.cpp:527-535), for the
frame delivered by the `AcquireNextFrame` call number `n`. -/
def CaptureItem.Refresh.copy (pf : Platform) (n : Nat) (s : CaptureItem × World) :
    Outcome (CaptureItem × World) :=
  let r := call pf Api.QueryInterface [] s.2
  if FAILED r.1 then Outcome.returned r.1 (s.1, r.2)
  else
    match s.1.snapshot with
    | none => Outcome.nullDereference (s.1, r.2)
    | some _ =>
      let r := call pf Api.CopyResource [n] r.2
      let item := { s.1 with content := some n }
      let r := call pf Api.ReleaseFrame [] r.2
      if FAILED r.1 then Outcome.returned r.1 (item, r.2)
      else Outcome.returned S_OK (item, r.2)

/-- The function `CaptureItem::Refresh()` (Main.cpp:508-536).  The first argument bounds the
number of iterations of its `while (true)` loop.  The record of an `AcquireNextFrame` call
holds the timeout and the alpha the overlay window has at that moment. -/
def CaptureItem.Refresh (pf : Platform) : Nat → CaptureItem × World →
    Outcome (CaptureItem × World)
  | 0, s => Outcome.running s
  | fuel + 1, s =>
    match s.1.outputDuplication with
    | none => Outcome.nullDereference s
    | some _ =>
      let n := s.2.count Api.AcquireNextFrame
      let r := call pf Api.AcquireNextFrame [1000, s.2.overlay.alpha] s.2
      if r.1 = DXGI_ERROR_ACCESS_LOST then
        HR (CaptureItem.SetupDuplication0 pf (s.1, r.2)) (CaptureItem.Refresh pf fuel)
      else if FAILED r.1 then Outcome.returned r.1 (s.1, r.2)
      else if pf.LastPresentTime n ≠ 0 then CaptureItem.Refresh.copy pf n (s.1, r.2)
      else CaptureItem.Refresh pf fuel (s.1, (call pf Api.ReleaseFrame [] r.2).2)

/-! ## Bracketing of the overlay window (Main.cpp:59-85) -/

/-- The members of `HideWindowScope` (Main.cpp:80-84); `hwnd` tells whether the member
`hwnd` is non-null. -/
structure HideWindowScope where
  hwnd : Bool
  keyColor : Nat
  alpha : Nat
  flags : Nat
  deriving DecidableEq

/-- The constructor `HideWindowScope(hwnd)` (Main.cpp:61-72). -/
def HideWindowScope.enter (w : World) : HideWindowScope × World :=
  let scope : HideWindowScope := { hwnd := false, keyColor := 0, alpha := 0, flags := 0 }
  if !w.overlay.visible then (scope, w)
  else
    let w := { w with calls := w.calls ++ [(Api.GetLayeredWindowAttributes, [])] }
    if !w.overlay.readable then (scope, w)
    else
      let scope := { scope with keyColor := w.overlay.keyColor, alpha := w.overlay.alpha,
                                flags := w.overlay.flags }
      let w := { w with calls := w.calls ++ [(Api.SetLayeredWindowAttributes, [0, 0, LWA_ALPHA])] }
      if !w.overlay.writable then (scope, w)
      else
        let w := { w with overlay := { w.overlay with keyColor := 0, alpha := 0,
                                                      flags := LWA_ALPHA } }
        let w := { w with calls := w.calls ++ [(Api.DwmFlush, [])] }
        ({ scope with hwnd := true }, w)

/-- The destructor `~HideWindowScope()` (Main.cpp:74-78). -/
def HideWindowScope.leave (scope : HideWindowScope) (w : World) : World :=
  if scope.hwnd then
    let w := { w with calls := w.calls ++
      [(Api.SetLayeredWindowAttributes, [scope.keyColor, scope.alpha, scope.flags])] }
    if w.overlay.writable then
      { w with overlay := { w.overlay with keyColor := scope.keyColor, alpha := scope.alpha,
                                           flags := scope.flags } }
    else w
  else w

/-- The loop of `RenderContext::RefreshCapture` over the capture items (Main.cpp:685-690):
the items still to refresh, the items done, the status so far. -/
def RenderContext.RefreshCapture.items (pf : Platform) (fuel : Nat) :
    List CaptureItem → List CaptureItem → HRESULT → World →
    Outcome (List CaptureItem × World)
  | [], done, hr, w => Outcome.returned hr (done, w)
  | item :: rest, done, hr, w =>
    match CaptureItem.Refresh pf fuel (item, w) with
    | Outcome.returned hrItem s =>
      RenderContext.RefreshCapture.items pf fuel rest (done ++ [s.1])
        (if hr = S_OK ∧ FAILED hrItem = true then hrItem else hr) s.2
    | Outcome.nullDereference s => Outcome.nullDereference (done ++ s.1 :: rest, s.2)
    | Outcome.running s => Outcome.running (done ++ s.1 :: rest, s.2)

/-! ## Device context (Main.cpp:199-269, 538-693, 878-932) -/

/-- A width and a height in pixels. -/
structure Extent where
  Width : Nat
  Height : Nat
  deriving DecidableEq

/-- The struct `RenderContext` (Main.cpp:199-269) with its device objects, its capture items
and the world.  The animation fields (`initialized`, `frameCount`, the intensity and the
noise texture of the glitch effect) are those of `rc`.  A handle that is `none` or `false`
is a null `ComPtr`; pipeline handles that no function of the model reads are left out. -/
structure DeviceContext where
  /-- The animation fields. -/
  rc : RenderContext
  /-- Whether `device` and `context` hold the device. -/
  device : Bool
  /-- The handle `swapChain`, with the current size of its buffers. -/
  swapChain : Option Extent
  /-- The handle `backBufferView`, with the size the buffers had when it was created. -/
  backBufferView : Option Extent
  /-- The member `renderWidth`. -/
  renderWidth : Nat
  /-- The member `renderHeight`. -/
  renderHeight : Nat
  /-- The viewport last set by `UpdateViewport`. -/
  viewport : Option Extent
  /-- The handle `vertexBuffer`, with the size its triangle was built for. -/
  vertexBuffer : Option Extent
  /-- The vector `captureItems`. -/
  captureItems : List CaptureItem
  /-- Whether `digitalGlitch` holds an effect. -/
  digitalGlitch : Bool
  /-- The handle `trashFrame1Tex` of the effect, with the size of the texture. -/
  trashFrame1Tex : Option Extent
  /-- The handle `trashFrame2Tex` of the effect, with the size of the texture. -/
  trashFrame2Tex : Option Extent
  /-- The world. -/
  world : World

/-- A default-constructed `RenderContext` (Main.cpp:228-268) in the world `w`. -/
def DeviceContext.fresh (w : World) : DeviceContext :=
  { rc := { initialized := false, frameCount := 0, intensity := 1 / 2, noiseTexture := [],
            draws := 0, presents := 0, refreshes := 0, log := [] },
    device := false, swapChain := none, backBufferView := none, renderWidth := 0,
    renderHeight := 0, viewport := none, vertexBuffer := none, captureItems := [],
    digitalGlitch := false, trashFrame1Tex := none, trashFrame2Tex := none, world := w }

/-- One platform call made from a function of the device context. -/
def DeviceContext.call (pf : Platform) (a : Api) (args : List Nat) (d : DeviceContext) :
    Outcome DeviceContext :=
  Outcome.returned (gt.call pf a args d.world).1
    { d with world := (gt.call pf a args d.world).2 }

/-- Release of the back-buffer view by `Reset()` or `ReleaseAndGetAddressOf()`
(ComPtr.h:175-180, 232-236): a held view is released, the handle becomes null. -/
def DeviceContext.releaseBackBufferView (d : DeviceContext) : DeviceContext :=
  match d.backBufferView with
  | none => d
  | some _ =>
    { d with backBufferView := none,
             world := { d.world with calls := d.world.calls ++ [(Api.ReleaseBackBufferView, [])] } }

/-- The function `RenderContext::UpdateViewport(width, height)` (Main.cpp:658-665). -/
def RenderContext.UpdateViewport (width height : Nat) (d : DeviceContext) : DeviceContext :=
  { d with viewport := some { Width := width, Height := height } }

/-- The function `RenderContext::CreateVertices()` (Main.cpp:878-903): the triangle is built
for `renderWidth` x `renderHeight`; the address-of on `vertexBuffer` drops the held buffer. -/
def RenderContext.CreateVertices (pf : Platform) (d : DeviceContext) : Outcome DeviceContext :=
  HR (DeviceContext.call pf Api.CreateBuffer [d.renderWidth, d.renderHeight]
      { d with vertexBuffer := none })
    (fun d => Outcome.returned S_OK
      { d with vertexBuffer := some { Width := d.renderWidth, Height := d.renderHeight } })

/-- The function `RenderContext::InitPipeline()` (Main.cpp:905-932). -/
def RenderContext.InitPipeline (pf : Platform) (d : DeviceContext) : Outcome DeviceContext :=
  HR (DeviceContext.call pf Api.CreateInputLayout [] d) fun d =>
  HR (DeviceContext.call pf Api.CreateVertexShader [] d) fun d =>
  HR (DeviceContext.call pf Api.CreateBuffer [] d) fun d =>
  HR (DeviceContext.call pf Api.SetD3DDebugObjectName [] d) fun d =>
  Outcome.returned S_OK d

/-- The function `RenderContext::CreateRasterizerState()` (Main.cpp:812-833). -/
def RenderContext.CreateRasterizerState (pf : Platform) (d : DeviceContext) :
    Outcome DeviceContext :=
  HR (DeviceContext.call pf Api.CreateRasterizerState [] d) fun d =>
  HR (DeviceContext.call pf Api.SetD3DDebugObjectName [] d) fun d =>
  Outcome.returned S_OK d

/-- The function `RenderContext::CreateRenderTargetView()` (Main.cpp:620-628): the view is
created onto buffer 0 of the swap chain, so for the size the buffers have now. -/
def RenderContext.CreateRenderTargetView (pf : Platform) (d : DeviceContext) :
    Outcome DeviceContext :=
  match d.swapChain with
  | none => Outcome.nullDereference d
  | some size =>
    HR (DeviceContext.call pf Api.GetBuffer [0] d) fun d =>
    HR (DeviceContext.call pf Api.CreateRenderTargetView [] d.releaseBackBufferView) fun d =>
    HR (DeviceContext.call pf Api.SetD3DDebugObjectName [] { d with backBufferView := some size })
      fun d =>
    HR (DeviceContext.call pf Api.SetD3DDebugObjectName [] d) fun d =>
    Outcome.returned S_OK d

/-- The function `RenderContext::Resize(newWidth, newHeight)` (Main.cpp:630-656). -/
def RenderContext.Resize (pf : Platform) (newWidth newHeight : Nat) (d : DeviceContext) :
    Outcome DeviceContext :=
  match d.swapChain with
  | none => Outcome.returned S_OK d
  | some _ =>
    HR (DeviceContext.call pf Api.ResizeBuffers [0, max newWidth 1, max newHeight 1]
        d.releaseBackBufferView) fun d =>
    HR (RenderContext.CreateRenderTargetView pf
        { d with swapChain := some { Width := max newWidth 1, Height := max newHeight 1 } })
      fun d =>
    discard (RenderContext.CreateVertices pf
        { RenderContext.UpdateViewport (max newWidth 1) (max newHeight 1) d with
          renderWidth := max newWidth 1, renderHeight := max newHeight 1 })
      fun d => Outcome.returned S_OK d

/-- The function `RenderContext::SetupCapture(dxgiFactory)` (Main.cpp:667-679): the status
of `capture.Initialize` is not looked at. -/
def RenderContext.SetupCapture (pf : Platform) (d : DeviceContext) : Outcome DeviceContext :=
  HR (DeviceContext.call pf Api.EnumAdapters [0] d) fun d =>
  HR (DeviceContext.call pf Api.EnumOutputs [0] d) fun d =>
  match CaptureItem.Initialize pf true (CaptureItem.empty, d.world) with
  | Outcome.returned _ s =>
    Outcome.returned S_OK { d with captureItems := d.captureItems ++ [s.1], world := s.2 }
  | Outcome.nullDereference s =>
    Outcome.nullDereference { d with captureItems := d.captureItems ++ [s.1], world := s.2 }
  | Outcome.running s =>
    Outcome.running { d with captureItems := d.captureItems ++ [s.1], world := s.2 }

/-- The function `RenderContext::RefreshCapture()` (Main.cpp:681-693) in full: the overlay is
hidden, every capture item is refreshed, the overlay is restored when the function returns. -/
def RenderContext.RefreshCapture (pf : Platform) (fuel : Nat) (d : DeviceContext) :
    Outcome DeviceContext :=
  match RenderContext.RefreshCapture.items pf fuel d.captureItems [] S_OK
      (HideWindowScope.enter d.world).2 with
  | Outcome.returned hr s =>
    Outcome.returned hr
      { d with captureItems := s.1
               world := HideWindowScope.leave (HideWindowScope.enter d.world).1 s.2 }
  | Outcome.nullDereference s =>
    Outcome.nullDereference { d with captureItems := s.1, world := s.2 }
  | Outcome.running s => Outcome.running { d with captureItems := s.1, world := s.2 }

/-- The function `DigitalGlitch::SetupResources(device, renderWidth, renderHeight)`
(Main.cpp:344-389), on the effect held in the fields of `d`.  The `Map` of its first noise
update succeeds. -/
def DigitalGlitch.SetupResources (host : Host) (pf : Platform) (renderWidth renderHeight : Nat)
    (d : DeviceContext) : Outcome DeviceContext :=
  HR (DeviceContext.call pf Api.CreateBuffer [] d) fun d =>
  HR (DeviceContext.call pf Api.CreateTexture2D [DXGI_FORMAT_B8G8R8A8_UNORM, 64, 32] d) fun d =>
  HR (DeviceContext.call pf Api.CreateShaderResourceView [] d) fun d =>
  HR (DeviceContext.call pf Api.CreateSamplerState [] d) fun d =>
  HR (DeviceContext.call pf Api.CreateTexture2D
      [DXGI_FORMAT_B8G8R8A8_UNORM, renderWidth, renderHeight] d) fun d =>
  HR (DeviceContext.call pf Api.CreateRenderTargetView []
      { d with trashFrame1Tex := some { Width := renderWidth, Height := renderHeight } }) fun d =>
  HR (DeviceContext.call pf Api.CreateShaderResourceView [] d) fun d =>
  HR (DeviceContext.call pf Api.CreateTexture2D
      [DXGI_FORMAT_B8G8R8A8_UNORM, renderWidth, renderHeight] d) fun d =>
  HR (DeviceContext.call pf Api.CreateRenderTargetView []
      { d with trashFrame2Tex := some { Width := renderWidth, Height := renderHeight } }) fun d =>
  HR (DeviceContext.call pf Api.CreateShaderResourceView [] d) fun d =>
  HR (DeviceContext.call pf Api.CreateSamplerState [] d) fun d =>
  HR (DeviceContext.call pf Api.CreateSamplerState [] d) fun d =>
  HR (DeviceContext.call pf Api.CreatePixelShader []
      { d with rc := DigitalGlitch.UpdateNoiseTexture host d.rc }) fun d =>
  Outcome.returned S_OK d

/-- The last statements of `RenderContext::Initialize` (Main.cpp:612-617): a new effect is
set up in a local object; when that fails the object is dropped, otherwise it is moved into
`digitalGlitch` and the context becomes initialized. -/
def RenderContext.Initialize.glitch (host : Host) (pf : Platform) (d : DeviceContext) :
    Outcome DeviceContext :=
  match DigitalGlitch.SetupResources host pf d.renderWidth d.renderHeight
      { d with rc := { d.rc with intensity := 1 / 2, noiseTexture := [] },
               trashFrame1Tex := none, trashFrame2Tex := none } with
  | Outcome.returned hr g =>
    if FAILED hr then
      Outcome.returned hr
        { g with rc := { g.rc with intensity := d.rc.intensity,
                                   noiseTexture := d.rc.noiseTexture },
                 trashFrame1Tex := d.trashFrame1Tex, trashFrame2Tex := d.trashFrame2Tex }
    else
      Outcome.returned S_OK
        { g with digitalGlitch := true, rc := { g.rc with initialized := true } }
  | Outcome.nullDereference g => Outcome.nullDereference g
  | Outcome.running g => Outcome.running g

/-- The function `RenderContext::Initialize(hWnd)` (Main.cpp:538-618).  The fuel bounds the
loop of the capture refresh.  The address-of on `device` and on `swapChain` drops what the
handle held before the call that fills it (ComPtr.h:175-180). -/
def RenderContext.Initialize (host : Host) (pf : Platform) (fuel : Nat) (d : DeviceContext) :
    Outcome DeviceContext :=
  if d.rc.initialized then Outcome.returned S_OK d
  else
    HR (DeviceContext.call pf Api.D3D11CreateDevice []
        { d with renderWidth := pf.clientWidth, renderHeight := pf.clientHeight,
                 device := false }) fun d =>
    HR (DeviceContext.call pf Api.QueryInterface [] { d with device := true }) fun d =>
    HR (DeviceContext.call pf Api.GetParent [] d) fun d =>
    HR (DeviceContext.call pf Api.GetParent [] d) fun d =>
    HR (RenderContext.SetupCapture pf d) fun d =>
    HR (RenderContext.RefreshCapture pf fuel d) fun d =>
    HR (DeviceContext.call pf Api.CreateSwapChainForHwnd [d.renderWidth, d.renderHeight]
        { d with swapChain := none }) fun d =>
    HR (RenderContext.InitPipeline pf
        { d with swapChain := some { Width := d.renderWidth, Height := d.renderHeight } })
      fun d =>
    HR (RenderContext.CreateVertices pf d) fun d =>
    HR (RenderContext.CreateRasterizerState pf d) fun d =>
    HR (RenderContext.CreateRenderTargetView pf d) fun d =>
    RenderContext.Initialize.glitch host pf
      (RenderContext.UpdateViewport d.renderWidth d.renderHeight d)

/-! ## Timer interval (Random.h:65-68, Main.cpp:997-1000) -/

/-- The function `RandomInt(min, max)` (Random.h:65-68):
`static_cast<int>(min + RandomFloat() * (max - min))`: the `int` difference and the `int`
`min` are converted to `float`, the product and the sum are `float` operations. -/
def RandomInt (min max : Int) (host : Host) (ctx : RenderContext) : Int × RenderContext :=
  (static_cast_int (to_float (to_float (min : ℚ) +
      to_float ((RandomFloat host ctx).1 * to_float ((max - min : Int) : ℚ)))),
    (RandomFloat host ctx).2)

/-- The interval with which `RootWindow::ScheduleGlitch()` (Main.cpp:997-1000) arms the
timer: `RandomInt(1000, 30000)`. -/
def RootWindow.ScheduleGlitch (host : Host) (ctx : RenderContext) : Int × RenderContext :=
  RandomInt 1000 30000 host ctx

/-! ## Concrete platforms and worlds -/

/-- A platform on which every call succeeds, every session reports the mode 1920 x 1080 in
the format `DXGI_FORMAT_B8G8R8A8_UNORM`, and every acquired frame is a new frame. -/
def okPlatform : Platform :=
  { answer := fun _ _ => S_OK,
    mode := fun _ => { Format := DXGI_FORMAT_B8G8R8A8_UNORM, Width := 1920, Height := 1080 },
    LastPresentTime := fun _ => 1, clientWidth := 1920, clientHeight := 1080 }

/-- The overlay as `RootWindow::Create` leaves it (Main.cpp:1098): hidden, layered, colour
key `RGB(0xFF, 0, 0xFF)`, alpha `0xFF`, flags `0`. -/
def hiddenOverlay : Overlay :=
  { visible := false, readable := true, writable := true, keyColor := 16711935, alpha := 255,
    flags := 0 }

/-- The overlay of `hiddenOverlay` while it is shown. -/
def shownOverlay : Overlay := { hiddenOverlay with visible := true }

/-- The world before any call, with the overlay hidden. -/
def World.start : World := { calls := [], overlay := hiddenOverlay }

/-! ## Notions used by the statements about the device level -/

/-- The status a function returned, if it returned. -/
def Outcome.status {σ : Type} : Outcome σ → Option HRESULT
  | Outcome.returned hr _ => some hr
  | Outcome.nullDereference _ => none
  | Outcome.running _ => none

/-- Whether a function ended in a call through a null handle. -/
def Outcome.isNullDereference {σ : Type} : Outcome σ → Bool
  | Outcome.returned _ _ => false
  | Outcome.nullDereference _ => true
  | Outcome.running _ => false

/-- The state in which a function ended. -/
def Outcome.state {σ : Type} : Outcome σ → σ
  | Outcome.returned _ s => s
  | Outcome.nullDereference s => s
  | Outcome.running s => s

/-- A capture item is established when its output is bound and it holds a session, a
snapshot texture with the format and size of the mode the session reports, and a view onto
that texture. -/
def CaptureItem.Established (item : CaptureItem) : Prop :=
  item.output = true ∧
    ∃ session tex, item.outputDuplication = some session ∧ item.snapshot = some tex ∧
      item.snapshotView = some tex ∧ tex.Format = session.mode.Format ∧
      tex.Width = session.mode.Width ∧ tex.Height = session.mode.Height

/-- The calls that a function appended to the record of the world. -/
def World.since (before after : World) : List (Api × List Nat) :=
  after.calls.drop before.calls.length

/-- The context holds a back-buffer view created for the current size of the swap-chain
buffers. -/
def DeviceContext.ViewCurrent (d : DeviceContext) : Prop :=
  ∃ size, d.swapChain = some size ∧ d.backBufferView = some size

/-- The states reached from a state by a sequence of `Resize` calls that return, whatever
their status. -/
inductive ResizedFrom (pf : Platform) (d : DeviceContext) : DeviceContext → Prop where
  | start : ResizedFrom pf d d
  | resize {d₁ d₂ : DeviceContext} (newWidth newHeight : Nat) (hr : HRESULT) :
      ResizedFrom pf d d₁ →
      RenderContext.Resize pf newWidth newHeight d₁ = Outcome.returned hr d₂ →
      ResizedFrom pf d d₂

/-- The states reached from a state by a sequence of `Resize` calls that all succeed. -/
inductive ResizedOkFrom (pf : Platform) (d : DeviceContext) : DeviceContext → Prop where
  | start : ResizedOkFrom pf d d
  | resize {d₁ d₂ : DeviceContext} (newWidth newHeight : Nat) (hr : HRESULT) :
      ResizedOkFrom pf d d₁ →
      RenderContext.Resize pf newWidth newHeight d₁ = Outcome.returned hr d₂ →
      FAILED hr = false →
      ResizedOkFrom pf d d₂

/-- The arguments of the `Present` calls of a log, in order. -/
def presentCalls : List Call → List (Nat × Nat)
  | [] => []
  | Call.Present i f :: l => (i, f) :: presentCalls l
  | _ :: l => presentCalls l

/-- An established capture item: the session opened by the first `DuplicateOutput` call, in
the mode 1920 x 1080, nothing captured yet. -/
def establishedItem : CaptureItem :=
  { output := true,
    outputDuplication := some { index := 0, mode := okPlatform.mode 0 },
    snapshot := some { Format := DXGI_FORMAT_B8G8R8A8_UNORM, Width := 1920, Height := 1080 },
    snapshotView := some { Format := DXGI_FORMAT_B8G8R8A8_UNORM, Width := 1920, Height := 1080 },
    content := none }

/-- A platform like `okPlatform` on which the given call fails with the given status. -/
def failingPlatform (a : Api) (n : Nat) (hr : HRESULT) : Platform :=
  { okPlatform with answer := fun b m => if b = a ∧ m = n then hr else S_OK }

/-- A platform like `okPlatform` on which the first acquire reports the loss of the session
and no session can be opened any more (`E_ACCESSDENIED`). -/
def lostPlatform : Platform :=
  { okPlatform with
    answer := fun a n =>
      if a = Api.AcquireNextFrame ∧ n = 0 then DXGI_ERROR_ACCESS_LOST
      else if a = Api.DuplicateOutput then E_ACCESSDENIED else S_OK }

/-- The calls in `l` can be calls of a capture refresh made while the overlay has the alpha
`alpha`: every `AcquireNextFrame` record carries the timeout 1000 and that alpha, and no
call writes the layered-window attributes. -/
def CaptureCalls (alpha : Nat) (l : List (Api × List Nat)) : Prop :=
  ∀ c ∈ l, (c.1 = Api.AcquireNextFrame → c.2 = [1000, alpha]) ∧
    c.1 ≠ Api.SetLayeredWindowAttributes

/-- The world `w'` comes from `w` by calls of a capture refresh: the overlay is untouched
and the calls added are capture calls made at the alpha of the overlay. -/
def CaptureStep (w w' : World) : Prop :=
  w'.overlay = w.overlay ∧ ∃ l, w'.calls = w.calls ++ l ∧ CaptureCalls w.overlay.alpha l

/-- The context `d'` has the swap chain and the back-buffer view of `d`. -/
def DeviceContext.SameView (d d' : DeviceContext) : Prop :=
  d'.swapChain = d.swapChain ∧ d'.backBufferView = d.backBufferView

/-- A platform like `okPlatform` on which the first acquire reports the loss of the session;
the sessions opened on it report the mode 1280 x 720. -/
def recoveringPlatform : Platform :=
  { failingPlatform Api.AcquireNextFrame 0 DXGI_ERROR_ACCESS_LOST with
    mode := fun _ => { Format := DXGI_FORMAT_B8G8R8A8_UNORM, Width := 1280, Height := 720 } }

/-- A context with a swap chain of 1920 x 1080, its back-buffer view, one established
capture item and the overlay shown. -/
def shownDevice : DeviceContext :=
  { DeviceContext.fresh { calls := [], overlay := shownOverlay } with
    device := true
    swapChain := some { Width := 1920, Height := 1080 }
    backBufferView := some { Width := 1920, Height := 1080 }
    renderWidth := 1920
    renderHeight := 1080
    captureItems := [establishedItem] }

/-! ## ComPtr (ComPtr.h)

A COM object is named by a natural number.  Its reference count is kept by the object
itself and changed by its methods `AddRef` and `Release` only. -/

/-- The reference count of every COM object. -/
abbrev RefCounts := Nat → Int

/-- The method `IUnknown::AddRef` of the object `o`: its count goes up by one. -/
def AddRef (o : Nat) (refs : RefCounts) : RefCounts :=
  fun p => if p = o then refs p + 1 else refs p

/-- The method `IUnknown::Release` of the object `o`: its count goes down by one. -/
def Release (o : Nat) (refs : RefCounts) : RefCounts :=
  fun p => if p = o then refs p - 1 else refs p

/-- The class `ComPtr<T>` (ComPtr.h:45-394): its one member `ptr`; `none` is `nullptr`. -/
structure ComPtr where
  ptr : Option Nat
  deriving DecidableEq

/-- The method `ComPtr::SafeAddRef()` (ComPtr.h:367-371). -/
def ComPtr.SafeAddRef (self : ComPtr) (refs : RefCounts) : RefCounts :=
  match self.ptr with
  | none => refs
  | some o => AddRef o refs

/-- The method `ComPtr::SafeRelease()` (ComPtr.h:373-377). -/
def ComPtr.SafeRelease (self : ComPtr) (refs : RefCounts) : RefCounts :=
  match self.ptr with
  | none => refs
  | some o => Release o refs

/-- The copy constructors `ComPtr(ComPtr const&)` and `ComPtr(ComPtr<TSource> const&)`
(ComPtr.h:56-61, 69-75): the new handle and the counts. -/
def ComPtr.copy (source : ComPtr) (refs : RefCounts) : ComPtr × RefCounts :=
  ({ ptr := source.ptr }, ComPtr.SafeAddRef { ptr := source.ptr } refs)

/-- The move constructors `ComPtr(ComPtr&&)` and `ComPtr(ComPtr<TSource>&&)`
(ComPtr.h:63-67, 77-82): the new handle and the source afterwards. -/
def ComPtr.move (source : ComPtr) : ComPtr × ComPtr :=
  ({ ptr := source.ptr }, { ptr := none })

/-- The destructor `~ComPtr()` (ComPtr.h:101). -/
def ComPtr.destroy (self : ComPtr) (refs : RefCounts) : RefCounts :=
  self.SafeRelease refs

/-- The copy assignment `operator=(ComPtr const&)` (ComPtr.h:103-111): the handle
afterwards and the counts. -/
def ComPtr.assign (self source : ComPtr) (refs : RefCounts) : ComPtr × RefCounts :=
  if self.ptr ≠ source.ptr then
    ({ ptr := source.ptr }, ComPtr.SafeAddRef { ptr := source.ptr } (self.SafeRelease refs))
  else (self, refs)

/-- The converting copy assignment `operator=(ComPtr<TSource> const&)` (ComPtr.h:113-120),
which has no test for equal pointers. -/
def ComPtr.assignConverting (self source : ComPtr) (refs : RefCounts) : ComPtr × RefCounts :=
  ({ ptr := source.ptr }, ComPtr.SafeAddRef { ptr := source.ptr } (self.SafeRelease refs))

/-- The move assignments `operator=(ComPtr&&)` and `operator=(ComPtr<TSource>&&)`
(ComPtr.h:122-135) from another handle: the handle afterwards, the source afterwards and
the counts. -/
def ComPtr.moveAssign (self source : ComPtr) (refs : RefCounts) :
    ComPtr × ComPtr × RefCounts :=
  ({ ptr := source.ptr }, { ptr := none }, self.SafeRelease refs)

/-- The move assignment (ComPtr.h:122-127) of a handle from itself: `SafeRelease()`, then
`ptr = std::exchange(ptr, nullptr)`, which stores the old pointer back. -/
def ComPtr.moveAssignSelf (self : ComPtr) (refs : RefCounts) : ComPtr × RefCounts :=
  ({ ptr := self.ptr }, self.SafeRelease refs)

/-- The method `ComPtr::Reset()` (ComPtr.h:232-236). -/
def ComPtr.Reset (self : ComPtr) (refs : RefCounts) : ComPtr × RefCounts :=
  ({ ptr := none }, self.SafeRelease refs)

/-- The method `ComPtr::CopyTo(target)` (ComPtr.h:253-257): the pointer stored to `*target`
and the counts. -/
def ComPtr.CopyTo (self : ComPtr) (refs : RefCounts) : Option Nat × RefCounts :=
  (self.ptr, self.SafeAddRef refs)

/-- The method `ComPtr::MoveTo(target)` (ComPtr.h:274-279): the pointer stored to `*target`,
the handle afterwards and the counts. -/
def ComPtr.MoveTo (self : ComPtr) (refs : RefCounts) : Option Nat × ComPtr × RefCounts :=
  (self.ptr, { ptr := none }, refs)

/-- The handles of a program, in the order of their construction, and the counts of the
objects.  A handle that was destroyed is `none`. -/
structure Handles where
  slots : List (Option ComPtr)
  refs : RefCounts

/-- The operations on handles: the handles are named by their position in `slots`. -/
inductive ComPtrOp where
  /-- Copy construction of a new handle from the handle `source`. -/
  | copy (source : Nat)
  /-- Move construction of a new handle from the handle `source`. -/
  | move (source : Nat)
  /-- Copy assignment `target = source`. -/
  | assign (target source : Nat)
  /-- Converting copy assignment `target = source`. -/
  | assignConverting (target source : Nat)
  /-- Move assignment `target = std::move(source)`. -/
  | moveAssign (target source : Nat)
  /-- The call `target.Reset()`. -/
  | Reset (target : Nat)
  /-- Destruction of the handle `target`. -/
  | destroy (target : Nat)
  deriving DecidableEq

/-- The live handle at position `i`, if there is one. -/
def Handles.get (h : Handles) (i : Nat) : Option ComPtr :=
  (h.slots.get? i).join

/-- One operation.  The result is `none` when the operation names a position that holds no
live handle. -/
def Handles.step (h : Handles) : ComPtrOp → Option Handles
  | ComPtrOp.copy s =>
    (h.get s).map fun src =>
      { slots := h.slots ++ [some (ComPtr.copy src h.refs).1], refs := (ComPtr.copy src h.refs).2 }
  | ComPtrOp.move s =>
    (h.get s).map fun src =>
      { slots := h.slots.set s (some (ComPtr.move src).2) ++ [some (ComPtr.move src).1],
        refs := h.refs }
  | ComPtrOp.assign t s =>
    (h.get t).bind fun self => (h.get s).map fun src =>
      { slots := h.slots.set t (some (ComPtr.assign self src h.refs).1),
        refs := (ComPtr.assign self src h.refs).2 }
  | ComPtrOp.assignConverting t s =>
    (h.get t).bind fun self => (h.get s).map fun src =>
      { slots := h.slots.set t (some (ComPtr.assignConverting self src h.refs).1),
        refs := (ComPtr.assignConverting self src h.refs).2 }
  | ComPtrOp.moveAssign t s =>
    (h.get t).bind fun self => (h.get s).map fun src =>
      if t = s then
        { slots := h.slots.set t (some (ComPtr.moveAssignSelf self h.refs).1),
          refs := (ComPtr.moveAssignSelf self h.refs).2 }
      else
        { slots := (h.slots.set s (some (ComPtr.moveAssign self src h.refs).2.1)).set t
            (some (ComPtr.moveAssign self src h.refs).1),
          refs := (ComPtr.moveAssign self src h.refs).2.2 }
  | ComPtrOp.Reset t =>
    (h.get t).map fun self =>
      { slots := h.slots.set t (some (ComPtr.Reset self h.refs).1),
        refs := (ComPtr.Reset self h.refs).2 }
  | ComPtrOp.destroy t =>
    (h.get t).map fun self =>
      { slots := h.slots.set t none, refs := ComPtr.destroy self h.refs }

/-- A sequence of operations, left to right. -/
def Handles.run (h : Handles) : List ComPtrOp → Option Handles
  | [] => some h
  | op :: ops => (h.step op).bind fun h => h.run ops

/-- The number of live handles that hold the object `o`. -/
def Handles.holders (h : Handles) (o : Nat) : Int :=
  h.slots.count (some { ptr := some o })

/-- One if the handle holds the object `o`, zero otherwise. -/
def ComPtr.holds (self : ComPtr) (o : Nat) : Int :=
  if self.ptr = some o then 1 else 0

/-- The operation does not move a handle into itself. -/
def ComPtrOp.distinct : ComPtrOp → Bool
  | ComPtrOp.moveAssign t s => decide (t ≠ s)
  | _ => true

/-- Two handles: the first holds the object 7, whose count is 1, the second is null. -/
def sampleHandles : Handles :=
  { slots := [some { ptr := some 7 }, some { ptr := none }], refs := fun _ => 1 }

/-- Two distinct handles that both hold the object 7, whose count is 2. -/
def sharedHandles : Handles :=
  { slots := [some { ptr := some 7 }, some { ptr := some 7 }], refs := fun _ => 2 }

/-! ## The fullscreen triangle (Main.cpp:219-223, 863-876) -/

/-- The struct `RenderContext::Vertex` (Main.cpp:219-223): a position and the texture
coordinates at it. -/
structure Vertex where
  Position : ℚ × ℚ
  TexCoords : ℚ × ℚ

/-- The function `CreateFullscreenTriangle(vertices, w, h)` (Main.cpp:871-876): the three
vertices it stores.  The products `w * 2` and `h * 2` double a `float`, which is exact. -/
def CreateFullscreenTriangle (w h : ℚ) : Vertex × Vertex × Vertex :=
  ({ Position := (0, 0), TexCoords := (0, 0) },
   { Position := (w * 2, 0), TexCoords := (2, 0) },
   { Position := (0, h * 2), TexCoords := (0, 2) })

/-- The combination of three pairs with the weights `a`, `b`, `c`. -/
def combine (a b c : ℚ) (p q r : ℚ × ℚ) : ℚ × ℚ :=
  (a * p.1 + b * q.1 + c * r.1, a * p.2 + b * q.2 + c * r.2)

/-- The weights `a`, `b`, `c` are barycentric coordinates of the point `p` with respect to
the triangle `t`: they sum to one and combine the positions of the vertices to `p`. -/
def Barycentric (t : Vertex × Vertex × Vertex) (p : ℚ × ℚ) (a b c : ℚ) : Prop :=
  a + b + c = 1 ∧ combine a b c t.1.Position t.2.1.Position t.2.2.Position = p

/-- The texture coordinates interpolated linearly from the three vertices with the weights
`a`, `b`, `c`. -/
def interpolate (t : Vertex × Vertex × Vertex) (a b c : ℚ) : ℚ × ℚ :=
  combine a b c t.1.TexCoords t.2.1.TexCoords t.2.2.TexCoords

/-! ## Notions used by the statements about a run and the noise texture -/

/-- The refresh and frame calls of a log, in order. -/
def frameEvents : List Call → List Call
  | [] => []
  | Call.RefreshCapture :: l => Call.RefreshCapture :: frameEvents l
  | Call.RenderSingleFrame x :: l => Call.RenderSingleFrame x :: frameEvents l
  | _ :: l => frameEvents l

/-- The refresh and frame calls of ramp iteration `i` of a run with frame count `frames`:
a capture refresh first when `i % 10 = 9`, then frame `i`. -/
def rampEvents (frames : Int) (i : Nat) : List Call :=
  (if i % 10 = 9 then [Call.RefreshCapture] else []) ++
    [Call.RenderSingleFrame (TriangleSeries i frames 0 (3 / 4))]

/-- Following the words of the specification: the pixels of the noise texture in raster
order.  There are `n` pixels left, `color` is the pixel written just before (for the first
pixel: the colour drawn initially).  One draw is taken for the pixel; when it is at most
`0.89` the pixel equals the pixel before it, when it exceeds `0.89` the pixel is a newly
drawn random colour. -/
def noiseRasterSpec (host : Host) : Nat → Nat → RenderContext → List Nat
  | 0, _, _ => []
  | n + 1, color, ctx =>
    if host.RandomFloat ctx.draws ≤ 89 / 100 then
      color :: noiseRasterSpec host n color { ctx with draws := ctx.draws + 1 }
    else
      (RandomColorBGRA host { ctx with draws := ctx.draws + 1 }).1 ::
        noiseRasterSpec host n (RandomColorBGRA host { ctx with draws := ctx.draws + 1 }).1
          (RandomColorBGRA host { ctx with draws := ctx.draws + 1 }).2

/-- A host like `quietHost` whose third draw (index 2) is `0.5` and whose other draws are
`0`. -/
def channelHost : Host :=
  { RandomFloat := fun n => if n = 2 then 1 / 2 else 0, Present := fun _ => S_OK,
    RefreshCapture := fun _ => S_OK }

/-! ## Notions used by the statements about `Initialize` and `Refresh` -/

/-- The status `E_INVALIDARG` (0x80070057). -/
def E_INVALIDARG : HRESULT := -2147024809

/-- The status `E_NOINTERFACE` (0x80004002). -/
def E_NOINTERFACE : HRESULT := -2147467262

/-- Whether a function returned a success status: only then does `HR` go on with the rest
of the function. -/
def Outcome.succeeded {σ : Type} : Outcome σ → Bool
  | Outcome.returned hr _ => !FAILED hr
  | Outcome.nullDereference _ => false
  | Outcome.running _ => false

/-- The fields of the context that the pipeline steps of `Initialize` and the capture
refresh leave alone: the flag `initialized`, the render size, the number of capture items
and the sizes of the two trash textures. -/
def DeviceContext.kept (d : DeviceContext) :
    Bool × Nat × Nat × Nat × Option Extent × Option Extent :=
  (d.rc.initialized, d.renderWidth, d.renderHeight, d.captureItems.length, d.trashFrame1Tex,
    d.trashFrame2Tex)

/-- The part of the kept fields that the set-up of the effect leaves alone as well. -/
def DeviceContext.core (d : DeviceContext) : Bool × Nat × Nat × Nat :=
  (d.rc.initialized, d.renderWidth, d.renderHeight, d.captureItems.length)

/-- The sizes of the two trash textures of the effect. -/
def DeviceContext.trash (d : DeviceContext) : Option Extent × Option Extent :=
  (d.trashFrame1Tex, d.trashFrame2Tex)

/-- The states reached from a state by a sequence of `Initialize` calls that return, with
the number of calls of the sequence that returned a failure. -/
inductive InitializedFrom (host : Host) (pf : Platform) (fuel : Nat) (d : DeviceContext) :
    Nat → DeviceContext → Prop where
  | start : InitializedFrom host pf fuel d 0 d
  | failure {failures : Nat} {d₁ d₂ : DeviceContext} (hr : HRESULT) :
      InitializedFrom host pf fuel d failures d₁ →
      RenderContext.Initialize host pf fuel d₁ = Outcome.returned hr d₂ →
      FAILED hr = true →
      InitializedFrom host pf fuel d (failures + 1) d₂
  | success {failures : Nat} {d₁ d₂ : DeviceContext} (hr : HRESULT) :
      InitializedFrom host pf fuel d failures d₁ →
      RenderContext.Initialize host pf fuel d₁ = Outcome.returned hr d₂ →
      FAILED hr = false →
      InitializedFrom host pf fuel d failures d₂

/-- A platform like `okPlatform` on which the first acquired frame carries the timestamp 0
(no new frame) and every later one is a new frame. -/
def emptyFramePlatform : Platform :=
  { okPlatform with LastPresentTime := fun n => if n = 0 then 0 else 1 }

/-- What a call of `Initialize` leaves behind, on a context that was not initialized and
held `n` capture items: at most one capture item more; the context not initialized unless
the call returned a success status; and after a success status the context initialized, one
capture item more, the render size that of the client area, and both trash textures of that
size. -/
def InitializeGoal (n : Nat) (pf : Platform) (o : Outcome DeviceContext) : Prop :=
  n ≤ o.state.captureItems.length ∧ o.state.captureItems.length ≤ n + 1 ∧
  (o.succeeded = false → o.state.rc.initialized = false) ∧
  (o.succeeded = true →
    o.state.kept = (true, pf.clientWidth, pf.clientHeight, n + 1,
      some { Width := pf.clientWidth, Height := pf.clientHeight },
      some { Width := pf.clientWidth, Height := pf.clientHeight }))

/-- A platform like `okPlatform` on which the first creation of the swap chain fails with
`E_FAIL` and the second `DuplicateOutput` call, made while the first session is still held,
fails with `E_INVALIDARG`. -/
def retryPlatform : Platform :=
  { okPlatform with
    answer := fun a n =>
      if a = Api.CreateSwapChainForHwnd ∧ n = 0 then E_FAIL
      else if a = Api.DuplicateOutput ∧ n = 1 then E_INVALIDARG else S_OK }


/-! ## Notions used by the lemmas about the intensity ramp -/

/-- The subexpression `2.0f * index / steps` of `TriangleSeries`. -/
def TriangleSeries.phase (index steps : Int) : ℚ :=
  to_float (to_float (2 * to_float (index : ℚ)) / to_float (steps : ℚ))

/-- The value of `TriangleSeries` with `min = 0.0f` and `max = 0.75f` as a function of the
value `p` of `2.0f * index / steps`: `0.75f - std::abs(0.75f * (p - 1.0f))`. -/
def TriangleSeries.shape (p : ℚ) : ℚ :=
  to_float (3 / 4 - |to_float (3 / 4 * to_float (p - 1))|)


/-! # Lemmas -/

/-! ## Rounding to `float` -/

theorem rint_eq_of (x : ℚ) (n : Int)
    (h : |x - n| < 1 / 2 ∨ (|x - n| = 1 / 2 ∧ n % 2 = 0)) : rint x = n := by
  have hf1 : (⌊x⌋ : ℚ) ≤ x := Int.floor_le x
  have hf2 : x < (⌊x⌋ : ℚ) + 1 := Int.lt_floor_add_one x
  have hlo : (n : ℚ) - 1 / 2 ≤ x := by
    rcases h with h | ⟨h, -⟩
    · have := (abs_lt.mp h).1; linarith
    · have := (abs_le.mp h.le).1; linarith
  have hhi : x ≤ (n : ℚ) + 1 / 2 := by
    rcases h with h | ⟨h, -⟩
    · have := (abs_lt.mp h).2; linarith
    · have := (abs_le.mp h.le).2; linarith
  have h1 : n - 1 ≤ ⌊x⌋ := by
    have : ((n - 1 : Int) : ℚ) < (⌊x⌋ : ℚ) + 1 := by push_cast; linarith
    have : n - 1 < ⌊x⌋ + 1 := by exact_mod_cast this
    omega
  have h2 : ⌊x⌋ ≤ n := by
    have : (⌊x⌋ : ℚ) < ((n + 1 : Int) : ℚ) := by push_cast; linarith
    have : ⌊x⌋ < n + 1 := by exact_mod_cast this
    omega
  rcases (by omega : ⌊x⌋ = n - 1 ∨ ⌊x⌋ = n) with hfl | hfl
  · have hc : (⌊x⌋ : ℚ) = n - 1 := by rw [hfl]; push_cast; ring
    have hge : ¬ (x - ⌊x⌋ < 1 / 2) := by rw [hc]; intro; linarith
    unfold rint
    rw [if_neg hge]
    rcases h with h | ⟨h, heven⟩
    · have := (abs_lt.mp h).1
      rw [if_pos (by rw [hc]; linarith)]; omega
    · by_cases hx : 1 / 2 < x - ⌊x⌋
      · rw [if_pos hx]; omega
      · rw [if_neg hx, if_neg (by omega)]; omega
  · have hc : (⌊x⌋ : ℚ) = n := by rw [hfl]
    unfold rint
    rcases h with h | ⟨h, heven⟩
    · have := (abs_lt.mp h).2
      rw [if_pos (by rw [hc]; linarith)]; omega
    · by_cases hx : x - ⌊x⌋ < 1 / 2
      · rw [if_pos hx]; omega
      · rw [if_neg hx, if_neg (by rw [hc]; linarith), if_pos (by omega)]; omega

/-- The rounding of `x` is within one half of `x`, and is even in case of a tie. -/
theorem rint_spec (x : ℚ) :
    |x - rint x| < 1 / 2 ∨ (|x - rint x| = 1 / 2 ∧ rint x % 2 = 0) := by
  have hf1 : (⌊x⌋ : ℚ) ≤ x := Int.floor_le x
  have hf2 : x < (⌊x⌋ : ℚ) + 1 := Int.lt_floor_add_one x
  unfold rint
  split_ifs with h1 h2 h3
  · left; rw [abs_lt]; constructor <;> linarith
  · left; rw [abs_lt]; push_cast; constructor <;> linarith
  · right
    have : x - ⌊x⌋ = 1 / 2 := le_antisymm (not_lt.mp h2) (not_lt.mp h1)
    refine ⟨?_, h3⟩
    rw [this]; norm_num
  · right
    have : x - ⌊x⌋ = 1 / 2 := le_antisymm (not_lt.mp h2) (not_lt.mp h1)
    refine ⟨?_, by omega⟩
    push_cast
    rw [show x - ((⌊x⌋ : ℚ) + 1) = -(1 / 2) by linarith]; norm_num

/-- An integer is its own rounding. -/
theorem rint_intCast (n : Int) : rint (n : ℚ) = n :=
  rint_eq_of _ n (Or.inl (by simp))

/-- Rounding to the nearest integer, ties to even, is odd. -/
theorem rint_neg (x : ℚ) : rint (-x) = - rint x := by
  apply rint_eq_of
  have : |(-x) - ((- rint x : Int) : ℚ)| = |x - rint x| := by
    push_cast; rw [← abs_neg]; congr 1; ring
  rw [this]
  rcases rint_spec x with h | ⟨h, he⟩
  · exact Or.inl h
  · exact Or.inr ⟨h, by omega⟩

/-- Rounding to the nearest integer, ties to even, is monotone. -/
theorem rint_mono {x y : ℚ} (h : x ≤ y) : rint x ≤ rint y := by
  have hx1 : (⌊x⌋ : ℚ) ≤ x := Int.floor_le x
  have hy2 : y < (⌊y⌋ : ℚ) + 1 := Int.lt_floor_add_one y
  have hfl : ⌊x⌋ ≤ ⌊y⌋ := Int.floor_mono h
  rcases hfl.lt_or_eq with hlt | heq
  · have a : rint x ≤ ⌊x⌋ + 1 := by unfold rint; split_ifs <;> omega
    have b : ⌊y⌋ ≤ rint y := by unfold rint; split_ifs <;> omega
    omega
  · have hd : x - ⌊x⌋ ≤ y - ⌊y⌋ := by rw [heq]; linarith
    unfold rint
    rw [heq]
    rw [heq] at hd
    split_ifs <;> first | omega | (exfalso; linarith)

theorem le_rint {x : ℚ} {n : Int} (h : (n : ℚ) ≤ x) : n ≤ rint x := by
  have := rint_mono h
  rwa [rint_intCast] at this

theorem rint_le {x : ℚ} {n : Int} (h : x ≤ (n : ℚ)) : rint x ≤ n := by
  have := rint_mono h
  rwa [rint_intCast] at this

theorem rint_error (x : ℚ) : |x - rint x| ≤ 1 / 2 := by
  rcases rint_spec x with h | ⟨h, -⟩
  · exact h.le
  · exact h.le



theorem ulp_exponent_ge (x : ℚ) : -149 ≤ ulp_exponent x := by
  unfold ulp_exponent
  have := le_max_right (Int.log 2 |x|) (-126)
  omega

theorem ulp_exponent_neg (x : ℚ) : ulp_exponent (-x) = ulp_exponent x := by
  unfold ulp_exponent
  rw [abs_neg]

theorem to_float_zero : to_float 0 = 0 := by
  unfold to_float
  rw [zero_div]
  have : rint 0 = 0 := by simpa using rint_intCast 0
  rw [this]; simp

/-- Rounding to `float` is odd. -/
theorem to_float_neg (x : ℚ) : to_float (-x) = - to_float x := by
  unfold to_float
  rw [ulp_exponent_neg, neg_div, rint_neg]
  push_cast; ring

/-- A number is below `2 ^ 24` units in the last place in size. -/
theorem abs_lt_ulp (x : ℚ) : |x| < 2 ^ (ulp_exponent x + 24) := by
  have h1 : |x| < (2 : ℚ) ^ (Int.log 2 |x| + 1) := by
    exact_mod_cast Int.lt_zpow_succ_log_self (by norm_num : 1 < 2) |x|
  refine lt_of_lt_of_le h1 ?_
  apply zpow_le_zpow_right₀ (by norm_num)
  unfold ulp_exponent
  have := le_max_left (Int.log 2 |x|) (-126)
  omega

/-- A normal number is at least `2 ^ 23` units in the last place in size. -/
theorem ulp_le_abs (x : ℚ) (hx : x ≠ 0) (h : -149 < ulp_exponent x) :
    2 ^ (ulp_exponent x + 23) ≤ |x| := by
  have hlog : ulp_exponent x + 23 = Int.log 2 |x| := by
    unfold ulp_exponent at h ⊢
    rcases max_cases (Int.log 2 |x|) (-126) with ⟨h1, _⟩ | ⟨h1, _⟩
    · rw [h1]; ring
    · rw [h1] at h; omega
  rw [hlog]
  exact_mod_cast Int.zpow_log_le_self (by norm_num : 1 < 2) (abs_pos.mpr hx)

/-- The exponent of the unit in the last place grows with the size of the number. -/
theorem ulp_exponent_mono {x y : ℚ} (hx : x ≠ 0) (h : |x| ≤ |y|) :
    ulp_exponent x ≤ ulp_exponent y := by
  unfold ulp_exponent
  have := Int.log_mono_right (b := 2) (abs_pos.mpr hx) h
  have := max_le_max this (le_refl (-126 : Int))
  omega

/-- The exponent of the unit in the last place in the binade `2 ^ L ≤ |x| < 2 ^ (L + 1)`. -/
theorem ulp_exponent_eq (x : ℚ) (L : Int) (hL : -126 ≤ L) (h1 : 2 ^ L ≤ |x|)
    (h2 : |x| < 2 ^ (L + 1)) : ulp_exponent x = L - 23 := by
  have hpos : 0 < |x| := lt_of_lt_of_le (by positivity) h1
  have a : L ≤ Int.log 2 |x| := (Int.zpow_le_iff_le_log (by norm_num) hpos).mp (by exact_mod_cast
    h1)
  have b : Int.log 2 |x| < L + 1 := (Int.lt_zpow_iff_log_lt (by norm_num) hpos).mp (by
    exact_mod_cast h2)
  unfold ulp_exponent
  rw [max_eq_left (by omega)]
  omega

/-- The rounding to `float` from the exponent and the rounded quotient. -/
theorem to_float_eq_of (x : ℚ) (e n : Int) (he : ulp_exponent x = e)
    (hn : rint (x / 2 ^ e) = n) : to_float x = n * 2 ^ e := by
  unfold to_float
  rw [he, hn]

/-- A number whose quotient by its unit in the last place is an integer is a `float`. -/
theorem to_float_of_int (x : ℚ) (n : Int) (h : x / 2 ^ ulp_exponent x = n) :
    to_float x = x := by
  unfold to_float
  rw [h, rint_intCast, ← h]
  exact div_mul_cancel₀ _ (by positivity)

/-- A number `m * 2 ^ k` with `|m| < 2 ^ 24` and `k ≥ -149` is a `float`. -/
theorem to_float_exact (x : ℚ) (m k : Int) (hx : x = m * 2 ^ k) (hm : |m| < 2 ^ 24)
    (hk : -149 ≤ k) : to_float x = x := by
  by_cases h0 : x = 0
  · rw [h0, to_float_zero]
  have hle : ulp_exponent x ≤ k := by
    have habs : |x| < 2 ^ (24 + k) := by
      rw [hx, abs_mul, abs_of_pos (by positivity : (0 : ℚ) < 2 ^ k), zpow_add₀ (by norm_num)]
      apply mul_lt_mul_of_pos_right _ (by positivity)
      exact_mod_cast hm
    have hpos : 0 < |x| := abs_pos.mpr h0
    have : Int.log 2 |x| < 24 + k :=
      (Int.lt_zpow_iff_log_lt (by norm_num) hpos).mp (by exact_mod_cast habs)
    unfold ulp_exponent
    have := max_le (by omega : Int.log 2 |x| ≤ k + 23) (by omega : (-126 : Int) ≤ k + 23)
    omega
  obtain ⟨d, hd⟩ := Int.eq_ofNat_of_zero_le (by omega : 0 ≤ k - ulp_exponent x)
  apply to_float_of_int x (m * 2 ^ d)
  rw [hx, mul_div_assoc, ← zpow_sub₀ (by norm_num), ← hx, hd]
  push_cast
  rw [zpow_natCast]

/-- An integer up to `2 ^ 24` in size is a `float`. -/
theorem to_float_intCast (n : Int) (h : |n| ≤ 2 ^ 24) : to_float (n : ℚ) = n := by
  rcases h.lt_or_eq with h | h
  · exact to_float_exact _ n 0 (by simp) h (by norm_num)
  · rcases (abs_eq (by norm_num : (0 : Int) ≤ 2 ^ 24)).mp h with h | h
    · exact to_float_exact _ (2 ^ 23) 1 (by rw [h]; norm_num) (by norm_num) (by norm_num)
    · exact to_float_exact _ (-2 ^ 23) 1 (by rw [h]; norm_num) (by norm_num) (by norm_num)



theorem to_float_nonneg {x : ℚ} (h : 0 ≤ x) : 0 ≤ to_float x := by
  unfold to_float
  have : (0 : ℚ) ≤ x / 2 ^ ulp_exponent x := div_nonneg h (by positivity)
  have : 0 ≤ rint (x / 2 ^ ulp_exponent x) := le_rint (by simpa using this)
  have : (0 : ℚ) ≤ (rint (x / 2 ^ ulp_exponent x) : ℚ) := by exact_mod_cast this
  positivity

theorem to_float_nonpos {x : ℚ} (h : x ≤ 0) : to_float x ≤ 0 := by
  have := to_float_nonneg (neg_nonneg.mpr h)
  rw [to_float_neg] at this
  linarith

/-- Rounding to `float` is monotone on the positive numbers. -/
theorem to_float_mono_pos {x y : ℚ} (hx : 0 < x) (h : x ≤ y) : to_float x ≤ to_float y := by
  have hy : 0 < y := lt_of_lt_of_le hx h
  have he : ulp_exponent x ≤ ulp_exponent y :=
    ulp_exponent_mono hx.ne' (by rw [abs_of_pos hx, abs_of_pos hy]; exact h)
  rcases he.lt_or_eq with hlt | heq
  · -- different binades
    have hxlt := abs_lt_ulp x
    rw [abs_of_pos hx] at hxlt
    have hyge := ulp_le_abs y hy.ne' (by have := ulp_exponent_ge x; omega)
    rw [abs_of_pos hy] at hyge
    have hpx : (0 : ℚ) < 2 ^ ulp_exponent x := by positivity
    have hpy : (0 : ℚ) < 2 ^ ulp_exponent y := by positivity
    have a : to_float x ≤ 2 ^ (ulp_exponent x + 24) := by
      unfold to_float
      have : rint (x / 2 ^ ulp_exponent x) ≤ 2 ^ 24 := by
        apply rint_le
        rw [div_le_iff₀ hpx]
        push_cast
        have : (2 : ℚ) ^ (ulp_exponent x + 24) = 2 ^ 24 * 2 ^ ulp_exponent x := by
          rw [zpow_add₀ (by norm_num)]; norm_num; ring
        linarith
      have : (rint (x / 2 ^ ulp_exponent x) : ℚ) ≤ 2 ^ (24 : Int) := by exact_mod_cast this
      calc (rint (x / 2 ^ ulp_exponent x) : ℚ) * 2 ^ ulp_exponent x
          ≤ 2 ^ (24 : Int) * 2 ^ ulp_exponent x := mul_le_mul_of_nonneg_right this hpx.le
        _ = 2 ^ (ulp_exponent x + 24) := by rw [← zpow_add₀ (by norm_num)]; ring_nf
    have b : 2 ^ (ulp_exponent y + 23) ≤ to_float y := by
      unfold to_float
      have : 2 ^ 23 ≤ rint (y / 2 ^ ulp_exponent y) := by
        apply le_rint
        rw [le_div_iff₀ hpy]
        push_cast
        have : (2 : ℚ) ^ (ulp_exponent y + 23) = 2 ^ 23 * 2 ^ ulp_exponent y := by
          rw [zpow_add₀ (by norm_num)]; norm_num; ring
        linarith
      have : (2 : ℚ) ^ (23 : Int) ≤ (rint (y / 2 ^ ulp_exponent y) : ℚ) := by exact_mod_cast this
      calc (2 : ℚ) ^ (ulp_exponent y + 23) = 2 ^ (23 : Int) * 2 ^ ulp_exponent y := by
            rw [← zpow_add₀ (by norm_num)]; ring_nf
        _ ≤ (rint (y / 2 ^ ulp_exponent y) : ℚ) * 2 ^ ulp_exponent y :=
            mul_le_mul_of_nonneg_right this hpy.le
    have c : (2 : ℚ) ^ (ulp_exponent x + 24) ≤ 2 ^ (ulp_exponent y + 23) :=
      zpow_le_zpow_right₀ (by norm_num) (by omega)
    linarith
  · unfold to_float
    rw [← heq]
    have hpx : (0 : ℚ) < 2 ^ ulp_exponent x := by positivity
    have : rint (x / 2 ^ ulp_exponent x) ≤ rint (y / 2 ^ ulp_exponent x) :=
      rint_mono (div_le_div_of_nonneg_right h hpx.le)
    have : (rint (x / 2 ^ ulp_exponent x) : ℚ) ≤ (rint (y / 2 ^ ulp_exponent x) : ℚ) := by
      exact_mod_cast this
    exact mul_le_mul_of_nonneg_right this hpx.le

/-- Rounding to `float` is monotone. -/
theorem to_float_mono {x y : ℚ} (h : x ≤ y) : to_float x ≤ to_float y := by
  rcases lt_trichotomy 0 x with hx | hx | hx
  · exact to_float_mono_pos hx h
  · rw [← hx, to_float_zero]; exact to_float_nonneg (hx ▸ h)
  · rcases le_or_lt 0 y with hy | hy
    · exact le_trans (to_float_nonpos hx.le) (to_float_nonneg hy)
    · have := to_float_mono_pos (neg_pos.mpr hy) (neg_le_neg h)
      rw [to_float_neg, to_float_neg] at this
      linarith

/-- A `float` below `x` is below the rounding of `x`. -/
theorem le_to_float {c x : ℚ} (hc : to_float c = c) (h : c ≤ x) : c ≤ to_float x := by
  rw [← hc]; exact to_float_mono h

/-- A `float` above `x` is above the rounding of `x`. -/
theorem to_float_le {c x : ℚ} (hc : to_float c = c) (h : x ≤ c) : to_float x ≤ c := by
  rw [← hc]; exact to_float_mono h

/-- Rounding twice is rounding once. -/
theorem to_float_idem (x : ℚ) : to_float (to_float x) = to_float x := by
  by_cases h0 : x = 0
  · rw [h0, to_float_zero, to_float_zero]
  -- the rounding is `n * 2 ^ e` with `|n| ≤ 2 ^ 24`
  have hp : (0 : ℚ) < 2 ^ ulp_exponent x := by positivity
  have hlt := abs_lt_ulp x
  have hn : |rint (x / 2 ^ ulp_exponent x)| ≤ 2 ^ 24 := by
    rw [abs_le]
    constructor
    · rw [show (-2 ^ 24 : Int) = ((-2 ^ 24 : Int)) by rfl]
      apply le_rint
      rw [le_div_iff₀ hp]
      push_cast
      have : (2 : ℚ) ^ (ulp_exponent x + 24) = 2 ^ 24 * 2 ^ ulp_exponent x := by
        rw [zpow_add₀ (by norm_num)]; norm_num; ring
      have := (abs_lt.mp hlt).1
      linarith
    · apply rint_le
      rw [div_le_iff₀ hp]
      push_cast
      have : (2 : ℚ) ^ (ulp_exponent x + 24) = 2 ^ 24 * 2 ^ ulp_exponent x := by
        rw [zpow_add₀ (by norm_num)]; norm_num; ring
      have := (abs_lt.mp hlt).2
      linarith
  rcases hn.lt_or_eq with hn | hn
  · exact to_float_exact _ _ (ulp_exponent x) rfl hn (ulp_exponent_ge x)
  · rcases (abs_eq (by norm_num : (0 : Int) ≤ 2 ^ 24)).mp hn with hn | hn
    · refine to_float_exact _ (2 ^ 23) (ulp_exponent x + 1) ?_ (by norm_num)
        (by have := ulp_exponent_ge x; omega)
      unfold to_float
      rw [hn, zpow_add₀ (by norm_num)]; push_cast; ring
    · refine to_float_exact _ (-2 ^ 23) (ulp_exponent x + 1) ?_ (by norm_num)
        (by have := ulp_exponent_ge x; omega)
      unfold to_float
      rw [hn, zpow_add₀ (by norm_num)]; push_cast; ring

/-- The rounding error is at most half a unit in the last place. -/
theorem to_float_error (x : ℚ) : |to_float x - x| ≤ 2 ^ (ulp_exponent x - 1) := by
  have hp : (0 : ℚ) < 2 ^ ulp_exponent x := by positivity
  have h := rint_error (x / 2 ^ ulp_exponent x)
  have : to_float x - x =
      -((x / 2 ^ ulp_exponent x - rint (x / 2 ^ ulp_exponent x)) * 2 ^ ulp_exponent x) := by
    unfold to_float
    field_simp
    ring
  rw [this, abs_neg, abs_mul, abs_of_pos hp, zpow_sub₀ (by norm_num), zpow_one]
  calc _ ≤ 1 / 2 * 2 ^ ulp_exponent x := mul_le_mul_of_nonneg_right h hp.le
    _ = _ := by ring

/-- The rounding error of a number below `2 ^ (L + 1)` in size, `L ≥ -126`, is at most
`2 ^ (L - 24)`. -/
theorem to_float_error_of_lt (x : ℚ) (L : Int) (hL : -126 ≤ L) (h : |x| < 2 ^ (L + 1)) :
    |to_float x - x| ≤ 2 ^ (L - 24) := by
  by_cases h0 : x = 0
  · rw [h0, to_float_zero]; simp; positivity
  refine le_trans (to_float_error x) (zpow_le_zpow_right₀ (by norm_num) ?_)
  have hpos : 0 < |x| := abs_pos.mpr h0
  have : Int.log 2 |x| < L + 1 :=
    (Int.lt_zpow_iff_log_lt (by norm_num) hpos).mp (by exact_mod_cast h)
  unfold ulp_exponent
  have := max_le (by omega : Int.log 2 |x| ≤ L) hL
  omega

/-- Doubling commutes with rounding on the normal numbers. -/
theorem to_float_two_mul (x : ℚ) (h : 2 ^ (-126 : Int) ≤ |x|) :
    to_float (2 * x) = 2 * to_float x := by
  have hpos : 0 < |x| := lt_of_lt_of_le (by positivity) h
  have h1 : -126 ≤ Int.log 2 |x| :=
    (Int.zpow_le_iff_le_log (by norm_num) hpos).mp (by exact_mod_cast h)
  have h2 : Int.log 2 |2 * x| = Int.log 2 |x| + 1 := by
    have hpos2 : 0 < |2 * x| := by rw [abs_mul]; positivity
    apply le_antisymm
    · have : Int.log 2 |2 * x| < Int.log 2 |x| + 1 + 1 := by
        rw [← Int.lt_zpow_iff_log_lt (by norm_num) hpos2]
        have := Int.lt_zpow_succ_log_self (by norm_num : 1 < 2) |x|
        rw [abs_mul, abs_of_pos (by norm_num : (0 : ℚ) < 2), zpow_add_one₀ (by norm_num)]
        push_cast at this ⊢
        linarith
      omega
    · rw [← Int.zpow_le_iff_le_log (by norm_num) hpos2]
      have := Int.zpow_log_le_self (by norm_num : 1 < 2) hpos
      rw [abs_mul, abs_of_pos (by norm_num : (0 : ℚ) < 2), zpow_add_one₀ (by norm_num)]
      push_cast at this ⊢
      linarith
  have he : ulp_exponent (2 * x) = ulp_exponent x + 1 := by
    unfold ulp_exponent
    rw [h2, max_eq_left (by omega), max_eq_left h1]
    ring
  unfold to_float
  rw [he, zpow_add_one₀ (by norm_num)]
  rw [show 2 * x / (2 ^ ulp_exponent x * 2) = x / 2 ^ ulp_exponent x by field_simp; ring]
  ring



/-- Evaluation of a rounding that is not a tie: for `2 ^ L ≤ x < 2 ^ (L + 1)` the rounding
is `n * 2 ^ (L - 23)` for the integer `n` within one half of `x / 2 ^ (L - 23)`. -/
theorem to_float_eval (x : ℚ) (L n : Int) (hL : -126 ≤ L) (h1 : 2 ^ L ≤ x)
    (h2 : x < 2 ^ (L + 1)) (hlo : (n : ℚ) - 1 / 2 < x / 2 ^ (L - 23))
    (hhi : x / 2 ^ (L - 23) < (n : ℚ) + 1 / 2) :
    to_float x = n * 2 ^ (L - 23) := by
  have hpos : 0 < x := lt_of_lt_of_le (by positivity) h1
  refine to_float_eq_of x (L - 23) n (ulp_exponent_eq x L hL ?_ ?_) (rint_eq_of _ n (Or.inl ?_))
  · rwa [abs_of_pos hpos]
  · rwa [abs_of_pos hpos]
  · rw [abs_lt]; constructor <;> linarith

/-- Evaluation of the rounding of a negative number that is not a tie. -/
theorem to_float_eval_neg (x : ℚ) (L n : Int) (hL : -126 ≤ L) (h1 : 2 ^ L ≤ -x)
    (h2 : -x < 2 ^ (L + 1)) (hlo : (n : ℚ) - 1 / 2 < -x / 2 ^ (L - 23))
    (hhi : -x / 2 ^ (L - 23) < (n : ℚ) + 1 / 2) :
    to_float x = -(n * 2 ^ (L - 23)) := by
  have := to_float_eval (-x) L n hL h1 h2 hlo hhi
  rw [to_float_neg] at this
  linarith

/-- Evaluation of a rounding that is a tie: `x / 2 ^ (L - 23)` lies half-way between two
integers and `n` is the even one. -/
theorem to_float_eval_tie (x : ℚ) (L n : Int) (hL : -126 ≤ L) (h1 : 2 ^ L ≤ x)
    (h2 : x < 2 ^ (L + 1))
    (hd : x / 2 ^ (L - 23) - n = 1 / 2 ∨ x / 2 ^ (L - 23) - n = -(1 / 2))
    (he : n % 2 = 0) : to_float x = n * 2 ^ (L - 23) := by
  have hpos : 0 < x := lt_of_lt_of_le (by positivity) h1
  refine to_float_eq_of x (L - 23) n (ulp_exponent_eq x L hL ?_ ?_)
    (rint_eq_of _ n (Or.inr ⟨?_, he⟩))
  · rwa [abs_of_pos hpos]
  · rwa [abs_of_pos hpos]
  · rcases hd with hd | hd <;> rw [hd] <;> norm_num

/-- Evaluation of the rounding of a negative number that is a tie. -/
theorem to_float_eval_tie_neg (x : ℚ) (L n : Int) (hL : -126 ≤ L) (h1 : 2 ^ L ≤ -x)
    (h2 : -x < 2 ^ (L + 1))
    (hd : -x / 2 ^ (L - 23) - n = 1 / 2 ∨ -x / 2 ^ (L - 23) - n = -(1 / 2))
    (he : n % 2 = 0) : to_float x = -(n * 2 ^ (L - 23)) := by
  have := to_float_eval_tie (-x) L n hL h1 h2 hd he
  rw [to_float_neg] at this
  linarith

/-- A natural number up to `2 ^ 24` is a `float`. -/
theorem to_float_natCast (n : ℕ) (h : n ≤ 2 ^ 24) : to_float (n : ℚ) = n := by
  have := to_float_intCast (n : Int) (by rw [abs_of_nonneg (by positivity)]; exact_mod_cast h)
  exact_mod_cast this

theorem to_float_one : to_float 1 = 1 := by
  simpa using to_float_natCast 1 (by norm_num)

theorem to_float_neg_one : to_float (-1) = -1 := by
  rw [to_float_neg, to_float_one]

theorem to_float_two : to_float 2 = 2 := by
  simpa using to_float_natCast 2 (by norm_num)

theorem to_float_half : to_float (1 / 2) = 1 / 2 :=
  to_float_exact _ 1 (-1) (by norm_num) (by norm_num) (by norm_num)

theorem to_float_three_quarters : to_float (3 / 4) = 3 / 4 :=
  to_float_exact _ 3 (-2) (by norm_num) (by norm_num) (by norm_num)

/-- The literal `0.9f` is `7549747 / 2 ^ 23`, just below `0.9`. -/
theorem to_float_nine_tenths : to_float (9 / 10) = 7549747 / 8388608 :=
  (to_float_eval (9 / 10) (-1) 15099494 (by norm_num) (by norm_num) (by norm_num)
    (by norm_num) (by norm_num)).trans (by norm_num)

/-- A conversion of an `int` that is not below `1` is not below `1`. -/
theorem one_le_to_float_intCast (n : Int) (h : 1 ≤ n) : 1 ≤ to_float (n : ℚ) :=
  le_to_float to_float_one (by exact_mod_cast h)

/-! ## The intensity ramp -/

/-- The intensity of the ramp is the shape of the phase. -/
theorem TriangleSeries_ramp (i F : Int) :
    TriangleSeries i F 0 (3 / 4) = TriangleSeries.shape (TriangleSeries.phase i F) := by
  unfold TriangleSeries TriangleSeries.shape TriangleSeries.phase
  simp only [to_float_zero, to_float_three_quarters, sub_zero]

theorem phase_zero (F : Int) : TriangleSeries.phase 0 F = 0 := by
  unfold TriangleSeries.phase
  simp [to_float_zero]

/-- Doubling the conversion of a positive `int` is exact. -/
theorem to_float_double_intCast (k : Int) (hk : 0 < k) :
    to_float (2 * to_float (k : ℚ)) = 2 * to_float (k : ℚ) := by
  have h1 := one_le_to_float_intCast k hk
  rw [to_float_two_mul _ _, to_float_idem]
  rw [abs_of_pos (by linarith)]
  exact le_trans (by norm_num) h1

theorem phase_full (F : Int) (hF : 0 < F) : TriangleSeries.phase F F = 2 := by
  unfold TriangleSeries.phase
  have h1 := one_le_to_float_intCast F hF
  rw [to_float_double_intCast F hF, mul_div_assoc, div_self (by linarith), mul_one,
    to_float_two]

theorem phase_half (k : Int) (hk : 0 < k) : TriangleSeries.phase k (2 * k) = 1 := by
  unfold TriangleSeries.phase
  have h1 := one_le_to_float_intCast k hk
  have h2 : to_float ((2 * k : Int) : ℚ) = 2 * to_float (k : ℚ) := by
    push_cast
    apply to_float_two_mul
    rw [abs_of_pos (by exact_mod_cast hk)]
    exact le_trans (by norm_num) (by exact_mod_cast hk : (1 : ℚ) ≤ k)
  rw [to_float_double_intCast k hk, h2, div_self (by linarith), to_float_one]

theorem phase_mono (F : Int) (hF : 0 < F) {i j : Int} (h : i ≤ j) :
    TriangleSeries.phase i F ≤ TriangleSeries.phase j F := by
  unfold TriangleSeries.phase
  have h1 := one_le_to_float_intCast F hF
  apply to_float_mono
  apply div_le_div_of_nonneg_right _ (by linarith)
  apply to_float_mono
  have : to_float (i : ℚ) ≤ to_float (j : ℚ) := to_float_mono (by exact_mod_cast h)
  linarith

theorem shape_zero : TriangleSeries.shape 0 = 0 := by
  unfold TriangleSeries.shape
  rw [zero_sub, to_float_neg_one]
  rw [show (3 / 4 : ℚ) * -1 = -(3 / 4) by norm_num, to_float_neg, to_float_three_quarters]
  rw [abs_neg, abs_of_pos (by norm_num)]
  rw [sub_self, to_float_zero]

theorem shape_two : TriangleSeries.shape 2 = 0 := by
  unfold TriangleSeries.shape
  rw [show (2 : ℚ) - 1 = 1 by norm_num, to_float_one, mul_one, to_float_three_quarters,
    abs_of_pos (by norm_num), sub_self, to_float_zero]

theorem shape_one : TriangleSeries.shape 1 = 3 / 4 := by
  unfold TriangleSeries.shape
  rw [sub_self, to_float_zero, mul_zero, to_float_zero, abs_zero, sub_zero,
    to_float_three_quarters]

/-- The inner product of the shape, `0.75f * (p - 1.0f)`, is monotone in `p`. -/
theorem shape_inner_mono {p q : ℚ} (h : p ≤ q) :
    to_float (3 / 4 * to_float (p - 1)) ≤ to_float (3 / 4 * to_float (q - 1)) := by
  apply to_float_mono
  have : to_float (p - 1) ≤ to_float (q - 1) := to_float_mono (by linarith)
  linarith

theorem shape_inner_one : to_float (3 / 4 * to_float ((1 : ℚ) - 1)) = 0 := by
  rw [sub_self, to_float_zero, mul_zero, to_float_zero]

/-- The shape rises up to the phase `1`. -/
theorem shape_mono_rising {p q : ℚ} (h : p ≤ q) (hq : q ≤ 1) :
    TriangleSeries.shape p ≤ TriangleSeries.shape q := by
  unfold TriangleSeries.shape
  have hp0 := shape_inner_mono (le_trans h hq)
  have hq0 := shape_inner_mono hq
  rw [shape_inner_one] at hp0 hq0
  have hpq := shape_inner_mono h
  rw [abs_of_nonpos hp0, abs_of_nonpos hq0]
  apply to_float_mono
  linarith

/-- The shape falls from the phase `1` on. -/
theorem shape_mono_falling {p q : ℚ} (h : p ≤ q) (hp : 1 ≤ p) :
    TriangleSeries.shape q ≤ TriangleSeries.shape p := by
  unfold TriangleSeries.shape
  have hp0 := shape_inner_mono hp
  have hq0 := shape_inner_mono (le_trans hp h)
  rw [shape_inner_one] at hp0 hq0
  have hpq := shape_inner_mono h
  rw [abs_of_nonneg hp0, abs_of_nonneg hq0]
  apply to_float_mono
  linarith

/-- The shape lies between `0` and `0.75` for a phase between `0` and `2`. -/
theorem shape_bounds {p : ℚ} (h0 : 0 ≤ p) (h2 : p ≤ 2) :
    0 ≤ TriangleSeries.shape p ∧ TriangleSeries.shape p ≤ 3 / 4 := by
  constructor
  · rcases le_total p 1 with h | h
    · rw [← shape_zero]; exact shape_mono_rising h0 h
    · rw [← shape_two]; exact shape_mono_falling h2 h
  · rcases le_total p 1 with h | h
    · rw [← shape_one]; exact shape_mono_rising h le_rfl
    · rw [← shape_one]; exact shape_mono_falling h le_rfl

theorem phase_bounds (i F : Int) (h0 : 0 ≤ i) (hi : i ≤ F) (hF : 0 < F) :
    0 ≤ TriangleSeries.phase i F ∧ TriangleSeries.phase i F ≤ 2 := by
  constructor
  · rw [← phase_zero F]; exact phase_mono F hF h0
  · rw [← phase_full F hF]; exact phase_mono F hF hi

/-! ## The threshold of the noise regeneration -/

/-- The difference `0.5f - 0.9f` of the two literals of the threshold is exact. -/
theorem to_float_threshold_slope :
    to_float (1 / 2 - 7549747 / 8388608) = -(3355443 / 8388608) :=
  (to_float_exact (1 / 2 - 7549747 / 8388608) (-3355443) (-23) (by norm_num) (by norm_num)
    (by norm_num)).trans (by norm_num)

/-- The threshold `Lerp(0.9f, 0.5f, t)` of the noise regeneration, with the literals and
their difference evaluated. -/
theorem Lerp_threshold (t : ℚ) :
    Lerp (9 / 10) (1 / 2) t =
      to_float (7549747 / 8388608 + to_float (-(3355443 / 8388608) * to_float t)) := by
  unfold Lerp
  simp only [to_float_nine_tenths, to_float_half, to_float_threshold_slope]

/-- The threshold of the noise regeneration does not increase with the intensity. -/
theorem Lerp_threshold_antitone {s t : ℚ} (h : s ≤ t) :
    Lerp (9 / 10) (1 / 2) t ≤ Lerp (9 / 10) (1 / 2) s := by
  rw [Lerp_threshold, Lerp_threshold]
  apply to_float_mono
  have h1 : to_float s ≤ to_float t := to_float_mono h
  have h2 : to_float (-(3355443 / 8388608) * to_float t) ≤
      to_float (-(3355443 / 8388608) * to_float s) := to_float_mono (by linarith)
  linarith

/-- At intensity `0` the threshold is the literal `0.9f`. -/
theorem Lerp_threshold_zero : Lerp (9 / 10) (1 / 2) 0 = 7549747 / 8388608 := by
  rw [Lerp_threshold, to_float_zero, mul_zero, to_float_zero, add_zero]
  exact (congrArg to_float to_float_nine_tenths.symm).trans
    ((to_float_idem _).trans to_float_nine_tenths)

/-- At intensity `1` the threshold is `0.5`. -/
theorem Lerp_threshold_one : Lerp (9 / 10) (1 / 2) 1 = 1 / 2 := by
  rw [Lerp_threshold, to_float_one, mul_one, to_float_neg]
  rw [(to_float_exact (3355443 / 8388608) 3355443 (-23) (by norm_num) (by norm_num)
    (by norm_num))]
  rw [show (7549747 / 8388608 : ℚ) + -(3355443 / 8388608) = 1 / 2 by norm_num, to_float_half]

/-- At intensity `0.75` the threshold is `5033165 / 2 ^ 23`, just above `0.6`. -/
theorem Lerp_threshold_three_quarters : Lerp (9 / 10) (1 / 2) (3 / 4) = 5033165 / 8388608 := by
  rw [Lerp_threshold, to_float_three_quarters]
  rw [((to_float_exact (-(3355443 / 8388608) * (3 / 4)) (-10066329) (-25) (by norm_num)
    (by norm_num) (by norm_num)).trans (by norm_num) :
      to_float (-(3355443 / 8388608) * (3 / 4)) = -(10066329 / 33554432))]
  exact ((to_float_eval_tie (7549747 / 8388608 + (-(10066329 / 33554432))) (-1) 10066330
    (by norm_num) (by norm_num) (by norm_num) (Or.inr (by norm_num)) (by norm_num)).trans
    (by norm_num))

/-- On the intensities of a run, `[0, 0.75]`, the threshold lies in `[0.6, 0.9]`. -/
theorem Lerp_threshold_bounds (x : ℚ) (h0 : 0 ≤ x) (h1 : x ≤ 3 / 4) :
    3 / 5 ≤ Lerp (9 / 10) (1 / 2) x ∧ Lerp (9 / 10) (1 / 2) x ≤ 9 / 10 := by
  have a := Lerp_threshold_antitone h1
  have b := Lerp_threshold_antitone h0
  rw [Lerp_threshold_three_quarters] at a
  rw [Lerp_threshold_zero] at b
  constructor
  · exact le_trans (by norm_num) a
  · exact le_trans b (by norm_num)

/-- The threshold differs from `0.9 - 0.4 t` by at most `2 ^ (-23)` on `[0, 1]`. -/
theorem Lerp_threshold_error (t : ℚ) (h0 : 0 ≤ t) (h1 : t ≤ 1) :
    |Lerp (9 / 10) (1 / 2) t - (9 / 10 - 2 / 5 * t)| ≤ 1 / 8388608 := by
  rw [Lerp_threshold]
  have ht0 : 0 ≤ to_float t := to_float_nonneg h0
  have ht1 : to_float t ≤ 1 := to_float_le to_float_one h1
  have et := to_float_error_of_lt t 0 (by norm_num)
    (by rw [abs_of_nonneg h0]; exact lt_of_le_of_lt h1 (by norm_num))
  have ep := to_float_error_of_lt (-(3355443 / 8388608) * to_float t) (-2) (by norm_num)
    (by
      rw [abs_mul, abs_neg, abs_of_pos (by norm_num : (0 : ℚ) < 3355443 / 8388608),
        abs_of_nonneg ht0]
      have : (3355443 / 8388608 : ℚ) * to_float t ≤ 3355443 / 8388608 := by nlinarith
      exact lt_of_le_of_lt this (by norm_num))
  generalize to_float t = u at ht0 ht1 et ep ⊢
  generalize to_float (-(3355443 / 8388608) * u) = p at ep ⊢
  have e0 : (2 : ℚ) ^ ((0 : Int) - 24) = 1 / 16777216 := by norm_num
  have e2 : (2 : ℚ) ^ ((-2 : Int) - 24) = 1 / 67108864 := by norm_num
  have e1 : (2 : ℚ) ^ ((-1 : Int) - 24) = 1 / 33554432 := by norm_num
  rw [e0] at et
  rw [e2] at ep
  have et' := abs_le.mp et
  have ep' := abs_le.mp ep
  have es := to_float_error_of_lt (7549747 / 8388608 + p) (-1) (by norm_num)
    (by
      rw [abs_lt]
      norm_num
      constructor <;> linarith [ep'.1, ep'.2])
  generalize to_float (7549747 / 8388608 + p) = s at es ⊢
  rw [e1] at es
  have es' := abs_le.mp es
  rw [abs_le]
  constructor <;> linarith [et'.1, et'.2, ep'.1, ep'.2, es'.1, es'.2]

theorem regenerates_iff (t r : ℚ) :
    DigitalGlitch.regenerates t r = true ↔ Lerp (9 / 10) (1 / 2) t < r := by
  unfold DigitalGlitch.regenerates
  rw [decide_eq_true_iff, Rat.cast_id]

/-- At intensity `0.75` the threshold is the `float` `5033165 / 2 ^ 23`, above `0.6`: that
draw, which exceeds `0.6`, does not regenerate the noise texture. -/
theorem regenerates_at_threshold :
    DigitalGlitch.regenerates (3 / 4) (5033165 / 8388608 : ℚ) = false ∧
      (3 / 5 : ℚ) < 5033165 / 8388608 := by
  refine ⟨?_, by norm_num⟩
  rw [← Bool.not_eq_true, regenerates_iff, Lerp_threshold_three_quarters]
  exact lt_irrefl _

theorem regenerates_real_iff (t : ℚ) (r : ℝ) :
    DigitalGlitch.regenerates t r = true ↔ ((Lerp (9 / 10) (1 / 2) t : ℚ) : ℝ) < r := by
  unfold DigitalGlitch.regenerates
  rw [decide_eq_true_iff]

/-- The real draws of `[0, 1)` for which the noise texture is regenerated are those above
the threshold. -/
theorem regenerates_set (t : ℚ) (h1 : t ≤ 1) :
    {r : ℝ | 0 ≤ r ∧ r < 1 ∧ DigitalGlitch.regenerates t r = true} =
      Set.Ioo ((Lerp (9 / 10) (1 / 2) t : ℚ) : ℝ) 1 := by
  have hthr : (1 / 2 : ℚ) ≤ Lerp (9 / 10) (1 / 2) t :=
    le_of_eq_of_le Lerp_threshold_one.symm (Lerp_threshold_antitone h1)
  have hthr' : (1 / 2 : ℝ) ≤ ((Lerp (9 / 10) (1 / 2) t : ℚ) : ℝ) := by
    have h : (((1 / 2 : ℚ)) : ℝ) ≤ ((Lerp (9 / 10) (1 / 2) t : ℚ) : ℝ) :=
      Rat.cast_le.mpr hthr
    rwa [Rat.cast_div, Rat.cast_one, Rat.cast_ofNat] at h
  ext r
  simp only [Set.mem_setOf_eq, Set.mem_Ioo, regenerates_real_iff]
  constructor
  · rintro ⟨-, h, h'⟩; exact ⟨h', h⟩
  · rintro ⟨h, h'⟩; exact ⟨by linarith, h', h⟩

/-- The share of the draws of `[0, 1)` for which the noise texture is regenerated. -/
theorem regenerates_volume (t : ℚ) (h1 : t ≤ 1) :
    MeasureTheory.volume {r : ℝ | 0 ≤ r ∧ r < 1 ∧ DigitalGlitch.regenerates t r = true} =
      ENNReal.ofReal (1 - ((Lerp (9 / 10) (1 / 2) t : ℚ) : ℝ)) := by
  rw [regenerates_set t h1, Real.volume_Ioo]

/-- The literal `0.89f` is `7465861 / 2 ^ 23`, just below `0.89`. -/
theorem to_float_eighty_nine_hundredths : to_float (89 / 100) = 7465861 / 8388608 :=
  (to_float_eval (89 / 100) (-1) 14931722 (by norm_num) (by norm_num) (by norm_num)
    (by norm_num) (by norm_num)).trans (by norm_num)

/-- A `float` draw exceeds the literal `0.89f` exactly when it exceeds `0.89`. -/
theorem noise_threshold_float (r : ℚ) (hr : to_float r = r) :
    r > to_float (89 / 100) ↔ r > 89 / 100 := by
  constructor
  · intro h
    by_contra hle
    have := to_float_mono (not_lt.mp hle)
    rw [hr] at this
    exact absurd h (not_lt.mpr this)
  · intro h
    rw [to_float_eighty_nine_hundredths]
    exact lt_trans (by norm_num) h

/-! ## Arithmetic of the frame count and of the timer interval -/

/-- Clearing bit 0 of a natural number: `m & ~1 = 2 * (m / 2)`. -/
theorem ldiff_one (m : ℕ) : Nat.ldiff m 1 = 2 * (m / 2) := by
  apply Nat.eq_of_testBit_eq
  intro i
  rw [Nat.testBit_ldiff]
  cases i with
  | zero => simp [Nat.testBit_zero]
  | succ j => simp [Nat.testBit_succ]

/-- On a non-negative `int`, `n & ~1` is `n - n % 2`. -/
theorem land_not_one (n : Int) (h : 0 ≤ n) : Int.land n (Int.not 1) = n - n % 2 := by
  obtain ⟨m, rfl⟩ := Int.eq_ofNat_of_zero_le h
  show ((Nat.ldiff m 1 : ℕ) : Int) = _
  rw [ldiff_one]
  omega

/-- On a non-negative argument `floor_to_even` is the floor with its parity removed. -/
theorem floor_to_even_eq {K : Type} [LinearOrderedField K] [FloorRing K] (x : K) (h : 0 ≤ x) :
    floor_to_even x = ⌊x⌋ - ⌊x⌋ % 2 := by
  unfold floor_to_even static_cast_int
  rw [if_pos h]
  exact land_not_one _ (Int.floor_nonneg.mpr h)

theorem to_float_fifteen : to_float 15 = 15 := by
  simpa using to_float_natCast 15 (by norm_num)

theorem to_float_forty : to_float 40 = 40 := by
  simpa using to_float_natCast 40 (by norm_num)

theorem to_float_fifty_five : to_float 55 = 55 := by
  simpa using to_float_natCast 55 (by norm_num)

/-- For a draw in `[0, 1]` the `float` sum `15 + r * 40` lies between `15` and `55`. -/
theorem frames_sum_bounds (r : ℚ) (h0 : 0 ≤ r) (h1 : r ≤ 1) :
    15 ≤ to_float (to_float 15 + to_float (r * to_float 40)) ∧
      to_float (to_float 15 + to_float (r * to_float 40)) ≤ 55 := by
  rw [to_float_fifteen, to_float_forty]
  have hp0 : 0 ≤ to_float (r * 40) := to_float_nonneg (by linarith)
  have hp1 : to_float (r * 40) ≤ 40 := to_float_le to_float_forty (by linarith)
  exact ⟨le_to_float to_float_fifteen (by linarith),
    to_float_le to_float_fifty_five (by linarith)⟩

/-- The draw `0` gives the minimal frame count `14`. -/
theorem frames_zero : RenderFrame.frames 0 = 14 := by
  unfold RenderFrame.frames
  rw [zero_mul, to_float_zero, add_zero, to_float_idem, to_float_fifteen,
    floor_to_even_eq _ (by norm_num)]
  norm_num

/-- The draw `3355443 / 2 ^ 27`, a `float`: the exact sum `15 + r * 40` is below `16`, the
`float` sum is `16`, and so is the frame count. -/
theorem frames_rounded_up : RenderFrame.frames (3355443 / 134217728) = 16 := by
  unfold RenderFrame.frames
  rw [to_float_fifteen, to_float_forty]
  rw [((to_float_exact (3355443 / 134217728 * 40) (16777215) (-24) (by norm_num)
    (by norm_num) (by norm_num)).trans (by norm_num) :
      to_float (3355443 / 134217728 * 40) = 16777215 / 16777216)]
  rw [((to_float_eval (15 + 16777215 / 16777216) 3 16777216 (by norm_num) (by norm_num)
    (by norm_num) (by norm_num) (by norm_num)).trans (by norm_num) :
      to_float (15 + 16777215 / 16777216) = 16)]
  rw [floor_to_even_eq _ (by norm_num)]
  norm_num

/-- For a draw in `[0, 1]` the frame count is even and lies between 14 and 54. -/
theorem frames_even_bounds (r : ℚ) (h0 : 0 ≤ r) (h1 : r ≤ 1) :
    RenderFrame.frames r % 2 = 0 ∧ 14 ≤ RenderFrame.frames r ∧ RenderFrame.frames r ≤ 54 := by
  obtain ⟨hlo, hhi⟩ := frames_sum_bounds r h0 h1
  unfold RenderFrame.frames
  rw [floor_to_even_eq _ (by linarith)]
  have a : (15 : Int) ≤ ⌊to_float (to_float 15 + to_float (r * to_float 40))⌋ :=
    Int.le_floor.mpr (by push_cast; linarith)
  have b : ⌊to_float (to_float 15 + to_float (r * to_float 40))⌋ < (56 : Int) :=
    Int.floor_lt.mpr (by push_cast; linarith)
  omega

/-- For a draw in `[0, 1]` the frame count is an even natural number between 14 and 54. -/
theorem frames_range (r : ℚ) (h0 : 0 ≤ r) (h1 : r ≤ 1) (F : Nat)
    (hF : RenderFrame.frames r = F) : F % 2 = 0 ∧ 14 ≤ F ∧ F ≤ 54 := by
  have := frames_even_bounds r h0 h1
  omega

theorem to_float_thousand : to_float 1000 = 1000 := by
  simpa using to_float_natCast 1000 (by norm_num)

theorem to_float_thirty_thousand : to_float 30000 = 30000 := by
  simpa using to_float_natCast 30000 (by norm_num)

/-- The value of `RandomInt(1000, 30000)` for the draw `r`. -/
theorem ScheduleGlitch_value (host : Host) (ctx : RenderContext) :
    (RootWindow.ScheduleGlitch host ctx).1 =
      static_cast_int (to_float (1000 + to_float (host.RandomFloat ctx.draws * 29000))) := by
  unfold RootWindow.ScheduleGlitch RandomInt
  simp only [RandomFloat]
  have h1 : to_float ((1000 : Int) : ℚ) = 1000 := by
    simpa using to_float_intCast 1000 (by norm_num)
  have h2 : to_float (((30000 : Int) - 1000 : Int) : ℚ) = 29000 := by
    simpa using to_float_intCast 29000 (by norm_num)
  rw [h1, h2]

/-- For a draw in `[0, 1]` the `float` sum `1000 + r * 29000` lies between `1000` and
`30000`. -/
theorem ScheduleGlitch_sum_bounds (r : ℚ) (h0 : 0 ≤ r) (h1 : r ≤ 1) :
    1000 ≤ to_float (1000 + to_float (r * 29000)) ∧
      to_float (1000 + to_float (r * 29000)) ≤ 30000 := by
  have h29 : to_float 29000 = 29000 := by simpa using to_float_natCast 29000 (by norm_num)
  have hp0 : 0 ≤ to_float (r * 29000) := to_float_nonneg (by linarith)
  have hp1 : to_float (r * 29000) ≤ 29000 := to_float_le h29 (by linarith)
  exact ⟨le_to_float to_float_thousand (by linarith),
    to_float_le to_float_thirty_thousand (by linarith)⟩

/-- The draw `2369637 / 2 ^ 36`, a `float`: the exact sum `1000 + r * 29000` is below
`1001`, the `float` sum is `1001`, and so is the interval. -/
theorem ScheduleGlitch_rounded_up (host : Host) (ctx : RenderContext)
    (h : host.RandomFloat ctx.draws = 2369637 / 68719476736) :
    (RootWindow.ScheduleGlitch host ctx).1 = 1001 := by
  rw [ScheduleGlitch_value, h]
  rw [((to_float_eval (2369637 / 68719476736 * 29000) (-1) 16777215 (by norm_num)
    (by norm_num) (by norm_num) (by norm_num) (by norm_num)).trans (by norm_num) :
      to_float (2369637 / 68719476736 * 29000) = 16777215 / 16777216)]
  rw [((to_float_eval (1000 + 16777215 / 16777216) 9 16400384 (by norm_num) (by norm_num)
    (by norm_num) (by norm_num) (by norm_num)).trans (by norm_num) :
      to_float (1000 + 16777215 / 16777216) = 1001)]
  norm_num [static_cast_int]

/-! ## The ramp of fourteen frames -/

/-- The ramp intensity of frame 0 of a run of 14 frames. -/
theorem ramp_fourteen_zero : TriangleSeries 0 14 0 (3 / 4) = 0 := by
  have h0 : to_float 0 = 0 :=
    ((congrArg to_float (by norm_num : (0 : ℚ) = 0)).trans to_float_zero)
  have h1 : to_float (2 * 0) = 0 :=
    ((congrArg to_float (by norm_num : ((2 * 0) : ℚ) = 0)).trans to_float_zero)
  have h2 : to_float 14 = 14 :=
    ((to_float_exact 14 (7) (1) (by norm_num) (by norm_num) (by norm_num)).trans (by norm_num))
  have h3 : to_float (0 / 14) = 0 :=
    ((congrArg to_float (by norm_num : ((0 / 14) : ℚ) = 0)).trans to_float_zero)
  have h4 : to_float (0 - 1) = (-1) :=
    ((to_float_exact (0 - 1) (-1) (0) (by norm_num) (by norm_num) (by norm_num)).trans (by
      norm_num))
  have h5 : to_float (3 / 4 * (-1)) = (-(3 / 4)) :=
    ((to_float_exact (3 / 4 * (-1)) (-3) (-2) (by norm_num) (by norm_num) (by norm_num)).trans (by
      norm_num))
  have h6 : to_float (3 / 4 - (3 / 4)) = 0 :=
    ((congrArg to_float (by norm_num : ((3 / 4 - (3 / 4)) : ℚ) = 0)).trans to_float_zero)
  have habs : |((-(3 / 4)) : ℚ)| = (3 / 4) := by
    rw [abs_of_neg (by norm_num)]; norm_num
  rw [TriangleSeries_ramp]
  unfold TriangleSeries.shape TriangleSeries.phase
  simp only [Int.cast_ofNat, Int.cast_zero, Int.cast_one]
  rw [h0, h1, h2, h3, h4, h5, habs, h6]

/-- The ramp intensity of frame 1 of a run of 14 frames. -/
theorem ramp_fourteen_one : TriangleSeries 1 14 0 (3 / 4) = 1797559 / 16777216 := by
  have h0 : to_float 1 = 1 :=
    ((to_float_exact 1 (1) (0) (by norm_num) (by norm_num) (by norm_num)).trans (by norm_num))
  have h1 : to_float (2 * 1) = 2 :=
    ((to_float_exact (2 * 1) (1) (1) (by norm_num) (by norm_num) (by norm_num)).trans (by norm_num))
  have h2 : to_float 14 = 14 :=
    ((to_float_exact 14 (7) (1) (by norm_num) (by norm_num) (by norm_num)).trans (by norm_num))
  have h3 : to_float (2 / 14) = (9586981 / 67108864) :=
    ((to_float_eval (2 / 14) (-3) 9586981 (by norm_num) (by norm_num) (by norm_num) (by norm_num)
      (by norm_num)).trans (by norm_num))
  have h4 : to_float ((9586981 / 67108864) - 1) = (-(14380471 / 16777216)) :=
    ((to_float_eval_neg ((9586981 / 67108864) - 1) (-1) 14380471 (by norm_num) (by norm_num) (by
      norm_num) (by norm_num) (by norm_num)).trans (by norm_num))
  have h5 : to_float (3 / 4 * (-(14380471 / 16777216))) = (-(10785353 / 16777216)) :=
    ((to_float_eval_neg (3 / 4 * (-(14380471 / 16777216))) (-1) 10785353 (by norm_num) (by
      norm_num) (by norm_num) (by norm_num) (by norm_num)).trans (by norm_num))
  have h6 : to_float (3 / 4 - (10785353 / 16777216)) = (1797559 / 16777216) :=
    ((to_float_exact (3 / 4 - (10785353 / 16777216)) (1797559) (-24) (by norm_num) (by norm_num)
      (by norm_num)).trans (by norm_num))
  have habs : |((-(10785353 / 16777216)) : ℚ)| = (10785353 / 16777216) := by
    rw [abs_of_neg (by norm_num)]; norm_num
  rw [TriangleSeries_ramp]
  unfold TriangleSeries.shape TriangleSeries.phase
  simp only [Int.cast_ofNat, Int.cast_zero, Int.cast_one]
  rw [h0, h1, h2, h3, h4, h5, habs, h6]

/-- The ramp intensity of frame 2 of a run of 14 frames. -/
theorem ramp_fourteen_two : TriangleSeries 2 14 0 (3 / 4) = 1797559 / 8388608 := by
  have h0 : to_float 2 = 2 :=
    ((to_float_exact 2 (1) (1) (by norm_num) (by norm_num) (by norm_num)).trans (by norm_num))
  have h1 : to_float (2 * 2) = 4 :=
    ((to_float_exact (2 * 2) (1) (2) (by norm_num) (by norm_num) (by norm_num)).trans (by norm_num))
  have h2 : to_float 14 = 14 :=
    ((to_float_exact 14 (7) (1) (by norm_num) (by norm_num) (by norm_num)).trans (by norm_num))
  have h3 : to_float (4 / 14) = (9586981 / 33554432) :=
    ((to_float_eval (4 / 14) (-2) 9586981 (by norm_num) (by norm_num) (by norm_num) (by norm_num)
      (by norm_num)).trans (by norm_num))
  have h4 : to_float ((9586981 / 33554432) - 1) = (-(5991863 / 8388608)) :=
    ((to_float_eval_tie_neg ((9586981 / 33554432) - 1) (-1) 11983726 (by norm_num) (by norm_num)
      (by norm_num) (Or.inr (by norm_num)) (by norm_num)).trans (by norm_num))
  have h5 : to_float (3 / 4 * (-(5991863 / 8388608))) = (-(4493897 / 8388608)) :=
    ((to_float_eval_tie_neg (3 / 4 * (-(5991863 / 8388608))) (-1) 8987794 (by norm_num) (by
      norm_num) (by norm_num) (Or.inl (by norm_num)) (by norm_num)).trans (by norm_num))
  have h6 : to_float (3 / 4 - (4493897 / 8388608)) = (1797559 / 8388608) :=
    ((to_float_exact (3 / 4 - (4493897 / 8388608)) (1797559) (-23) (by norm_num) (by norm_num) (by
      norm_num)).trans (by norm_num))
  have habs : |((-(4493897 / 8388608)) : ℚ)| = (4493897 / 8388608) := by
    rw [abs_of_neg (by norm_num)]; norm_num
  rw [TriangleSeries_ramp]
  unfold TriangleSeries.shape TriangleSeries.phase
  simp only [Int.cast_ofNat, Int.cast_zero, Int.cast_one]
  rw [h0, h1, h2, h3, h4, h5, habs, h6]

/-- The ramp intensity of frame 3 of a run of 14 frames. -/
theorem ramp_fourteen_three : TriangleSeries 3 14 0 (3 / 4) = 5392677 / 16777216 := by
  have h0 : to_float 3 = 3 :=
    ((to_float_exact 3 (3) (0) (by norm_num) (by norm_num) (by norm_num)).trans (by norm_num))
  have h1 : to_float (2 * 3) = 6 :=
    ((to_float_exact (2 * 3) (3) (1) (by norm_num) (by norm_num) (by norm_num)).trans (by norm_num))
  have h2 : to_float 14 = 14 :=
    ((to_float_exact 14 (7) (1) (by norm_num) (by norm_num) (by norm_num)).trans (by norm_num))
  have h3 : to_float (6 / 14) = (14380471 / 33554432) :=
    ((to_float_eval (6 / 14) (-2) 14380471 (by norm_num) (by norm_num) (by norm_num) (by norm_num)
      (by norm_num)).trans (by norm_num))
  have h4 : to_float ((14380471 / 33554432) - 1) = (-(2396745 / 4194304)) :=
    ((to_float_eval_tie_neg ((14380471 / 33554432) - 1) (-1) 9586980 (by norm_num) (by norm_num)
      (by norm_num) (Or.inl (by norm_num)) (by norm_num)).trans (by norm_num))
  have h5 : to_float (3 / 4 * (-(2396745 / 4194304))) = (-(7190235 / 16777216)) :=
    ((to_float_exact (3 / 4 * (-(2396745 / 4194304))) (-7190235) (-24) (by norm_num) (by norm_num)
      (by norm_num)).trans (by norm_num))
  have h6 : to_float (3 / 4 - (7190235 / 16777216)) = (5392677 / 16777216) :=
    ((to_float_exact (3 / 4 - (7190235 / 16777216)) (5392677) (-24) (by norm_num) (by norm_num)
      (by norm_num)).trans (by norm_num))
  have habs : |((-(7190235 / 16777216)) : ℚ)| = (7190235 / 16777216) := by
    rw [abs_of_neg (by norm_num)]; norm_num
  rw [TriangleSeries_ramp]
  unfold TriangleSeries.shape TriangleSeries.phase
  simp only [Int.cast_ofNat, Int.cast_zero, Int.cast_one]
  rw [h0, h1, h2, h3, h4, h5, habs, h6]

/-- The ramp intensity of frame 4 of a run of 14 frames. -/
theorem ramp_fourteen_four : TriangleSeries 4 14 0 (3 / 4) = 1797559 / 4194304 := by
  have h0 : to_float 4 = 4 :=
    ((to_float_exact 4 (1) (2) (by norm_num) (by norm_num) (by norm_num)).trans (by norm_num))
  have h1 : to_float (2 * 4) = 8 :=
    ((to_float_exact (2 * 4) (1) (3) (by norm_num) (by norm_num) (by norm_num)).trans (by norm_num))
  have h2 : to_float 14 = 14 :=
    ((to_float_exact 14 (7) (1) (by norm_num) (by norm_num) (by norm_num)).trans (by norm_num))
  have h3 : to_float (8 / 14) = (9586981 / 16777216) :=
    ((to_float_eval (8 / 14) (-1) 9586981 (by norm_num) (by norm_num) (by norm_num) (by norm_num)
      (by norm_num)).trans (by norm_num))
  have h4 : to_float ((9586981 / 16777216) - 1) = (-(7190235 / 16777216)) :=
    ((to_float_exact ((9586981 / 16777216) - 1) (-7190235) (-24) (by norm_num) (by norm_num) (by
      norm_num)).trans (by norm_num))
  have h5 : to_float (3 / 4 * (-(7190235 / 16777216))) = (-(1348169 / 4194304)) :=
    ((to_float_eval_tie_neg (3 / 4 * (-(7190235 / 16777216))) (-2) 10785352 (by norm_num) (by
      norm_num) (by norm_num) (Or.inl (by norm_num)) (by norm_num)).trans (by norm_num))
  have h6 : to_float (3 / 4 - (1348169 / 4194304)) = (1797559 / 4194304) :=
    ((to_float_exact (3 / 4 - (1348169 / 4194304)) (1797559) (-22) (by norm_num) (by norm_num) (by
      norm_num)).trans (by norm_num))
  have habs : |((-(1348169 / 4194304)) : ℚ)| = (1348169 / 4194304) := by
    rw [abs_of_neg (by norm_num)]; norm_num
  rw [TriangleSeries_ramp]
  unfold TriangleSeries.shape TriangleSeries.phase
  simp only [Int.cast_ofNat, Int.cast_zero, Int.cast_one]
  rw [h0, h1, h2, h3, h4, h5, habs, h6]

/-- The ramp intensity of frame 5 of a run of 14 frames. -/
theorem ramp_fourteen_five : TriangleSeries 5 14 0 (3 / 4) = 4493897 / 8388608 := by
  have h0 : to_float 5 = 5 :=
    ((to_float_exact 5 (5) (0) (by norm_num) (by norm_num) (by norm_num)).trans (by norm_num))
  have h1 : to_float (2 * 5) = 10 :=
    ((to_float_exact (2 * 5) (5) (1) (by norm_num) (by norm_num) (by norm_num)).trans (by norm_num))
  have h2 : to_float 14 = 14 :=
    ((to_float_exact 14 (7) (1) (by norm_num) (by norm_num) (by norm_num)).trans (by norm_num))
  have h3 : to_float (10 / 14) = (5991863 / 8388608) :=
    ((to_float_eval (10 / 14) (-1) 11983726 (by norm_num) (by norm_num) (by norm_num) (by
      norm_num) (by norm_num)).trans (by norm_num))
  have h4 : to_float ((5991863 / 8388608) - 1) = (-(2396745 / 8388608)) :=
    ((to_float_exact ((5991863 / 8388608) - 1) (-2396745) (-23) (by norm_num) (by norm_num) (by
      norm_num)).trans (by norm_num))
  have h5 : to_float (3 / 4 * (-(2396745 / 8388608))) = (-(7190235 / 33554432)) :=
    ((to_float_exact (3 / 4 * (-(2396745 / 8388608))) (-7190235) (-25) (by norm_num) (by norm_num)
      (by norm_num)).trans (by norm_num))
  have h6 : to_float (3 / 4 - (7190235 / 33554432)) = (4493897 / 8388608) :=
    ((to_float_eval_tie (3 / 4 - (7190235 / 33554432)) (-1) 8987794 (by norm_num) (by norm_num)
      (by norm_num) (Or.inl (by norm_num)) (by norm_num)).trans (by norm_num))
  have habs : |((-(7190235 / 33554432)) : ℚ)| = (7190235 / 33554432) := by
    rw [abs_of_neg (by norm_num)]; norm_num
  rw [TriangleSeries_ramp]
  unfold TriangleSeries.shape TriangleSeries.phase
  simp only [Int.cast_ofNat, Int.cast_zero, Int.cast_one]
  rw [h0, h1, h2, h3, h4, h5, habs, h6]

/-- The ramp intensity of frame 6 of a run of 14 frames. -/
theorem ramp_fourteen_six : TriangleSeries 6 14 0 (3 / 4) = 10785353 / 16777216 := by
  have h0 : to_float 6 = 6 :=
    ((to_float_exact 6 (3) (1) (by norm_num) (by norm_num) (by norm_num)).trans (by norm_num))
  have h1 : to_float (2 * 6) = 12 :=
    ((to_float_exact (2 * 6) (3) (2) (by norm_num) (by norm_num) (by norm_num)).trans (by norm_num))
  have h2 : to_float 14 = 14 :=
    ((to_float_exact 14 (7) (1) (by norm_num) (by norm_num) (by norm_num)).trans (by norm_num))
  have h3 : to_float (12 / 14) = (14380471 / 16777216) :=
    ((to_float_eval (12 / 14) (-1) 14380471 (by norm_num) (by norm_num) (by norm_num) (by
      norm_num) (by norm_num)).trans (by norm_num))
  have h4 : to_float ((14380471 / 16777216) - 1) = (-(2396745 / 16777216)) :=
    ((to_float_exact ((14380471 / 16777216) - 1) (-2396745) (-24) (by norm_num) (by norm_num) (by
      norm_num)).trans (by norm_num))
  have h5 : to_float (3 / 4 * (-(2396745 / 16777216))) = (-(7190235 / 67108864)) :=
    ((to_float_exact (3 / 4 * (-(2396745 / 16777216))) (-7190235) (-26) (by norm_num) (by
      norm_num) (by norm_num)).trans (by norm_num))
  have h6 : to_float (3 / 4 - (7190235 / 67108864)) = (10785353 / 16777216) :=
    ((to_float_eval (3 / 4 - (7190235 / 67108864)) (-1) 10785353 (by norm_num) (by norm_num) (by
      norm_num) (by norm_num) (by norm_num)).trans (by norm_num))
  have habs : |((-(7190235 / 67108864)) : ℚ)| = (7190235 / 67108864) := by
    rw [abs_of_neg (by norm_num)]; norm_num
  rw [TriangleSeries_ramp]
  unfold TriangleSeries.shape TriangleSeries.phase
  simp only [Int.cast_ofNat, Int.cast_zero, Int.cast_one]
  rw [h0, h1, h2, h3, h4, h5, habs, h6]

/-- The ramp intensity of frame 7 of a run of 14 frames. -/
theorem ramp_fourteen_seven : TriangleSeries 7 14 0 (3 / 4) = 3 / 4 := by
  have h0 : to_float 7 = 7 :=
    ((to_float_exact 7 (7) (0) (by norm_num) (by norm_num) (by norm_num)).trans (by norm_num))
  have h1 : to_float (2 * 7) = 14 :=
    ((to_float_exact (2 * 7) (7) (1) (by norm_num) (by norm_num) (by norm_num)).trans (by norm_num))
  have h2 : to_float 14 = 14 :=
    ((to_float_exact 14 (7) (1) (by norm_num) (by norm_num) (by norm_num)).trans (by norm_num))
  have h3 : to_float (14 / 14) = 1 :=
    ((to_float_exact (14 / 14) (1) (0) (by norm_num) (by norm_num) (by norm_num)).trans (by
      norm_num))
  have h4 : to_float (1 - 1) = 0 :=
    ((congrArg to_float (by norm_num : ((1 - 1) : ℚ) = 0)).trans to_float_zero)
  have h5 : to_float (3 / 4 * 0) = 0 :=
    ((congrArg to_float (by norm_num : ((3 / 4 * 0) : ℚ) = 0)).trans to_float_zero)
  have h6 : to_float (3 / 4 - 0) = (3 / 4) :=
    ((to_float_exact (3 / 4 - 0) (3) (-2) (by norm_num) (by norm_num) (by norm_num)).trans (by
      norm_num))
  have habs : |(0 : ℚ)| = 0 := by
    exact abs_zero
  rw [TriangleSeries_ramp]
  unfold TriangleSeries.shape TriangleSeries.phase
  simp only [Int.cast_ofNat, Int.cast_zero, Int.cast_one]
  rw [h0, h1, h2, h3, h4, h5, habs, h6]

/-- The ramp intensity of frame 8 of a run of 14 frames. -/
theorem ramp_fourteen_eight : TriangleSeries 8 14 0 (3 / 4) = 1348169 / 2097152 := by
  have h0 : to_float 8 = 8 :=
    ((to_float_exact 8 (1) (3) (by norm_num) (by norm_num) (by norm_num)).trans (by norm_num))
  have h1 : to_float (2 * 8) = 16 :=
    ((to_float_exact (2 * 8) (1) (4) (by norm_num) (by norm_num) (by norm_num)).trans (by norm_num))
  have h2 : to_float 14 = 14 :=
    ((to_float_exact 14 (7) (1) (by norm_num) (by norm_num) (by norm_num)).trans (by norm_num))
  have h3 : to_float (16 / 14) = (9586981 / 8388608) :=
    ((to_float_eval (16 / 14) (0) 9586981 (by norm_num) (by norm_num) (by norm_num) (by norm_num)
      (by norm_num)).trans (by norm_num))
  have h4 : to_float ((9586981 / 8388608) - 1) = (1198373 / 8388608) :=
    ((to_float_exact ((9586981 / 8388608) - 1) (1198373) (-23) (by norm_num) (by norm_num) (by
      norm_num)).trans (by norm_num))
  have h5 : to_float (3 / 4 * (1198373 / 8388608)) = (3595119 / 33554432) :=
    ((to_float_exact (3 / 4 * (1198373 / 8388608)) (3595119) (-25) (by norm_num) (by norm_num) (by
      norm_num)).trans (by norm_num))
  have h6 : to_float (3 / 4 - (3595119 / 33554432)) = (1348169 / 2097152) :=
    ((to_float_eval_tie (3 / 4 - (3595119 / 33554432)) (-1) 10785352 (by norm_num) (by norm_num)
      (by norm_num) (Or.inl (by norm_num)) (by norm_num)).trans (by norm_num))
  have habs : |((3595119 / 33554432) : ℚ)| = (3595119 / 33554432) := by
    rw [abs_of_pos (by norm_num)]
  rw [TriangleSeries_ramp]
  unfold TriangleSeries.shape TriangleSeries.phase
  simp only [Int.cast_ofNat, Int.cast_zero, Int.cast_one]
  rw [h0, h1, h2, h3, h4, h5, habs, h6]

/-- The ramp intensity of frame 9 of a run of 14 frames. -/
theorem ramp_fourteen_nine : TriangleSeries 9 14 0 (3 / 4) = 4493897 / 8388608 := by
  have h0 : to_float 9 = 9 :=
    ((to_float_exact 9 (9) (0) (by norm_num) (by norm_num) (by norm_num)).trans (by norm_num))
  have h1 : to_float (2 * 9) = 18 :=
    ((to_float_exact (2 * 9) (9) (1) (by norm_num) (by norm_num) (by norm_num)).trans (by norm_num))
  have h2 : to_float 14 = 14 :=
    ((to_float_exact 14 (7) (1) (by norm_num) (by norm_num) (by norm_num)).trans (by norm_num))
  have h3 : to_float (18 / 14) = (10785353 / 8388608) :=
    ((to_float_eval (18 / 14) (0) 10785353 (by norm_num) (by norm_num) (by norm_num) (by norm_num)
      (by norm_num)).trans (by norm_num))
  have h4 : to_float ((10785353 / 8388608) - 1) = (2396745 / 8388608) :=
    ((to_float_exact ((10785353 / 8388608) - 1) (2396745) (-23) (by norm_num) (by norm_num) (by
      norm_num)).trans (by norm_num))
  have h5 : to_float (3 / 4 * (2396745 / 8388608)) = (7190235 / 33554432) :=
    ((to_float_exact (3 / 4 * (2396745 / 8388608)) (7190235) (-25) (by norm_num) (by norm_num) (by
      norm_num)).trans (by norm_num))
  have h6 : to_float (3 / 4 - (7190235 / 33554432)) = (4493897 / 8388608) :=
    ((to_float_eval_tie (3 / 4 - (7190235 / 33554432)) (-1) 8987794 (by norm_num) (by norm_num)
      (by norm_num) (Or.inl (by norm_num)) (by norm_num)).trans (by norm_num))
  have habs : |((7190235 / 33554432) : ℚ)| = (7190235 / 33554432) := by
    rw [abs_of_pos (by norm_num)]
  rw [TriangleSeries_ramp]
  unfold TriangleSeries.shape TriangleSeries.phase
  simp only [Int.cast_ofNat, Int.cast_zero, Int.cast_one]
  rw [h0, h1, h2, h3, h4, h5, habs, h6]

/-- The ramp intensity of frame 10 of a run of 14 frames. -/
theorem ramp_fourteen_ten : TriangleSeries 10 14 0 (3 / 4) = 7190235 / 16777216 := by
  have h0 : to_float 10 = 10 :=
    ((to_float_exact 10 (5) (1) (by norm_num) (by norm_num) (by norm_num)).trans (by norm_num))
  have h1 : to_float (2 * 10) = 20 :=
    ((to_float_exact (2 * 10) (5) (2) (by norm_num) (by norm_num) (by norm_num)).trans (by
      norm_num))
  have h2 : to_float 14 = 14 :=
    ((to_float_exact 14 (7) (1) (by norm_num) (by norm_num) (by norm_num)).trans (by norm_num))
  have h3 : to_float (20 / 14) = (5991863 / 4194304) :=
    ((to_float_eval (20 / 14) (0) 11983726 (by norm_num) (by norm_num) (by norm_num) (by norm_num)
      (by norm_num)).trans (by norm_num))
  have h4 : to_float ((5991863 / 4194304) - 1) = (1797559 / 4194304) :=
    ((to_float_exact ((5991863 / 4194304) - 1) (1797559) (-22) (by norm_num) (by norm_num) (by
      norm_num)).trans (by norm_num))
  have h5 : to_float (3 / 4 * (1797559 / 4194304)) = (5392677 / 16777216) :=
    ((to_float_exact (3 / 4 * (1797559 / 4194304)) (5392677) (-24) (by norm_num) (by norm_num) (by
      norm_num)).trans (by norm_num))
  have h6 : to_float (3 / 4 - (5392677 / 16777216)) = (7190235 / 16777216) :=
    ((to_float_exact (3 / 4 - (5392677 / 16777216)) (7190235) (-24) (by norm_num) (by norm_num)
      (by norm_num)).trans (by norm_num))
  have habs : |((5392677 / 16777216) : ℚ)| = (5392677 / 16777216) := by
    rw [abs_of_pos (by norm_num)]
  rw [TriangleSeries_ramp]
  unfold TriangleSeries.shape TriangleSeries.phase
  simp only [Int.cast_ofNat, Int.cast_zero, Int.cast_one]
  rw [h0, h1, h2, h3, h4, h5, habs, h6]

/-- The ramp intensity of frame 11 of a run of 14 frames. -/
theorem ramp_fourteen_eleven : TriangleSeries 11 14 0 (3 / 4) = 5392677 / 16777216 := by
  have h0 : to_float 11 = 11 :=
    ((to_float_exact 11 (11) (0) (by norm_num) (by norm_num) (by norm_num)).trans (by norm_num))
  have h1 : to_float (2 * 11) = 22 :=
    ((to_float_exact (2 * 11) (11) (1) (by norm_num) (by norm_num) (by norm_num)).trans (by
      norm_num))
  have h2 : to_float 14 = 14 :=
    ((to_float_exact 14 (7) (1) (by norm_num) (by norm_num) (by norm_num)).trans (by norm_num))
  have h3 : to_float (22 / 14) = (6591049 / 4194304) :=
    ((to_float_eval (22 / 14) (0) 13182098 (by norm_num) (by norm_num) (by norm_num) (by norm_num)
      (by norm_num)).trans (by norm_num))
  have h4 : to_float ((6591049 / 4194304) - 1) = (2396745 / 4194304) :=
    ((to_float_exact ((6591049 / 4194304) - 1) (2396745) (-22) (by norm_num) (by norm_num) (by
      norm_num)).trans (by norm_num))
  have h5 : to_float (3 / 4 * (2396745 / 4194304)) = (7190235 / 16777216) :=
    ((to_float_exact (3 / 4 * (2396745 / 4194304)) (7190235) (-24) (by norm_num) (by norm_num) (by
      norm_num)).trans (by norm_num))
  have h6 : to_float (3 / 4 - (7190235 / 16777216)) = (5392677 / 16777216) :=
    ((to_float_exact (3 / 4 - (7190235 / 16777216)) (5392677) (-24) (by norm_num) (by norm_num)
      (by norm_num)).trans (by norm_num))
  have habs : |((7190235 / 16777216) : ℚ)| = (7190235 / 16777216) := by
    rw [abs_of_pos (by norm_num)]
  rw [TriangleSeries_ramp]
  unfold TriangleSeries.shape TriangleSeries.phase
  simp only [Int.cast_ofNat, Int.cast_zero, Int.cast_one]
  rw [h0, h1, h2, h3, h4, h5, habs, h6]

/-- The ramp intensity of frame 12 of a run of 14 frames. -/
theorem ramp_fourteen_twelve : TriangleSeries 12 14 0 (3 / 4) = 1797559 / 8388608 := by
  have h0 : to_float 12 = 12 :=
    ((to_float_exact 12 (3) (2) (by norm_num) (by norm_num) (by norm_num)).trans (by norm_num))
  have h1 : to_float (2 * 12) = 24 :=
    ((to_float_exact (2 * 12) (3) (3) (by norm_num) (by norm_num) (by norm_num)).trans (by
      norm_num))
  have h2 : to_float 14 = 14 :=
    ((to_float_exact 14 (7) (1) (by norm_num) (by norm_num) (by norm_num)).trans (by norm_num))
  have h3 : to_float (24 / 14) = (14380471 / 8388608) :=
    ((to_float_eval (24 / 14) (0) 14380471 (by norm_num) (by norm_num) (by norm_num) (by norm_num)
      (by norm_num)).trans (by norm_num))
  have h4 : to_float ((14380471 / 8388608) - 1) = (5991863 / 8388608) :=
    ((to_float_exact ((14380471 / 8388608) - 1) (5991863) (-23) (by norm_num) (by norm_num) (by
      norm_num)).trans (by norm_num))
  have h5 : to_float (3 / 4 * (5991863 / 8388608)) = (4493897 / 8388608) :=
    ((to_float_eval_tie (3 / 4 * (5991863 / 8388608)) (-1) 8987794 (by norm_num) (by norm_num) (by
      norm_num) (Or.inl (by norm_num)) (by norm_num)).trans (by norm_num))
  have h6 : to_float (3 / 4 - (4493897 / 8388608)) = (1797559 / 8388608) :=
    ((to_float_exact (3 / 4 - (4493897 / 8388608)) (1797559) (-23) (by norm_num) (by norm_num) (by
      norm_num)).trans (by norm_num))
  have habs : |((4493897 / 8388608) : ℚ)| = (4493897 / 8388608) := by
    rw [abs_of_pos (by norm_num)]
  rw [TriangleSeries_ramp]
  unfold TriangleSeries.shape TriangleSeries.phase
  simp only [Int.cast_ofNat, Int.cast_zero, Int.cast_one]
  rw [h0, h1, h2, h3, h4, h5, habs, h6]

/-- The ramp intensity of frame 13 of a run of 14 frames. -/
theorem ramp_fourteen_thirteen : TriangleSeries 13 14 0 (3 / 4) = 224695 / 2097152 := by
  have h0 : to_float 13 = 13 :=
    ((to_float_exact 13 (13) (0) (by norm_num) (by norm_num) (by norm_num)).trans (by norm_num))
  have h1 : to_float (2 * 13) = 26 :=
    ((to_float_exact (2 * 13) (13) (1) (by norm_num) (by norm_num) (by norm_num)).trans (by
      norm_num))
  have h2 : to_float 14 = 14 :=
    ((to_float_exact 14 (7) (1) (by norm_num) (by norm_num) (by norm_num)).trans (by norm_num))
  have h3 : to_float (26 / 14) = (15578843 / 8388608) :=
    ((to_float_eval (26 / 14) (0) 15578843 (by norm_num) (by norm_num) (by norm_num) (by norm_num)
      (by norm_num)).trans (by norm_num))
  have h4 : to_float ((15578843 / 8388608) - 1) = (7190235 / 8388608) :=
    ((to_float_exact ((15578843 / 8388608) - 1) (7190235) (-23) (by norm_num) (by norm_num) (by
      norm_num)).trans (by norm_num))
  have h5 : to_float (3 / 4 * (7190235 / 8388608)) = (1348169 / 2097152) :=
    ((to_float_eval_tie (3 / 4 * (7190235 / 8388608)) (-1) 10785352 (by norm_num) (by norm_num)
      (by norm_num) (Or.inl (by norm_num)) (by norm_num)).trans (by norm_num))
  have h6 : to_float (3 / 4 - (1348169 / 2097152)) = (224695 / 2097152) :=
    ((to_float_exact (3 / 4 - (1348169 / 2097152)) (224695) (-21) (by norm_num) (by norm_num) (by
      norm_num)).trans (by norm_num))
  have habs : |((1348169 / 2097152) : ℚ)| = (1348169 / 2097152) := by
    rw [abs_of_pos (by norm_num)]
  rw [TriangleSeries_ramp]
  unfold TriangleSeries.shape TriangleSeries.phase
  simp only [Int.cast_ofNat, Int.cast_zero, Int.cast_one]
  rw [h0, h1, h2, h3, h4, h5, habs, h6]

/-- The fourteen ramp intensities of a run with `F = 14`. -/
theorem rampIntensities_fourteen :
    rampIntensities 14 = [0, 1797559 / 16777216, 1797559 / 8388608, 5392677 / 16777216, 1797559 /
      4194304, 4493897 / 8388608, 10785353 / 16777216, 3 / 4, 1348169 / 2097152, 4493897 / 8388608,
      7190235 / 16777216, 5392677 / 16777216, 1797559 / 8388608, 224695 / 2097152] := by
  simp only [rampIntensities, List.range, List.range.loop, List.map, Nat.cast_ofNat,
    Nat.cast_zero, Nat.cast_one, ramp_fourteen_zero, ramp_fourteen_one, ramp_fourteen_two,
      ramp_fourteen_three, ramp_fourteen_four, ramp_fourteen_five, ramp_fourteen_six,
      ramp_fourteen_seven, ramp_fourteen_eight, ramp_fourteen_nine, ramp_fourteen_ten,
      ramp_fourteen_eleven, ramp_fourteen_twelve, ramp_fourteen_thirteen]

/-! ## Steps that make no frame, present or refresh call -/

theorem renderCalls_append (a b : List Call) :
    renderCalls (a ++ b) = renderCalls a ++ renderCalls b := by
  induction a with
  | nil => rfl
  | cons c a ih => cases c <;> simp [renderCalls, ih]

theorem refreshCalls_append (a b : List Call) :
    refreshCalls (a ++ b) = refreshCalls a + refreshCalls b := by
  induction a with
  | nil => simp [refreshCalls]
  | cons c a ih => cases c <;> simp [refreshCalls, ih]; omega

theorem Quiet.refl (ctx : RenderContext) : Quiet ctx ctx :=
  ⟨rfl, rfl, rfl, rfl, rfl, [], by simp, rfl, rfl⟩

theorem Quiet.trans {a b c : RenderContext} (h₁ : Quiet a b) (h₂ : Quiet b c) : Quiet a c := by
  obtain ⟨p₁, r₁, f₁, i₁, t₁, l₁, e₁, c₁, d₁⟩ := h₁
  obtain ⟨p₂, r₂, f₂, i₂, t₂, l₂, e₂, c₂, d₂⟩ := h₂
  refine ⟨p₂.trans p₁, r₂.trans r₁, f₂.trans f₁, i₂.trans i₁, t₂.trans t₁, l₁ ++ l₂, ?_, ?_, ?_⟩
  · rw [e₂, e₁, List.append_assoc]
  · rw [renderCalls_append, c₁, c₂]; rfl
  · rw [refreshCalls_append, d₁, d₂]

theorem RandomFloat_quiet (host : Host) (ctx : RenderContext) :
    Quiet ctx (RandomFloat host ctx).2 :=
  ⟨rfl, rfl, rfl, rfl, rfl, [], by simp [RandomFloat], rfl, rfl⟩

theorem RandomByte_quiet (host : Host) (ctx : RenderContext) :
    Quiet ctx (RandomByte host ctx).2 :=
  RandomFloat_quiet host ctx

theorem RandomColorBGRA_quiet (host : Host) (ctx : RenderContext) :
    Quiet ctx (RandomColorBGRA host ctx).2 :=
  (((RandomByte_quiet host ctx).trans (RandomByte_quiet host _)).trans
    (RandomByte_quiet host _)).trans (RandomByte_quiet host _)

theorem UpdateNoiseTexture_row_quiet (host : Host) (width color : Nat) (ctx : RenderContext) :
    Quiet ctx (DigitalGlitch.UpdateNoiseTexture.row host width color ctx).2.2 := by
  induction width generalizing color ctx with
  | zero => exact Quiet.refl ctx
  | succ w ih =>
    simp only [DigitalGlitch.UpdateNoiseTexture.row]
    refine (RandomFloat_quiet host ctx).trans ?_
    split_ifs
    · exact (RandomColorBGRA_quiet host _).trans (ih _ _)
    · exact ih _ _

theorem UpdateNoiseTexture_rows_quiet (host : Host) (width height color : Nat)
    (ctx : RenderContext) :
    Quiet ctx (DigitalGlitch.UpdateNoiseTexture.rows host width height color ctx).2 := by
  induction height generalizing color ctx with
  | zero => exact Quiet.refl ctx
  | succ h ih =>
    simp only [DigitalGlitch.UpdateNoiseTexture.rows]
    exact (UpdateNoiseTexture_row_quiet host width color ctx).trans (ih _ _)

theorem emit_quiet (ctx : RenderContext) (c : Call) (h₁ : renderCalls [c] = [])
    (h₂ : refreshCalls [c] = 0) : Quiet ctx (ctx.emit c) :=
  ⟨rfl, rfl, rfl, rfl, rfl, [c], rfl, h₁, h₂⟩

theorem UpdateNoiseTexture_fill_quiet (host : Host) (width height : Nat)
    (ctx : RenderContext) :
    Quiet ctx (DigitalGlitch.UpdateNoiseTexture.fill host width height ctx) := by
  have h₂ := RandomColorBGRA_quiet host ctx
  have h₃ := UpdateNoiseTexture_rows_quiet host width height
    (RandomColorBGRA host ctx).1 (RandomColorBGRA host ctx).2
  obtain ⟨p, r, f, i, t, l, e, c, d⟩ := h₂.trans h₃
  exact ⟨p, r, f, i, t, l, e, c, d⟩

theorem UpdateNoiseTexture_quiet (host : Host) (ctx : RenderContext) :
    Quiet ctx (DigitalGlitch.UpdateNoiseTexture host ctx) :=
  (emit_quiet ctx Call.UpdateNoiseTexture rfl rfl).trans
    (UpdateNoiseTexture_fill_quiet host 64 32 _)

theorem Update_quiet (host : Host) (ctx : RenderContext) :
    Quiet ctx (DigitalGlitch.Update host ctx) := by
  unfold DigitalGlitch.Update
  simp only
  split_ifs
  · exact (RandomFloat_quiet host ctx).trans (UpdateNoiseTexture_quiet host _)
  · exact RandomFloat_quiet host ctx

theorem OnRenderImage_quiet (host : Host) (ctx : RenderContext) :
    Quiet ctx (DigitalGlitch.OnRenderImage host ctx) :=
  (RandomFloat_quiet host ctx).trans (emit_quiet _ _ rfl rfl)


/-! ## One frame -/

/-- What one `RenderSingleFrame(x)` does to the context, and its status: exactly one
`Present`, one more `RenderSingleFrame` entry in the log, no refresh; the status is the
status of that `Present` when it failed and `S_OK` otherwise. -/
theorem RenderSingleFrame_spec (host : Host) (x : ℚ) (ctx : RenderContext) :
    (RenderSingleFrame host x ctx).2.presents = ctx.presents + 1 ∧
    (RenderSingleFrame host x ctx).2.refreshes = ctx.refreshes ∧
    (∃ l, (RenderSingleFrame host x ctx).2.log = ctx.log ++ l ∧ renderCalls l = [x] ∧
      refreshCalls l = 0) ∧
    (RenderSingleFrame host x ctx).1 =
      (if FAILED (host.Present ctx.presents) then host.Present ctx.presents else S_OK) := by
  have hq : Quiet { ctx.emit (Call.RenderSingleFrame x) with intensity := x }
      (DigitalGlitch.OnRenderImage host (DigitalGlitch.Update host
        { ctx.emit (Call.RenderSingleFrame x) with intensity := x })) :=
    (Update_quiet host _).trans (OnRenderImage_quiet host _)
  obtain ⟨p, r, -, -, -, l, e, c, d⟩ := hq
  have hp : (DigitalGlitch.OnRenderImage host (DigitalGlitch.Update host
      { ctx.emit (Call.RenderSingleFrame x) with intensity := x })).presents = ctx.presents := p
  have hlog : (RenderSingleFrame host x ctx).2.log =
      ctx.log ++ (Call.RenderSingleFrame x :: l ++ [Call.Present 1 0]) := by
    unfold RenderSingleFrame
    simp only
    split_ifs <;> simp only [e] <;> simp [RenderContext.emit]
  refine ⟨?_, ?_, ⟨_, hlog, ?_, ?_⟩, ?_⟩
  · unfold RenderSingleFrame
    simp only
    split_ifs <;> simp only [hp]
  · unfold RenderSingleFrame
    simp only
    split_ifs <;> exact r
  · rw [renderCalls_append]
    simp [renderCalls, c]
  · rw [refreshCalls_append]
    simp [refreshCalls, d]
  · unfold RenderSingleFrame
    simp only [hp]
    split_ifs <;> rfl


/-! ## The ramp loop -/

/-- The optional refresh at the head of a loop iteration (Main.cpp:707-709): no `Present`,
no frame, and one refresh exactly when `i % 10 = 9`. -/
theorem refresh_step (host : Host) (i : Nat) (ctx : RenderContext) :
    (if i % 10 = 9 then (RefreshCapture host ctx).2 else ctx).presents = ctx.presents ∧
    ∃ l, (if i % 10 = 9 then (RefreshCapture host ctx).2 else ctx).log = ctx.log ++ l ∧
      renderCalls l = [] ∧ refreshCalls l = (if i % 10 = 9 then 1 else 0) := by
  split_ifs
  · exact ⟨rfl, [Call.RefreshCapture], rfl, rfl, rfl⟩
  · exact ⟨rfl, [], by simp, rfl, rfl⟩

/-- One unfolding of the loop. -/
theorem loop_succ (host : Host) (frames : Int) (n i : Nat) (ctx : RenderContext) :
    RenderFrame.loop host frames (n + 1) i ctx =
      if FAILED (RenderSingleFrame host (TriangleSeries i frames 0 (3 / 4))
          (if i % 10 = 9 then (RefreshCapture host ctx).2 else ctx)).1
      then (some (RenderSingleFrame host (TriangleSeries i frames 0 (3 / 4))
          (if i % 10 = 9 then (RefreshCapture host ctx).2 else ctx)).1,
        (RenderSingleFrame host (TriangleSeries i frames 0 (3 / 4))
          (if i % 10 = 9 then (RefreshCapture host ctx).2 else ctx)).2)
      else RenderFrame.loop host frames n (i + 1)
        (RenderSingleFrame host (TriangleSeries i frames 0 (3 / 4))
          (if i % 10 = 9 then (RefreshCapture host ctx).2 else ctx)).2 := by
  rfl

theorem FAILED_S_OK : FAILED S_OK = false := by decide

/-- When none of the next `n` presents fails, the loop runs its `n` iterations: it renders
the ramp intensities of `i, …, i + n - 1` in order, refreshes the capture at the indices
with `j % 10 = 9`, and does not return early. -/
theorem loop_ok (host : Host) (frames : Int) (n : Nat) : ∀ (i : Nat) (ctx : RenderContext),
    (∀ k, k < n → FAILED (host.Present (ctx.presents + k)) = false) →
    (RenderFrame.loop host frames n i ctx).1 = none ∧
    (RenderFrame.loop host frames n i ctx).2.presents = ctx.presents + n ∧
    ∃ l, (RenderFrame.loop host frames n i ctx).2.log = ctx.log ++ l ∧
      renderCalls l = (List.range' i n).map (fun j : Nat => TriangleSeries j frames 0 (3 / 4)) ∧
      refreshCalls l = ((List.range' i n).filter (fun j => j % 10 = 9)).length := by
  induction n with
  | zero => intro i ctx _; exact ⟨rfl, rfl, [], by simp [RenderFrame.loop], rfl, rfl⟩
  | succ n ih =>
    intro i ctx hok
    obtain ⟨hp0, l0, hl0, hr0, hf0⟩ := refresh_step host i ctx
    obtain ⟨hp1, -, ⟨l1, hl1, hr1, hf1⟩, hs1⟩ := RenderSingleFrame_spec host
      (TriangleSeries i frames 0 (3 / 4)) (if i % 10 = 9 then (RefreshCapture host ctx).2 else ctx)
    have h0 : FAILED (host.Present ctx.presents) = false := by simpa using hok 0 (by omega)
    rw [hp0] at hs1 hp1
    rw [h0] at hs1
    simp only [Bool.false_eq_true, if_false] at hs1
    rw [loop_succ, hs1, FAILED_S_OK]
    simp only [Bool.false_eq_true, if_false]
    obtain ⟨a, b, l2, hl2, hr2, hf2⟩ := ih (i + 1) _ (fun k hk => by
      rw [hp1]
      have := hok (k + 1) (by omega)
      rwa [show ctx.presents + 1 + k = ctx.presents + (k + 1) by omega])
    refine ⟨a, by rw [b, hp1]; omega, l0 ++ l1 ++ l2, ?_, ?_, ?_⟩
    · rw [hl2, hl1, hl0]; simp [List.append_assoc]
    · rw [renderCalls_append, renderCalls_append, hr0, hr1, hr2]
      simp [List.range'_succ]
    · rw [refreshCalls_append, refreshCalls_append, hf0, hf1, hf2, List.range'_succ,
        List.filter_cons]
      split_ifs <;> simp_all
      omega

/-- When the present of frame `k` of the remaining `n` is the first to fail, the loop returns
that status from iteration `i + k`: frames `i, …, i + k` have been rendered and no more. -/
theorem loop_fail (host : Host) (frames : Int) (n : Nat) :
    ∀ (i : Nat) (ctx : RenderContext) (k : Nat), k < n →
    (∀ j, j < k → FAILED (host.Present (ctx.presents + j)) = false) →
    FAILED (host.Present (ctx.presents + k)) = true →
    (RenderFrame.loop host frames n i ctx).1 = some (host.Present (ctx.presents + k)) ∧
    (RenderFrame.loop host frames n i ctx).2.presents = ctx.presents + (k + 1) ∧
    ∃ l, (RenderFrame.loop host frames n i ctx).2.log = ctx.log ++ l ∧
      renderCalls l =
        (List.range' i (k + 1)).map (fun j : Nat => TriangleSeries j frames 0 (3 / 4)) := by
  induction n with
  | zero => intro i ctx k hk; omega
  | succ n ih =>
    intro i ctx k hk hok hbad
    obtain ⟨hp0, l0, hl0, hr0, -⟩ := refresh_step host i ctx
    obtain ⟨hp1, -, ⟨l1, hl1, hr1, -⟩, hs1⟩ := RenderSingleFrame_spec host
      (TriangleSeries i frames 0 (3 / 4)) (if i % 10 = 9 then (RefreshCapture host ctx).2 else ctx)
    rw [hp0] at hs1 hp1
    rw [loop_succ]
    cases k with
    | zero =>
      have hbad0 : FAILED (host.Present ctx.presents) = true := by simpa using hbad
      rw [hbad0] at hs1
      simp only [if_true] at hs1
      rw [hs1, hbad0]
      simp only [if_true]
      refine ⟨by simp, by rw [hp1], l0 ++ l1, ?_, ?_⟩
      · rw [hl1, hl0]; simp [List.append_assoc]
      · rw [renderCalls_append, hr0, hr1]; simp [List.range'_succ]
    | succ k =>
      have h0 : FAILED (host.Present ctx.presents) = false := by simpa using hok 0 (by omega)
      rw [h0] at hs1
      simp only [Bool.false_eq_true, if_false] at hs1
      rw [hs1, FAILED_S_OK]
      simp only [Bool.false_eq_true, if_false]
      obtain ⟨a, b, l2, hl2, hr2⟩ := ih (i + 1) _ k (by omega)
        (fun j hj => by
          rw [hp1]
          have := hok (j + 1) (by omega)
          rwa [show ctx.presents + 1 + j = ctx.presents + (j + 1) by omega])
        (by rw [hp1]; rwa [show ctx.presents + 1 + k = ctx.presents + (k + 1) by omega])
      refine ⟨?_, by rw [b, hp1]; omega, l0 ++ l1 ++ l2, ?_, ?_⟩
      · rw [a, hp1, show ctx.presents + 1 + k = ctx.presents + (k + 1) by omega]
      · rw [hl2, hl1, hl0]; simp [List.append_assoc]
      · rw [renderCalls_append, renderCalls_append, hr0, hr1, hr2]
        simp [List.range'_succ]


/-! ## The whole run -/

theorem newCalls_of_log {before after : RenderContext} {l : List Call}
    (h : after.log = before.log ++ l) : newCalls before after = l := by
  unfold newCalls
  rw [h, List.drop_left]

theorem animate_of_none (host : Host) (frames : Int) (ctx : RenderContext)
    (h : (RenderFrame.loop host frames frames.toNat 0 ctx).1 = none) :
    RenderFrame.animate host frames ctx =
      if FAILED (RenderSingleFrame host 0 (RenderFrame.loop host frames frames.toNat 0 ctx).2).1
      then RenderSingleFrame host 0 (RenderFrame.loop host frames frames.toNat 0 ctx).2
      else (S_OK, (RenderSingleFrame host 0 (RenderFrame.loop host frames frames.toNat 0
        ctx).2).2) := by
  unfold RenderFrame.animate
  generalize RenderFrame.loop host frames frames.toNat 0 ctx = p at h ⊢
  obtain ⟨o, c⟩ := p
  simp only at h
  subst h
  rfl

theorem animate_of_some (host : Host) (frames : Int) (ctx : RenderContext) (hr : HRESULT)
    (h : (RenderFrame.loop host frames frames.toNat 0 ctx).1 = some hr) :
    RenderFrame.animate host frames ctx =
      (hr, (RenderFrame.loop host frames frames.toNat 0 ctx).2) := by
  unfold RenderFrame.animate
  generalize RenderFrame.loop host frames frames.toNat 0 ctx = p at h ⊢
  obtain ⟨o, c⟩ := p
  simp only at h
  subst h
  rfl

theorem RenderFrame_of_initialized (host : Host) (ctx : RenderContext)
    (h : ctx.initialized = true) :
    RenderFrame host ctx =
      RenderFrame.animate host (RenderFrame.frames (host.RandomFloat ctx.draws))
        (RandomFloat host ctx).2 := by
  unfold RenderFrame
  rw [h]
  rfl

theorem rampIntensities_eq (F : Nat) :
    rampIntensities F = (List.range' 0 F).map (fun j : Nat => TriangleSeries j F 0 (3 / 4)) := by
  unfold rampIntensities
  rw [List.range_eq_range']

/-- A run in which no present fails: status `S_OK`, `F + 1` presents, the frames rendered are
the ramp followed by the settle frame, and the capture was refreshed once for every ramp
index with `i % 10 = 9`, whatever the refreshes returned. -/
theorem animate_ok (host : Host) (F : Nat) (ctx : RenderContext)
    (hok : ∀ k, k ≤ F → FAILED (host.Present (ctx.presents + k)) = false) :
    (RenderFrame.animate host F ctx).1 = S_OK ∧
    (RenderFrame.animate host F ctx).2.presents = ctx.presents + (F + 1) ∧
    ∃ l, (RenderFrame.animate host F ctx).2.log = ctx.log ++ l ∧
      renderCalls l = rampIntensities F ++ [0] ∧
      refreshCalls l = ((List.range' 0 F).filter (fun j => j % 10 = 9)).length := by
  obtain ⟨hnone, hp, l, hl, hr, hf⟩ := loop_ok host F F 0 ctx (fun k hk => hok k (by omega))
  have hnone' : (RenderFrame.loop host F (F : Int).toNat 0 ctx).1 = none := by
    rw [Int.toNat_natCast]; exact hnone
  rw [animate_of_none host F ctx hnone']
  simp only [Int.toNat_natCast]
  obtain ⟨hp1, -, ⟨l1, hl1, hr1, hf1⟩, hs1⟩ :=
    RenderSingleFrame_spec host 0 (RenderFrame.loop host F F 0 ctx).2
  rw [hp, hok F le_rfl] at hs1
  simp only [Bool.false_eq_true, if_false] at hs1
  rw [hs1, FAILED_S_OK]
  simp only [Bool.false_eq_true, if_false]
  refine ⟨trivial, by rw [hp1, hp]; omega, l ++ l1, ?_, ?_, ?_⟩
  · rw [hl1, hl, List.append_assoc]
  · rw [renderCalls_append, hr, hr1, rampIntensities_eq]
  · rw [refreshCalls_append, hf, hf1]; rfl

/-- A run in which the present of frame `k ≤ F` is the first to fail: the status is that
failure, and exactly the frames `0, …, k` of the run have been rendered. -/
theorem animate_fail (host : Host) (F : Nat) (ctx : RenderContext) (k : Nat) (hk : k ≤ F)
    (hok : ∀ j, j < k → FAILED (host.Present (ctx.presents + j)) = false)
    (hbad : FAILED (host.Present (ctx.presents + k)) = true) :
    (RenderFrame.animate host F ctx).1 = host.Present (ctx.presents + k) ∧
    (RenderFrame.animate host F ctx).2.presents = ctx.presents + (k + 1) ∧
    ∃ l, (RenderFrame.animate host F ctx).2.log = ctx.log ++ l ∧
      renderCalls l = (rampIntensities F ++ [0]).take (k + 1) := by
  rcases Nat.lt_or_ge k F with hlt | hge
  · obtain ⟨hsome, hp, l, hl, hr⟩ := loop_fail host F F 0 ctx k hlt hok hbad
    have hsome' : (RenderFrame.loop host F (F : Int).toNat 0 ctx).1 =
        some (host.Present (ctx.presents + k)) := by
      rw [Int.toNat_natCast]; exact hsome
    rw [animate_of_some host F ctx _ hsome']
    simp only [Int.toNat_natCast]
    refine ⟨trivial, hp, l, hl, ?_⟩
    rw [hr, rampIntensities_eq, List.take_append_of_le_length (by simp; omega),
      ← List.map_take, ← List.range_eq_range', ← List.range_eq_range', List.take_range,
      Nat.min_eq_left (by omega)]
  · have hkF : k = F := by omega
    subst hkF
    obtain ⟨hnone, hp, l, hl, hr, -⟩ := loop_ok host k k 0 ctx hok
    have hnone' : (RenderFrame.loop host k (k : Int).toNat 0 ctx).1 = none := by
      rw [Int.toNat_natCast]; exact hnone
    rw [animate_of_none host k ctx hnone']
    simp only [Int.toNat_natCast]
    obtain ⟨hp1, -, ⟨l1, hl1, hr1, -⟩, hs1⟩ :=
      RenderSingleFrame_spec host 0 (RenderFrame.loop host k k 0 ctx).2
    rw [hp, hbad] at hs1
    simp only [if_true] at hs1
    rw [hs1, hbad]
    simp only [if_true]
    refine ⟨hs1, by rw [hp1, hp]; omega, l ++ l1, ?_, ?_⟩
    · rw [hl1, hl, List.append_assoc]
    · rw [renderCalls_append, hr, hr1, rampIntensities_eq, List.take_of_length_le (by simp)]


/-! ## Log of the noise update -/

theorem RandomColorBGRA_log (host : Host) (ctx : RenderContext) :
    (RandomColorBGRA host ctx).2.log = ctx.log := rfl

theorem UpdateNoiseTexture_row_log (host : Host) (width color : Nat) (ctx : RenderContext) :
    (DigitalGlitch.UpdateNoiseTexture.row host width color ctx).2.2.log = ctx.log := by
  induction width generalizing color ctx with
  | zero => rfl
  | succ w ih =>
    simp only [DigitalGlitch.UpdateNoiseTexture.row]
    split_ifs
    · rw [ih]; rfl
    · rw [ih]; rfl

theorem UpdateNoiseTexture_rows_log (host : Host) (width height color : Nat)
    (ctx : RenderContext) :
    (DigitalGlitch.UpdateNoiseTexture.rows host width height color ctx).2.log = ctx.log := by
  induction height generalizing color ctx with
  | zero => rfl
  | succ h ih =>
    simp only [DigitalGlitch.UpdateNoiseTexture.rows]
    rw [ih, UpdateNoiseTexture_row_log]

theorem UpdateNoiseTexture_fill_log (host : Host) (width height : Nat) (ctx : RenderContext) :
    (DigitalGlitch.UpdateNoiseTexture.fill host width height ctx).log = ctx.log := by
  simp only [DigitalGlitch.UpdateNoiseTexture.fill]
  rw [UpdateNoiseTexture_rows_log, RandomColorBGRA_log]

theorem UpdateNoiseTexture_log (host : Host) (ctx : RenderContext) :
    (DigitalGlitch.UpdateNoiseTexture host ctx).log = ctx.log ++ [Call.UpdateNoiseTexture] := by
  unfold DigitalGlitch.UpdateNoiseTexture
  rw [UpdateNoiseTexture_fill_log]
  rfl

/-- The function `Update` calls `UpdateNoiseTexture` exactly when its guard holds for the draw it takes. -/
theorem Update_newCalls (host : Host) (ctx : RenderContext) :
    newCalls ctx (DigitalGlitch.Update host ctx) =
      if DigitalGlitch.regenerates ctx.intensity (host.RandomFloat ctx.draws)
      then [Call.UpdateNoiseTexture] else [] := by
  apply newCalls_of_log
  unfold DigitalGlitch.Update
  simp only [RandomFloat]
  split_ifs
  · rw [UpdateNoiseTexture_log]
  · simp

/-! ## Runs of `RenderFrame` -/

/-- Behaviour of `RenderFrame` on an initialized context whose draw gives the frame count `F`, when no
present fails. -/
theorem RenderFrame_ok (host : Host) (ctx : RenderContext) (F : Nat)
    (hinit : ctx.initialized = true)
    (hF : RenderFrame.frames (host.RandomFloat ctx.draws) = F)
    (hok : ∀ k, k ≤ F → FAILED (host.Present (ctx.presents + k)) = false) :
    (RenderFrame host ctx).1 = S_OK ∧
    renderCalls (newCalls ctx (RenderFrame host ctx).2) = rampIntensities F ++ [0] ∧
    refreshCalls (newCalls ctx (RenderFrame host ctx).2) =
      ((List.range' 0 F).filter (fun j => j % 10 = 9)).length := by
  rw [RenderFrame_of_initialized host ctx hinit, hF]
  obtain ⟨h, -, l, hl, hr, hf⟩ := animate_ok host F (RandomFloat host ctx).2 hok
  have hn : newCalls ctx (RenderFrame.animate host F (RandomFloat host ctx).2).2 = l :=
    newCalls_of_log hl
  rw [hn]
  exact ⟨h, hr, hf⟩

/-- Behaviour of `RenderFrame` on an initialized context whose draw gives the frame count `F`, when the
present of frame `k ≤ F` is the first to fail. -/
theorem RenderFrame_fail (host : Host) (ctx : RenderContext) (F k : Nat)
    (hinit : ctx.initialized = true)
    (hF : RenderFrame.frames (host.RandomFloat ctx.draws) = F) (hk : k ≤ F)
    (hok : ∀ j, j < k → FAILED (host.Present (ctx.presents + j)) = false)
    (hbad : FAILED (host.Present (ctx.presents + k)) = true) :
    (RenderFrame host ctx).1 = host.Present (ctx.presents + k) ∧
    renderCalls (newCalls ctx (RenderFrame host ctx).2) =
      (rampIntensities F ++ [0]).take (k + 1) := by
  rw [RenderFrame_of_initialized host ctx hinit, hF]
  obtain ⟨h, -, l, hl, hr⟩ := animate_fail host F (RandomFloat host ctx).2 k hk hok hbad
  have hn : newCalls ctx (RenderFrame.animate host F (RandomFloat host ctx).2).2 = l :=
    newCalls_of_log hl
  rw [hn]
  exact ⟨h, hr⟩

theorem rampIntensities_length (F : Nat) : (rampIntensities F).length = F := by
  simp [rampIntensities]

/-! # The claims -/

/-- C1: for every frame count `F`, a run in which no frame fails (the presents of the frames
`0, …, F` of the run all succeed) calls `RenderSingleFrame` exactly `F + 1` times: the `F`
ramp intensities `TriangleSeries(i, F, 0, 0.75)`, `i = 0, …, F - 1`, in order, then once
with intensity `0`, which is the last frame of the run; the status is `S_OK`.  This holds for
the body of `RenderFrame` at any `F`, and for `RenderFrame` itself on an initialized context
whose draw yields `F`. -/
theorem RenderFrame_ramp_then_settle (host : Host) (ctx : RenderContext) (F : Nat)
    (hok : ∀ k, k ≤ F → FAILED (host.Present (ctx.presents + k)) = false) :
    ((RenderFrame.animate host F ctx).1 = S_OK ∧
      renderCalls (newCalls ctx (RenderFrame.animate host F ctx).2) =
        rampIntensities F ++ [0] ∧
      (renderCalls (newCalls ctx (RenderFrame.animate host F ctx).2)).length = F + 1 ∧
      (renderCalls (newCalls ctx (RenderFrame.animate host F ctx).2)).getLast? = some 0) ∧
    (ctx.initialized = true → RenderFrame.frames (host.RandomFloat ctx.draws) = F →
      (RenderFrame host ctx).1 = S_OK ∧
      renderCalls (newCalls ctx (RenderFrame host ctx).2) = rampIntensities F ++ [0]) := by
  obtain ⟨h, -, l, hl, hr, -⟩ := animate_ok host F ctx hok
  rw [newCalls_of_log hl, hr]
  refine ⟨⟨h, rfl, by simp [rampIntensities_length], by simp⟩, fun hinit hF => ?_⟩
  obtain ⟨h₁, h₂, -⟩ := RenderFrame_ok host ctx F hinit hF hok
  exact ⟨h₁, h₂⟩

/-- C1 at the quiet host: the run has frame count 14 and renders the fourteen ramp
intensities followed by `0`. -/
theorem RenderFrame_ramp_then_settle_witness :
    (RenderFrame quietHost freshContext).1 = S_OK ∧
    renderCalls (newCalls freshContext (RenderFrame quietHost freshContext).2) =
      rampIntensities 14 ++ [0] :=
  (RenderFrame_ramp_then_settle quietHost freshContext 14 (fun _ _ => rfl)).2 rfl frames_zero

/-- C2: for every draw `r` with `0 ≤ r ≤ 1` the frame count
`static_cast<int>(15 + r * 40) & ~1`, with the product and the sum rounded to `float`, is
even, lies between 14 and 54, and so is not zero. -/
theorem RenderFrame_frames_even_bounded (r : ℚ) (h0 : 0 ≤ r) (h1 : r ≤ 1) :
    Even (RenderFrame.frames r) ∧ 14 ≤ RenderFrame.frames r ∧ RenderFrame.frames r ≤ 54 ∧
      RenderFrame.frames r ≠ 0 := by
  obtain ⟨he, hlo, hhi⟩ := frames_even_bounds r h0 h1
  exact ⟨Int.even_iff.mpr he, hlo, hhi, by omega⟩

/-- C2 at the draw `r = 1`. -/
theorem RenderFrame_frames_even_bounded_witness :
    Even (RenderFrame.frames 1) ∧ 14 ≤ RenderFrame.frames 1 ∧ RenderFrame.frames 1 ≤ 54 ∧
      RenderFrame.frames 1 ≠ 0 :=
  RenderFrame_frames_even_bounded 1 (by norm_num) (by norm_num)

/-- C3: for every `x ≥ 0` that fits in an `int`, be it a real or a rational number,
`floor_to_even x`, that is `static_cast<int>(x) & ~1`, is even, is at most `x`, and is
greater than `x - 2`. -/
theorem floor_to_even_even_le {K : Type} [LinearOrderedField K] [FloorRing K] (x : K)
    (h0 : 0 ≤ x) (_hfit : x < 2 ^ 31) :
    Even (floor_to_even x) ∧ (floor_to_even x : K) ≤ x ∧ x - 2 < (floor_to_even x : K) := by
  rw [floor_to_even_eq x h0]
  have hle : (⌊x⌋ : K) ≤ x := Int.floor_le x
  have hlt : x < (⌊x⌋ : K) + 1 := Int.lt_floor_add_one x
  have hm0 : 0 ≤ ⌊x⌋ % 2 := Int.emod_nonneg _ (by norm_num)
  have hm1 : ⌊x⌋ % 2 < 2 := Int.emod_lt_of_pos _ (by norm_num)
  refine ⟨?_, ?_, ?_⟩
  · rw [Int.even_iff]; omega
  · have : ((⌊x⌋ - ⌊x⌋ % 2 : Int) : K) ≤ (⌊x⌋ : K) := by
      exact_mod_cast (by omega : ⌊x⌋ - ⌊x⌋ % 2 ≤ ⌊x⌋)
    linarith
  · have : (⌊x⌋ : K) - 1 ≤ ((⌊x⌋ - ⌊x⌋ % 2 : Int) : K) := by
      exact_mod_cast (by omega : ⌊x⌋ - 1 ≤ ⌊x⌋ - ⌊x⌋ % 2)
    linarith

/-- C3 at the rational `x = 54.975`, where `floor_to_even x = 54`. -/
theorem floor_to_even_even_le_witness :
    Even (floor_to_even (2199 / 40 : ℚ)) ∧
      ((floor_to_even (2199 / 40 : ℚ) : Int) : ℚ) ≤ 2199 / 40 ∧
      (2199 / 40 : ℚ) - 2 < ((floor_to_even (2199 / 40 : ℚ) : Int) : ℚ) :=
  floor_to_even_even_le (2199 / 40 : ℚ) (by norm_num) (by norm_num)

/-- C4: for every even `F > 0` the ramp intensity `TriangleSeries(i, F, 0, 0.75)`, which is
`0.75 - |0.75 * (2 i / F - 1)|` evaluated in `float` arithmetic, is `0` at `i = 0`, `0` at
`i = F` and `0.75` at `i = F / 2`. -/
theorem TriangleSeries_boundary_peak (F : Int) (hF : 0 < F) (heven : Even F) :
    (∀ i : Int, TriangleSeries i F 0 (3 / 4) =
      to_float (3 / 4 - |to_float (3 / 4 *
        to_float (to_float (to_float (2 * to_float (i : ℚ)) / to_float (F : ℚ)) - 1))|)) ∧
    TriangleSeries 0 F 0 (3 / 4) = 0 ∧ TriangleSeries F F 0 (3 / 4) = 0 ∧
      TriangleSeries (F / 2) F 0 (3 / 4) = 3 / 4 := by
  obtain ⟨k, hk⟩ := heven
  have hhalf : F / 2 = k := by omega
  have hF2 : F = 2 * k := by omega
  refine ⟨fun i => TriangleSeries_ramp i F, ?_, ?_, ?_⟩
  · rw [TriangleSeries_ramp, phase_zero, shape_zero]
  · rw [TriangleSeries_ramp, phase_full F hF, shape_two]
  · rw [hhalf, TriangleSeries_ramp, hF2, phase_half k (by omega), shape_one]

/-- C4 at `F = 14`. -/
theorem TriangleSeries_boundary_peak_witness :
    TriangleSeries 0 14 0 (3 / 4) = 0 ∧ TriangleSeries 14 14 0 (3 / 4) = 0 ∧
      TriangleSeries (14 / 2) 14 0 (3 / 4) = 3 / 4 :=
  (TriangleSeries_boundary_peak 14 (by norm_num) (by decide)).2

/-- C5: for every even `F > 0` and integers `i ≤ j`, the ramp intensity is non-decreasing on
`[0, F/2]` and non-increasing on `[F/2, F]`. -/
theorem TriangleSeries_monotone (F : Int) (hF : 0 < F) (heven : Even F) (i j : Int)
    (hij : i ≤ j) :
    (0 ≤ i → j ≤ F / 2 → TriangleSeries i F 0 (3 / 4) ≤ TriangleSeries j F 0 (3 / 4)) ∧
    (F / 2 ≤ i → j ≤ F → TriangleSeries j F 0 (3 / 4) ≤ TriangleSeries i F 0 (3 / 4)) := by
  obtain ⟨k, hk⟩ := heven
  have hhalf : F / 2 = k := by omega
  have hF2 : F = 2 * k := by omega
  have hone : TriangleSeries.phase k F = 1 := by rw [hF2]; exact phase_half k (by omega)
  constructor
  · intro _ hj
    rw [TriangleSeries_ramp, TriangleSeries_ramp]
    refine shape_mono_rising (phase_mono F hF hij) ?_
    rw [← hone]
    exact phase_mono F hF (by omega)
  · intro hi _
    rw [TriangleSeries_ramp, TriangleSeries_ramp]
    refine shape_mono_falling (phase_mono F hF hij) ?_
    rw [← hone]
    exact phase_mono F hF (by omega)

/-- C5 at `F = 14`: rising from `i = 3` to `j = 5`, falling from `i = 9` to `j = 12`. -/
theorem TriangleSeries_monotone_witness :
    TriangleSeries 3 14 0 (3 / 4) ≤ TriangleSeries 5 14 0 (3 / 4) ∧
    TriangleSeries 12 14 0 (3 / 4) ≤ TriangleSeries 9 14 0 (3 / 4) :=
  ⟨(TriangleSeries_monotone 14 (by norm_num) (by decide) 3 5 (by norm_num)).1
      (by norm_num) (by norm_num),
    (TriangleSeries_monotone 14 (by norm_num) (by decide) 9 12 (by norm_num)).2
      (by norm_num) (by norm_num)⟩

/-- C6, as stated, fails: in the run of `RenderFrame` at the quiet host the frame count is
14, the first fourteen frames are the ramp, and the ramp starts at `0` but ends at
`224695 / 2 ^ 21`, about `0.107`, so the value at position 0 differs from the value at
position 13.  The values at the positions 1 and 13, both about `0.107`, differ as well:
in `float` arithmetic the ramp does not fall through the values it rose through. -/
theorem ramp_fourteen_not_symmetric :
    RenderFrame.frames (quietHost.RandomFloat freshContext.draws) = 14 ∧
    (renderCalls (newCalls freshContext (RenderFrame quietHost freshContext).2)).take 14 =
      rampIntensities 14 ∧
    (rampIntensities 14)[0]? = some 0 ∧
    (rampIntensities 14)[1]? = some (1797559 / 16777216) ∧
    (rampIntensities 14)[13]? = some (224695 / 2097152) ∧
    ¬ (∀ i, i < 14 → (rampIntensities 14)[i]? = (rampIntensities 14)[13 - i]?) ∧
    (rampIntensities 14)[1]? ≠ (rampIntensities 14)[13]? := by
  obtain ⟨-, h, -⟩ := RenderFrame_ok quietHost freshContext 14 rfl frames_zero (fun _ _ => rfl)
  refine ⟨frames_zero, ?_, ?_, ?_, ?_, ?_, ?_⟩
  · rw [h, List.take_append_of_le_length (by simp [rampIntensities_length]),
      List.take_of_length_le (by simp [rampIntensities_length])]
  · rw [rampIntensities_fourteen]; rfl
  · rw [rampIntensities_fourteen]; rfl
  · rw [rampIntensities_fourteen]; rfl
  · intro hsym
    have := hsym 0 (by norm_num)
    rw [rampIntensities_fourteen] at this
    norm_num at this
  · rw [rampIntensities_fourteen]
    norm_num

/-- C6, amended: in a run with `F = 14` in which no frame fails, the rendered intensities are
the fourteen ramp values, the `float` values of `0.75 - |0.75 * (2 i / 14 - 1)|`, followed by
the settle frame `0`.  The ramp values are `0`, about `3/28`, about `6/28`, …, the peak
`0.75` at `i = 7`, …, about `6/28`, about `3/28` (last ramp value, at `i = 13`): each is
within `10⁻⁷` of the exact value of the formula.  The fifteen rendered values read the same
in both directions up to `10⁻⁷`: the value at position `i` is within `10⁻⁷` of the value at
position `14 - i`. -/
theorem RenderFrame_fourteen_frames (host : Host) (ctx : RenderContext)
    (hinit : ctx.initialized = true)
    (hF : RenderFrame.frames (host.RandomFloat ctx.draws) = 14)
    (hok : ∀ k, k ≤ 14 → FAILED (host.Present (ctx.presents + k)) = false) :
    renderCalls (newCalls ctx (RenderFrame host ctx).2) =
      [0, 1797559 / 16777216, 1797559 / 8388608, 5392677 / 16777216, 1797559 / 4194304,
        4493897 / 8388608, 10785353 / 16777216, 3 / 4, 1348169 / 2097152, 4493897 / 8388608,
        7190235 / 16777216, 5392677 / 16777216, 1797559 / 8388608, 224695 / 2097152, 0] ∧
    (renderCalls (newCalls ctx (RenderFrame host ctx).2)).take 14 = rampIntensities 14 ∧
    List.Forall₂ (fun x y : ℚ => |x - y| ≤ 1 / 10 ^ 7)
      (renderCalls (newCalls ctx (RenderFrame host ctx).2))
      [0, 3 / 28, 6 / 28, 9 / 28, 12 / 28, 15 / 28, 18 / 28, 3 / 4, 18 / 28, 15 / 28, 12 / 28,
        9 / 28, 6 / 28, 3 / 28, 0] ∧
    List.Forall₂ (fun x y : ℚ => |x - y| ≤ 1 / 10 ^ 7)
      (renderCalls (newCalls ctx (RenderFrame host ctx).2))
      (renderCalls (newCalls ctx (RenderFrame host ctx).2)).reverse := by
  obtain ⟨-, h, -⟩ := RenderFrame_ok host ctx 14 hinit hF hok
  rw [h]
  refine ⟨?_, ?_, ?_, ?_⟩
  · rw [rampIntensities_fourteen]; rfl
  · rw [List.take_append_of_le_length (by simp [rampIntensities_length]),
      List.take_of_length_le (by simp [rampIntensities_length])]
  · rw [rampIntensities_fourteen]
    simp only [List.cons_append, List.nil_append, List.forall₂_cons, List.Forall₂.nil,
      and_true]
    refine ⟨?_, ?_, ?_, ?_, ?_, ?_, ?_, ?_, ?_, ?_, ?_, ?_, ?_, ?_, ?_⟩ <;>
      exact abs_le.mpr ⟨by norm_num, by norm_num⟩
  · rw [rampIntensities_fourteen]
    simp only [List.cons_append, List.nil_append, List.reverse_cons, List.reverse_nil,
      List.forall₂_cons, List.Forall₂.nil, and_true]
    refine ⟨?_, ?_, ?_, ?_, ?_, ?_, ?_, ?_, ?_, ?_, ?_, ?_, ?_, ?_, ?_⟩ <;>
      exact abs_le.mpr ⟨by norm_num, by norm_num⟩

/-- C6, amended, at the quiet host. -/
theorem RenderFrame_fourteen_frames_witness :
    renderCalls (newCalls freshContext (RenderFrame quietHost freshContext).2) =
      [0, 1797559 / 16777216, 1797559 / 8388608, 5392677 / 16777216, 1797559 / 4194304,
        4493897 / 8388608, 10785353 / 16777216, 3 / 4, 1348169 / 2097152, 4493897 / 8388608,
        7190235 / 16777216, 5392677 / 16777216, 1797559 / 8388608, 224695 / 2097152, 0] :=
  (RenderFrame_fourteen_frames quietHost freshContext rfl frames_zero (fun _ _ => rfl)).1

/-- C7: for every `F` and `k ≤ F`, when frame `k` of a run (the settle frame is frame `F`) is
the first one to fail, that is when the present of frame `k` is the first to return a failure
status, the run returns exactly that status and has rendered the frames `0, …, k` and no
more: `k + 1` calls of `RenderSingleFrame` and `k + 1` presents.  This holds for the body of
`RenderFrame` at any `F`, and for `RenderFrame` itself on an initialized context whose draw
yields `F`. -/
theorem RenderFrame_first_failure_aborts (host : Host) (ctx : RenderContext) (F k : Nat)
    (hk : k ≤ F)
    (hbefore : ∀ j, j < k → FAILED (host.Present (ctx.presents + j)) = false)
    (hfail : FAILED (host.Present (ctx.presents + k)) = true) :
    ((RenderFrame.animate host F ctx).1 = host.Present (ctx.presents + k) ∧
      renderCalls (newCalls ctx (RenderFrame.animate host F ctx).2) =
        (rampIntensities F ++ [0]).take (k + 1) ∧
      (renderCalls (newCalls ctx (RenderFrame.animate host F ctx).2)).length = k + 1 ∧
      (RenderFrame.animate host F ctx).2.presents = ctx.presents + (k + 1)) ∧
    (ctx.initialized = true → RenderFrame.frames (host.RandomFloat ctx.draws) = F →
      (RenderFrame host ctx).1 = host.Present (ctx.presents + k) ∧
      renderCalls (newCalls ctx (RenderFrame host ctx).2) =
        (rampIntensities F ++ [0]).take (k + 1)) := by
  obtain ⟨h, hp, l, hl, hr⟩ := animate_fail host F ctx k hk hbefore hfail
  rw [newCalls_of_log hl, hr]
  refine ⟨⟨h, rfl, ?_, hp⟩, fun hinit hF => RenderFrame_fail host ctx F k hinit hF hk hbefore hfail⟩
  rw [List.length_take, List.length_append, rampIntensities_length]
  simp
  omega

/-- C7 at the host whose fourth present fails: the run of 14 frames stops after frame 3 with
status `E_FAIL`. -/
theorem RenderFrame_first_failure_aborts_witness :
    (RenderFrame presentFailingHost freshContext).1 = E_FAIL ∧
    renderCalls (newCalls freshContext (RenderFrame presentFailingHost freshContext).2) =
      (rampIntensities 14 ++ [0]).take 4 :=
  (RenderFrame_first_failure_aborts presentFailingHost freshContext 14 3 (by norm_num)
    (fun j hj => by
      have : freshContext.presents + j ≠ 3 := by simp [freshContext]; omega
      simp [presentFailingHost, this, FAILED_S_OK])
    (by decide)).2 rfl frames_zero

/-- C8 fails on the code: at the host whose capture refreshes fail with `E_FAIL`, the run of
14 frames performs its one mid-run refresh (at `i = 9`), the refresh fails, and `RenderFrame`
still renders all 15 frames and returns `S_OK`. -/
theorem RenderFrame_ignores_failed_refresh :
    RenderFrame.frames (refreshFailingHost.RandomFloat freshContext.draws) = 14 ∧
    refreshCalls (newCalls freshContext (RenderFrame refreshFailingHost freshContext).2) = 1 ∧
    FAILED (refreshFailingHost.RefreshCapture freshContext.refreshes) = true ∧
    (RenderFrame refreshFailingHost freshContext).1 = S_OK ∧
    renderCalls (newCalls freshContext (RenderFrame refreshFailingHost freshContext).2) =
      rampIntensities 14 ++ [0] := by
  obtain ⟨h₁, h₂, h₃⟩ :=
    RenderFrame_ok refreshFailingHost freshContext 14 rfl frames_zero (fun _ _ => rfl)
  exact ⟨frames_zero, by rw [h₃]; decide, by decide, h₁, h₂⟩

/-- C9, as stated, fails: intensities `0 ≤ 1` and the draw `0.75`: `Update` regenerates the
noise texture at intensity `1`, where the threshold is `0.5`, and does not at intensity `0`,
where the threshold is `0.9f`. -/
theorem regeneration_not_antitone :
    DigitalGlitch.regenerates 1 (3 / 4 : ℚ) = true ∧
    DigitalGlitch.regenerates 0 (3 / 4 : ℚ) = false ∧
    newCalls { freshContext with intensity := 1 }
      (DigitalGlitch.Update threeQuarterHost { freshContext with intensity := 1 }) =
        [Call.UpdateNoiseTexture] ∧
    newCalls { freshContext with intensity := 0 }
      (DigitalGlitch.Update threeQuarterHost { freshContext with intensity := 0 }) = [] := by
  have h1 : DigitalGlitch.regenerates 1 (3 / 4 : ℚ) = true := by
    rw [regenerates_iff, Lerp_threshold_one]; norm_num
  have h0 : DigitalGlitch.regenerates 0 (3 / 4 : ℚ) = false := by
    rw [← Bool.not_eq_true, regenerates_iff, Lerp_threshold_zero]; norm_num
  refine ⟨h1, h0, ?_, ?_⟩
  · rw [Update_newCalls]
    exact if_pos h1
  · rw [Update_newCalls]
    exact if_neg (by rw [Bool.not_eq_true]; exact h0)

/-- C9, amended: the regeneration of the noise texture is monotonically non-decreasing in the
intensity: for intensities `a ≤ b` and every draw `r`, if `Update` regenerates the texture at
intensity `a` with the draw `r`, it also regenerates it at intensity `b` with the same draw. -/
theorem regeneration_monotone (host : Host) (ctx : RenderContext) (a b : ℚ) (hab : a ≤ b) :
    (∀ r : ℚ, DigitalGlitch.regenerates a r = true → DigitalGlitch.regenerates b r = true) ∧
    (Call.UpdateNoiseTexture ∈ newCalls { ctx with intensity := a }
        (DigitalGlitch.Update host { ctx with intensity := a }) →
      Call.UpdateNoiseTexture ∈ newCalls { ctx with intensity := b }
        (DigitalGlitch.Update host { ctx with intensity := b })) := by
  have key : ∀ r : ℚ, DigitalGlitch.regenerates a r = true →
      DigitalGlitch.regenerates b r = true := by
    intro r h
    rw [regenerates_iff] at h ⊢
    exact lt_of_le_of_lt (Lerp_threshold_antitone hab) h
  refine ⟨key, ?_⟩
  rw [Update_newCalls, Update_newCalls]
  intro h
  by_cases ha : DigitalGlitch.regenerates a (host.RandomFloat ctx.draws) = true
  · have hb := key _ ha
    simp only [] at hb ⊢
    rw [if_pos hb]
    exact List.mem_singleton.mpr rfl
  · simp only [] at ha h
    rw [if_neg ha] at h
    exact absurd h (List.not_mem_nil _)

/-- C9, amended, at intensities `0 ≤ 1` and the draw `0.9375`. -/
theorem regeneration_monotone_witness :
    DigitalGlitch.regenerates 0 (15 / 16 : ℚ) = true ∧
      DigitalGlitch.regenerates 1 (15 / 16 : ℚ) = true :=
  ⟨(regenerates_iff 0 (15 / 16)).mpr (by rw [Lerp_threshold_zero]; norm_num),
    (regeneration_monotone quietHost freshContext 0 1 (by norm_num)).1 (15 / 16)
      ((regenerates_iff 0 (15 / 16)).mpr (by rw [Lerp_threshold_zero]; norm_num))⟩

/-- C10, as stated, fails at intensity `0`: the threshold is the literal `0.9f`, no draw up
to it regenerates the noise texture, and the draws of `[0, 1)` for which `Update` regenerates
it have share `1 - 0.9f`, about `0.1`, which is below one half and not near 1. -/
theorem regeneration_share_at_zero :
    Lerp (9 / 10) (1 / 2) 0 = 7549747 / 8388608 ∧
    (∀ r : ℚ, r ≤ 7549747 / 8388608 → DigitalGlitch.regenerates 0 r = false) ∧
    MeasureTheory.volume
        {r : ℝ | 0 ≤ r ∧ r < 1 ∧ DigitalGlitch.regenerates 0 r = true} =
      ENNReal.ofReal (838861 / 8388608) ∧
    MeasureTheory.volume
        {r : ℝ | 0 ≤ r ∧ r < 1 ∧ DigitalGlitch.regenerates 0 r = true} <
      ENNReal.ofReal (1 / 2) := by
  have h : MeasureTheory.volume
        {r : ℝ | 0 ≤ r ∧ r < 1 ∧ DigitalGlitch.regenerates 0 r = true} =
      ENNReal.ofReal (838861 / 8388608) := by
    rw [regenerates_volume 0 (by norm_num), Lerp_threshold_zero]
    congr 1
    norm_num
  refine ⟨Lerp_threshold_zero, fun r hr => ?_, h, ?_⟩
  · rw [← Bool.not_eq_true, regenerates_iff, Lerp_threshold_zero]
    exact not_lt.mpr hr
  · rw [h]
    exact (ENNReal.ofReal_lt_ofReal_iff (by norm_num)).mpr (by norm_num)

/-- C10, amended: `Update` regenerates the noise texture with a probability that is linear
in the intensity up to the rounding of the `float` arithmetic.  For every intensity `t` in
`[0, 1]`, `Update` regenerates exactly for the draws above the threshold
`Lerp(0.9f, 0.5f, t)`; the share of the draws `r` of `[0, 1)` for which it regenerates is
one minus that threshold, and it is within `2⁻²³` of `0.1 + 0.4 t`: about `0.1` at
intensity `0` and `0.5` at intensity `1`. -/
theorem regeneration_share_linear (t : ℚ) (h0 : 0 ≤ t) (h1 : t ≤ 1) :
    (∀ r : ℚ, DigitalGlitch.regenerates t r = true ↔ Lerp (9 / 10) (1 / 2) t < r) ∧
    MeasureTheory.volume {r : ℝ | 0 ≤ r ∧ r < 1 ∧ DigitalGlitch.regenerates t r = true} =
      ENNReal.ofReal (1 - ((Lerp (9 / 10) (1 / 2) t : ℚ) : ℝ)) ∧
    |(1 - Lerp (9 / 10) (1 / 2) t) - (1 / 10 + 2 / 5 * t)| ≤ 1 / 2 ^ 23 := by
  refine ⟨fun r => regenerates_iff t r, regenerates_volume t h1, ?_⟩
  have h := Lerp_threshold_error t h0 h1
  rw [abs_le] at h ⊢
  norm_num at h ⊢
  constructor <;> linarith [h.1, h.2]

/-- C10, amended, at intensity `1`: the threshold is `0.5` and the share is one half. -/
theorem regeneration_share_linear_witness :
    MeasureTheory.volume
        {r : ℝ | 0 ≤ r ∧ r < 1 ∧ DigitalGlitch.regenerates 1 r = true} =
      ENNReal.ofReal (1 / 2) := by
  have h := (regeneration_share_linear 1 (by norm_num) le_rfl).2.1
  rw [Lerp_threshold_one] at h
  rw [h]
  congr 1
  norm_num

/-! # Lemmas about the device level -/

/-! ## Platform calls -/

theorem call_status (pf : Platform) (a : Api) (args : List Nat) (w : World) :
    (call pf a args w).1 = pf.answer a (w.count a) := rfl

theorem call_calls (pf : Platform) (a : Api) (args : List Nat) (w : World) :
    (call pf a args w).2.calls = w.calls ++ [(a, args)] := rfl

theorem call_overlay (pf : Platform) (a : Api) (args : List Nat) (w : World) :
    (call pf a args w).2.overlay = w.overlay := rfl

theorem call_count (pf : Platform) (a : Api) (args : List Nat) (w : World) (b : Api) :
    (call pf a args w).2.count b = w.count b + if a = b then 1 else 0 := by
  unfold World.count
  rw [call_calls, List.filter_append, List.length_append]
  by_cases h : a = b <;> simp [h]

theorem FAILED_ACCESS_LOST : FAILED DXGI_ERROR_ACCESS_LOST = true := by decide

theorem since_of_calls {w w' : World} {l : List (Api × List Nat)}
    (h : w'.calls = w.calls ++ l) : World.since w w' = l := by
  unfold World.since
  rw [h, List.drop_left]

/-! ## Capture session -/

/-- The four ways `SetupDuplication(device)` ends on an item whose output is bound. -/
theorem SetupDuplication_cases (pf : Platform) (item : CaptureItem) (w : World)
    (hout : item.output = true) :
    CaptureItem.SetupDuplication pf (item, w) =
      (let d := w.count Api.DuplicateOutput
       let t := w.count Api.CreateTexture2D
       let v := w.count Api.CreateShaderResourceView
       let m := pf.mode d
       let tex : Texture2D := { Format := m.Format, Width := m.Width, Height := m.Height }
       let c1 : List (Api × List Nat) := [(Api.DuplicateOutput, [])]
       let c2 : List (Api × List Nat) := c1 ++ [(Api.CreateTexture2D, [m.Format, m.Width,
         m.Height])]
       let c3 : List (Api × List Nat) := c2 ++ [(Api.CreateShaderResourceView, [])]
       if FAILED (pf.answer Api.DuplicateOutput d) then
         Outcome.returned (pf.answer Api.DuplicateOutput d)
           ({ output := true, outputDuplication := none, snapshot := none, snapshotView := none,
              content := none }, { w with calls := w.calls ++ c1 })
       else if FAILED (pf.answer Api.CreateTexture2D t) then
         Outcome.returned (pf.answer Api.CreateTexture2D t)
           ({ output := true, outputDuplication := some { index := d, mode := m },
              snapshot := none, snapshotView := none, content := none },
            { w with calls := w.calls ++ c2 })
       else if FAILED (pf.answer Api.CreateShaderResourceView v) then
         Outcome.returned (pf.answer Api.CreateShaderResourceView v)
           ({ output := true, outputDuplication := some { index := d, mode := m },
              snapshot := some tex, snapshotView := none, content := none },
            { w with calls := w.calls ++ c3 })
       else
         Outcome.returned S_OK
           ({ output := true, outputDuplication := some { index := d, mode := m },
              snapshot := some tex, snapshotView := some tex, content := none },
            { w with calls := w.calls ++ c3 })) := by
  unfold CaptureItem.SetupDuplication
  simp only [hout, call_status, call_count, call_calls, Bool.not_true, Bool.false_eq_true,
    if_false, reduceCtorEq, add_zero]
  split_ifs <;> simp [call, List.append_assoc]


/-- One unfolding of the loop of `Refresh` on an item that holds a session. -/
theorem Refresh_succ (pf : Platform) (fuel : Nat) (item : CaptureItem) (w : World)
    (session : Duplication) (hs : item.outputDuplication = some session) :
    CaptureItem.Refresh pf (fuel + 1) (item, w) =
      (let a := w.count Api.AcquireNextFrame
       let w₁ : World := { w with calls := w.calls ++ [(Api.AcquireNextFrame, [1000,
         w.overlay.alpha])] }
       if pf.answer Api.AcquireNextFrame a = DXGI_ERROR_ACCESS_LOST then
         HR (CaptureItem.SetupDuplication0 pf (item, w₁)) (CaptureItem.Refresh pf fuel)
       else if FAILED (pf.answer Api.AcquireNextFrame a) then
         Outcome.returned (pf.answer Api.AcquireNextFrame a) (item, w₁)
       else if pf.LastPresentTime a ≠ 0 then CaptureItem.Refresh.copy pf a (item, w₁)
       else CaptureItem.Refresh pf fuel
         (item, { w₁ with calls := w₁.calls ++ [(Api.ReleaseFrame, [])] })) := by
  rw [CaptureItem.Refresh]
  simp only [hs]
  rfl

/-- On an item without a session `Refresh` makes no call: it goes through the null handle. -/
theorem Refresh_null (pf : Platform) (fuel : Nat) (item : CaptureItem) (w : World)
    (hs : item.outputDuplication = none) :
    CaptureItem.Refresh pf (fuel + 1) (item, w) = Outcome.nullDereference (item, w) := by
  rw [CaptureItem.Refresh]
  simp only [hs]

/-- The re-establishment `SetupDuplication()` on an established item, when the three calls
it makes succeed. -/
theorem SetupDuplication0_ok (pf : Platform) (item : CaptureItem) (w : World)
    (hest : item.Established)
    (hd : FAILED (pf.answer Api.DuplicateOutput (w.count Api.DuplicateOutput)) = false)
    (ht : FAILED (pf.answer Api.CreateTexture2D (w.count Api.CreateTexture2D)) = false)
    (hv : FAILED (pf.answer Api.CreateShaderResourceView
      (w.count Api.CreateShaderResourceView)) = false) :
    ∃ item' w', CaptureItem.SetupDuplication0 pf (item, w) = Outcome.returned S_OK (item', w') ∧
      item'.Established ∧ item'.content = none ∧
      item'.outputDuplication = some { index := w.count Api.DuplicateOutput,
                                       mode := pf.mode (w.count Api.DuplicateOutput) } ∧
      w'.overlay = w.overlay ∧
      w'.calls = w.calls ++ [(Api.DuplicateOutput, []),
        (Api.CreateTexture2D, [(pf.mode (w.count Api.DuplicateOutput)).Format,
          (pf.mode (w.count Api.DuplicateOutput)).Width,
          (pf.mode (w.count Api.DuplicateOutput)).Height]),
        (Api.CreateShaderResourceView, [])] := by
  obtain ⟨hout, session, tex, -, hsnap, -⟩ := hest
  unfold CaptureItem.SetupDuplication0
  rw [SetupDuplication_cases pf item w hout]
  simp only [hsnap, Option.isNone_some, Bool.false_eq_true, if_false, hd, ht, hv, HR, FAILED_S_OK]
  refine ⟨_, _, rfl, ⟨rfl, _, _, rfl, rfl, rfl, rfl, rfl, rfl⟩, rfl, rfl, rfl, ?_⟩
  simp

theorem count_append (w : World) (l : List (Api × List Nat)) (a : Api) :
    World.count { w with calls := w.calls ++ l } a =
      w.count a + (l.filter (fun c => decide (c.1 = a))).length := by
  unfold World.count
  simp [List.filter_append]


theorem count_of_calls {w w' : World} {l : List (Api × List Nat)} (h : w'.calls = w.calls ++ l)
    (a : Api) : w'.count a = w.count a + (l.filter (fun c => decide (c.1 = a))).length := by
  unfold World.count
  rw [h]
  simp [List.filter_append]

/-- The statements of `Refresh` after its loop, on an item with a snapshot, when the query
of the texture and the release of the frame succeed. -/
theorem Refresh_copy_ok (pf : Platform) (n : Nat) (item : CaptureItem) (w : World)
    (tex : Texture2D) (hsnap : item.snapshot = some tex)
    (hq : FAILED (pf.answer Api.QueryInterface (w.count Api.QueryInterface)) = false)
    (hr : FAILED (pf.answer Api.ReleaseFrame (w.count Api.ReleaseFrame)) = false) :
    CaptureItem.Refresh.copy pf n (item, w) =
      Outcome.returned S_OK ({ item with content := some n },
        { w with calls := w.calls ++
          [(Api.QueryInterface, []), (Api.CopyResource, [n]), (Api.ReleaseFrame, [])] }) := by
  unfold CaptureItem.Refresh.copy
  simp only [call_status, call_count, hq, hsnap, reduceCtorEq, if_false, add_zero, hr,
    Bool.false_eq_true]
  simp [call, List.append_assoc]

/-- After `k` acquire attempts that report the loss of the session, each followed by a
successful re-establishment, and an attempt that delivers a new frame, `Refresh` copies
that frame and returns `S_OK`, provided the query of the frame's texture and the release of
the frame succeed. -/
theorem Refresh_after_losses (pf : Platform) (k : Nat) :
    ∀ (item : CaptureItem) (w : World) (fuel : Nat), item.Established → k < fuel →
    (∀ j, j < k → pf.answer Api.AcquireNextFrame (w.count Api.AcquireNextFrame + j) =
      DXGI_ERROR_ACCESS_LOST) →
    (∀ n, FAILED (pf.answer Api.DuplicateOutput n) = false) →
    (∀ n, FAILED (pf.answer Api.CreateTexture2D n) = false) →
    (∀ n, FAILED (pf.answer Api.CreateShaderResourceView n) = false) →
    FAILED (pf.answer Api.AcquireNextFrame (w.count Api.AcquireNextFrame + k)) = false →
    pf.LastPresentTime (w.count Api.AcquireNextFrame + k) ≠ 0 →
    FAILED (pf.answer Api.QueryInterface (w.count Api.QueryInterface)) = false →
    FAILED (pf.answer Api.ReleaseFrame (w.count Api.ReleaseFrame)) = false →
    ∃ item' w', CaptureItem.Refresh pf fuel (item, w) = Outcome.returned S_OK (item', w') ∧
      item'.Established ∧ item'.content = some (w.count Api.AcquireNextFrame + k) ∧
      w'.count Api.DuplicateOutput = w.count Api.DuplicateOutput + k ∧
      w'.count Api.AcquireNextFrame = w.count Api.AcquireNextFrame + k + 1 ∧
      w'.count Api.CopyResource = w.count Api.CopyResource + 1 ∧
      (k = 0 → item'.outputDuplication = item.outputDuplication) ∧
      (0 < k → item'.outputDuplication =
        some { index := w'.count Api.DuplicateOutput - 1,
               mode := pf.mode (w'.count Api.DuplicateOutput - 1) }) := by
  induction k with
  | zero =>
    intro item w fuel hest hfuel _ _ _ _ hacq hlpt hq hrel
    obtain ⟨fuel, rfl⟩ : ∃ f, fuel = f + 1 := ⟨fuel - 1, by omega⟩
    obtain ⟨hout, session, tex, hsess, hsnap, hview, hfmt, hwd, hht⟩ := hest
    rw [add_zero] at hacq hlpt
    have hne : pf.answer Api.AcquireNextFrame (w.count Api.AcquireNextFrame) ≠
        DXGI_ERROR_ACCESS_LOST := by
      intro h
      rw [h, FAILED_ACCESS_LOST] at hacq
      exact Bool.noConfusion hacq
    rw [Refresh_succ pf fuel item w session hsess]
    simp only [hne, hacq, hlpt, if_false, ne_eq, not_false_eq_true, if_true, Bool.false_eq_true]
    rw [Refresh_copy_ok pf _ item _ tex hsnap
      (by rw [count_append]; simpa using hq) (by rw [count_append]; simpa using hrel)]
    refine ⟨_, _, rfl, ⟨hout, session, tex, hsess, hsnap, hview, hfmt, hwd, hht⟩, rfl, ?_, ?_,
      ?_, fun _ => rfl, fun h => absurd h (lt_irrefl 0)⟩
    · simp [World.count, List.filter_append]
    · simp [World.count, List.filter_append]
    · simp [World.count, List.filter_append]
  | succ k ih =>
    intro item w fuel hest hfuel hlost hd ht hv hacq hlpt hq hrel
    obtain ⟨fuel, rfl⟩ : ∃ f, fuel = f + 1 := ⟨fuel - 1, by omega⟩
    have hest' := hest
    obtain ⟨hout, session, tex, hsess, hsnap, hview, hfmt, hwd, hht⟩ := hest
    have h0 : pf.answer Api.AcquireNextFrame (w.count Api.AcquireNextFrame) =
        DXGI_ERROR_ACCESS_LOST := by simpa using hlost 0 (Nat.succ_pos k)
    rw [Refresh_succ pf fuel item w session hsess]
    simp only [h0, if_true]
    obtain ⟨item₁, w₁, hsetup, hest₁, -, hsess₁, -, hcalls₁⟩ :=
      SetupDuplication0_ok pf item
        { w with calls := w.calls ++ [(Api.AcquireNextFrame, [1000, w.overlay.alpha])] }
        hest' (hd _) (ht _) (hv _)
    rw [hsetup]
    simp only [HR, FAILED_S_OK, Bool.false_eq_true, if_false]
    have ca : w₁.count Api.AcquireNextFrame = w.count Api.AcquireNextFrame + 1 := by
      rw [count_of_calls hcalls₁, count_append]; simp
    have cq : w₁.count Api.QueryInterface = w.count Api.QueryInterface := by
      rw [count_of_calls hcalls₁, count_append]; simp
    have cr : w₁.count Api.ReleaseFrame = w.count Api.ReleaseFrame := by
      rw [count_of_calls hcalls₁, count_append]; simp
    have cd : w₁.count Api.DuplicateOutput = w.count Api.DuplicateOutput + 1 := by
      rw [count_of_calls hcalls₁, count_append]; simp
    have cc : w₁.count Api.CopyResource = w.count Api.CopyResource := by
      rw [count_of_calls hcalls₁, count_append]; simp
    obtain ⟨item₂, w₂, hres, hest₂, hcont, hdup, hacq₂, hcopy, hk0, hkpos⟩ :=
      ih item₁ w₁ fuel hest₁ (by omega)
        (fun j hj => by
          rw [ca, show w.count Api.AcquireNextFrame + 1 + j =
            w.count Api.AcquireNextFrame + (j + 1) by omega]
          exact hlost (j + 1) (by omega))
        hd ht hv
        (by rw [ca, show w.count Api.AcquireNextFrame + 1 + k =
              w.count Api.AcquireNextFrame + (k + 1) by omega]; exact hacq)
        (by rw [ca, show w.count Api.AcquireNextFrame + 1 + k =
              w.count Api.AcquireNextFrame + (k + 1) by omega]; exact hlpt)
        (by rw [cq]; exact hq) (by rw [cr]; exact hrel)
    refine ⟨item₂, w₂, hres, hest₂, ?_, ?_, ?_, ?_, fun h => absurd h (Nat.succ_ne_zero k),
      fun _ => ?_⟩
    · rw [hcont, ca]; congr 1; omega
    · rw [hdup, cd]; omega
    · rw [hacq₂, ca]; omega
    · rw [hcopy, cc]
    · rcases Nat.eq_zero_or_pos k with hk | hk
      · have h1 := hk0 hk
        rw [h1, hsess₁, hdup, cd, hk]
        have e : World.count
            { w with calls := w.calls ++ [(Api.AcquireNextFrame, [1000, w.overlay.alpha])] }
            Api.DuplicateOutput = w.count Api.DuplicateOutput := by
          rw [count_append]; simp
        simp [e]
      · exact hkpos hk


/-! ## The capture refresh leaves the overlay alone -/

theorem CaptureStep_refl (w : World) : CaptureStep w w :=
  ⟨rfl, [], by simp, fun c hc => absurd hc (List.not_mem_nil c)⟩

theorem CaptureStep_trans {a b c : World} (h₁ : CaptureStep a b) (h₂ : CaptureStep b c) :
    CaptureStep a c := by
  obtain ⟨o₁, l₁, e₁, c₁⟩ := h₁
  obtain ⟨o₂, l₂, e₂, c₂⟩ := h₂
  refine ⟨o₂.trans o₁, l₁ ++ l₂, by rw [e₂, e₁, List.append_assoc], ?_⟩
  intro x hx
  rcases List.mem_append.mp hx with h | h
  · exact c₁ x h
  · rw [o₁] at c₂
    exact c₂ x h

/-- Appending calls that are neither acquires nor window writes is a capture step. -/
theorem CaptureStep_calls (w : World) (l : List (Api × List Nat))
    (h : ∀ c ∈ l, c.1 ≠ Api.AcquireNextFrame ∧ c.1 ≠ Api.SetLayeredWindowAttributes) :
    CaptureStep w { w with calls := w.calls ++ l } :=
  ⟨rfl, l, rfl, fun c hc => ⟨fun e => absurd e (h c hc).1, (h c hc).2⟩⟩

/-- Recording an acquire with the current alpha of the overlay is a capture step. -/
theorem CaptureStep_acquire (w : World) :
    CaptureStep w
      { w with calls := w.calls ++ [(Api.AcquireNextFrame, [1000, w.overlay.alpha])] } := by
  refine ⟨rfl, _, rfl, ?_⟩
  intro c hc
  rw [List.mem_singleton] at hc
  subst hc
  exact ⟨fun _ => rfl, by simp⟩

theorem SetupDuplication_step (pf : Platform) (s : CaptureItem × World) :
    CaptureStep s.2 (CaptureItem.SetupDuplication pf s).state.2 := by
  obtain ⟨item, w⟩ := s
  by_cases hout : item.output = true
  · rw [SetupDuplication_cases pf item w hout]
    simp only
    split_ifs <;> exact CaptureStep_calls w _ (by simp)
  · unfold CaptureItem.SetupDuplication
    simp only [Bool.not_eq_true] at hout
    simp only [hout, Bool.not_false, if_true]
    exact CaptureStep_refl w

theorem HR_state_step {σ : Type} (proj : σ → World) (w : World) (o : Outcome σ)
    (rest : σ → Outcome σ) (h₁ : CaptureStep w (proj o.state))
    (h₂ : ∀ s, CaptureStep (proj s) (proj (rest s).state)) :
    CaptureStep w (proj (HR o rest).state) := by
  cases o with
  | returned hr s =>
    simp only [HR]
    split_ifs
    · exact h₁
    · exact CaptureStep_trans h₁ (h₂ s)
  | nullDereference s => exact h₁
  | running s => exact h₁

theorem SetupDuplication0_step (pf : Platform) (s : CaptureItem × World) :
    CaptureStep s.2 (CaptureItem.SetupDuplication0 pf s).state.2 := by
  unfold CaptureItem.SetupDuplication0
  split_ifs
  · exact CaptureStep_refl _
  · exact HR_state_step Prod.snd s.2 _ _ (SetupDuplication_step pf s)
      (fun s => CaptureStep_refl _)

theorem Refresh_copy_step (pf : Platform) (n : Nat) (s : CaptureItem × World) :
    CaptureStep s.2 (CaptureItem.Refresh.copy pf n s).state.2 := by
  obtain ⟨item, w⟩ := s
  have h₁ := CaptureStep_calls w [(Api.QueryInterface, [])] (by simp)
  have h₃ := CaptureStep_calls w
    [(Api.QueryInterface, []), (Api.CopyResource, [n]), (Api.ReleaseFrame, [])] (by simp)
  unfold CaptureItem.Refresh.copy
  cases hsnap : item.snapshot with
  | none =>
    simp only
    split_ifs <;> exact h₁
  | some tex =>
    simp only
    split_ifs
    · exact h₁
    · simpa [call, Outcome.state, List.append_assoc] using h₃
    · simpa [call, Outcome.state, List.append_assoc] using h₃

/-- Whatever `Refresh` does and however it ends, it leaves the overlay untouched, and every
acquire it makes is made at the alpha the overlay has. -/
theorem Refresh_step (pf : Platform) (fuel : Nat) :
    ∀ s : CaptureItem × World, CaptureStep s.2 (CaptureItem.Refresh pf fuel s).state.2 := by
  induction fuel with
  | zero => intro s; exact CaptureStep_refl _
  | succ fuel ih =>
    intro s
    obtain ⟨item, w⟩ := s
    cases hs : item.outputDuplication with
    | none => rw [Refresh_null pf fuel item w hs]; exact CaptureStep_refl _
    | some session =>
      rw [Refresh_succ pf fuel item w session hs]
      simp only
      have hacq := CaptureStep_acquire w
      split_ifs
      · exact HR_state_step Prod.snd w _ _
          (CaptureStep_trans hacq (SetupDuplication0_step pf (item, _))) ih
      · exact hacq
      · exact CaptureStep_trans hacq (Refresh_copy_step pf _ (item, _))
      · refine CaptureStep_trans hacq
          (CaptureStep_trans (CaptureStep_calls _ [(Api.ReleaseFrame, [])] (by simp)) ?_)
        exact ih (item, _)

/-- The loop over the capture items is a capture step as well. -/
theorem RefreshCapture_items_step (pf : Platform) (fuel : Nat) (items : List CaptureItem) :
    ∀ (done : List CaptureItem) (hr : HRESULT) (w : World),
      CaptureStep w (RenderContext.RefreshCapture.items pf fuel items done hr w).state.2 := by
  induction items with
  | nil => intro done hr w; exact CaptureStep_refl w
  | cons item rest ih =>
    intro done hr w
    have h := Refresh_step pf fuel (item, w)
    rw [RenderContext.RefreshCapture.items]
    cases hres : CaptureItem.Refresh pf fuel (item, w) with
    | returned hrItem s =>
      rw [hres] at h
      exact CaptureStep_trans h (ih _ _ _)
    | nullDereference s => rw [hres] at h; exact h
    | running s => rw [hres] at h; exact h


/-! ## The bracket around the capture refresh -/

theorem Outcome.eq_returned {σ : Type} {o : Outcome σ} {hr : HRESULT}
    (h : o.status = some hr) : o = Outcome.returned hr o.state := by
  cases o with
  | returned hr' s =>
    simp only [Outcome.status, Option.some.injEq] at h
    rw [h]; rfl
  | nullDereference s => exact absurd h (by simp [Outcome.status])
  | running s => exact absurd h (by simp [Outcome.status])

/-- When `RefreshCapture` returns, the loop over the items returned, and the overlay scope
was left in the world the loop ended in. -/
theorem RefreshCapture_returned (pf : Platform) (fuel : Nat) (d d' : DeviceContext)
    (hr : HRESULT) (h : RenderContext.RefreshCapture pf fuel d = Outcome.returned hr d') :
    ∃ s, RenderContext.RefreshCapture.items pf fuel d.captureItems [] S_OK
        (HideWindowScope.enter d.world).2 = Outcome.returned hr s ∧
      d' = { d with captureItems := s.1
                    world := HideWindowScope.leave (HideWindowScope.enter d.world).1 s.2 } := by
  unfold RenderContext.RefreshCapture at h
  cases hres : RenderContext.RefreshCapture.items pf fuel d.captureItems [] S_OK
      (HideWindowScope.enter d.world).2 with
  | returned hr₁ s =>
    rw [hres] at h
    simp only [Outcome.returned.injEq] at h
    exact ⟨s, by rw [h.1], h.2.symm⟩
  | nullDereference s => rw [hres] at h; exact Outcome.noConfusion h
  | running s => rw [hres] at h; exact Outcome.noConfusion h

/-- The constructor of the scope when the overlay is not visible: nothing happens. -/
theorem enter_hidden (w : World) (h : w.overlay.visible = false) :
    HideWindowScope.enter w = ({ hwnd := false, keyColor := 0, alpha := 0, flags := 0 }, w) := by
  unfold HideWindowScope.enter
  simp [h]

/-- The constructor of the scope never keeps the window unless it made it transparent. -/
theorem enter_cases (w : World) :
    ((HideWindowScope.enter w).1.hwnd = false ∧ (HideWindowScope.enter w).2.overlay = w.overlay) ∨
    ((HideWindowScope.enter w).1 =
        { hwnd := true, keyColor := w.overlay.keyColor, alpha := w.overlay.alpha,
          flags := w.overlay.flags } ∧
      (HideWindowScope.enter w).2.overlay =
        { w.overlay with keyColor := 0, alpha := 0, flags := LWA_ALPHA } ∧
      w.overlay.writable = true) := by
  unfold HideWindowScope.enter
  by_cases hv : w.overlay.visible = true
  · by_cases hr : w.overlay.readable = true
    · by_cases hw : w.overlay.writable = true
      · right; simp [hv, hr, hw]
      · left; simp [hv, hr, hw]
    · left; simp [hv, hr]
  · left; simp [hv]

/-- The calls of the constructor leave the record of earlier calls in place. -/
theorem enter_calls (w : World) :
    ∃ l, (HideWindowScope.enter w).2.calls = w.calls ++ l ∧
      (∀ c ∈ l, c.1 ≠ Api.AcquireNextFrame) ∧
      (w.overlay.visible = false → l = []) := by
  unfold HideWindowScope.enter
  by_cases hv : w.overlay.visible = true
  · by_cases hr : w.overlay.readable = true
    · by_cases hw : w.overlay.writable = true
      · exact ⟨[(Api.GetLayeredWindowAttributes, []),
          (Api.SetLayeredWindowAttributes, [0, 0, LWA_ALPHA]), (Api.DwmFlush, [])],
          by simp [hv, hr, hw], by simp, by simp [hv]⟩
      · exact ⟨[(Api.GetLayeredWindowAttributes, []),
          (Api.SetLayeredWindowAttributes, [0, 0, LWA_ALPHA])],
          by simp [hv, hr, hw], by simp, by simp [hv]⟩
    · exact ⟨[(Api.GetLayeredWindowAttributes, [])], by simp [hv, hr], by simp, by simp [hv]⟩
  · exact ⟨[], by simp [hv], by simp, fun _ => rfl⟩

theorem leave_calls (scope : HideWindowScope) (w : World) :
    ∃ l, (HideWindowScope.leave scope w).calls = w.calls ++ l ∧
      (∀ c ∈ l, c.1 ≠ Api.AcquireNextFrame) ∧ (scope.hwnd = false → l = []) := by
  unfold HideWindowScope.leave
  by_cases h : scope.hwnd = true
  · refine ⟨[(Api.SetLayeredWindowAttributes, [scope.keyColor, scope.alpha, scope.flags])],
      ?_, by simp, by simp [h]⟩
    simp only [h, if_true]
    split_ifs <;> rfl
  · exact ⟨[], by simp [h], by simp, fun _ => rfl⟩


/-- The constructor of the scope on a visible overlay whose attributes can be read and
written: the attributes are saved and the overlay is made transparent. -/
theorem enter_shown (w : World) (hv : w.overlay.visible = true) (hr : w.overlay.readable = true)
    (hw : w.overlay.writable = true) :
    HideWindowScope.enter w =
      ({ hwnd := true, keyColor := w.overlay.keyColor, alpha := w.overlay.alpha,
         flags := w.overlay.flags },
       { calls := w.calls ++ [(Api.GetLayeredWindowAttributes, []),
           (Api.SetLayeredWindowAttributes, [0, 0, LWA_ALPHA]), (Api.DwmFlush, [])],
         overlay := { w.overlay with keyColor := 0, alpha := 0, flags := LWA_ALPHA } }) := by
  unfold HideWindowScope.enter
  simp [hv, hr, hw]

/-- What `RefreshCapture` does to the world when it returns: the calls of the constructor,
then capture calls made at the alpha the constructor left, then the calls of the destructor;
and the overlay is as it was before. -/
theorem RefreshCapture_world (pf : Platform) (fuel : Nat) (d d' : DeviceContext) (hr : HRESULT)
    (h : RenderContext.RefreshCapture pf fuel d = Outcome.returned hr d') :
    d'.world.overlay = d.world.overlay ∧
    ∃ l₁ l₂ l₃, d'.world.calls = d.world.calls ++ (l₁ ++ l₂ ++ l₃) ∧
      (HideWindowScope.enter d.world).2.calls = d.world.calls ++ l₁ ∧
      CaptureCalls (HideWindowScope.enter d.world).2.overlay.alpha l₂ ∧
      (∀ c ∈ l₁, c.1 ≠ Api.AcquireNextFrame) ∧ (∀ c ∈ l₃, c.1 ≠ Api.AcquireNextFrame) ∧
      (d.world.overlay.visible = false → l₁ = [] ∧ l₃ = []) := by
  obtain ⟨s, hitems, rfl⟩ := RefreshCapture_returned pf fuel d d' hr h
  have hstep := RefreshCapture_items_step pf fuel d.captureItems [] S_OK
    (HideWindowScope.enter d.world).2
  rw [hitems] at hstep
  obtain ⟨hov, l₂, hl₂, hc₂⟩ := hstep
  simp only [Outcome.state] at hov hl₂
  obtain ⟨l₁, hl₁, hn₁, hh₁⟩ := enter_calls d.world
  obtain ⟨l₃, hl₃, hn₃, hh₃⟩ := leave_calls (HideWindowScope.enter d.world).1 s.2
  refine ⟨?_, l₁, l₂, l₃, ?_, hl₁, hc₂, hn₁, hn₃, ?_⟩
  · show (HideWindowScope.leave (HideWindowScope.enter d.world).1 s.2).overlay = d.world.overlay
    rcases enter_cases d.world with ⟨hnull, hsame⟩ | ⟨hscope, hover, hwr⟩
    · unfold HideWindowScope.leave
      simp only [hnull, Bool.false_eq_true, if_false]
      rw [hov, hsame]
    · unfold HideWindowScope.leave
      rw [hscope]
      simp only [if_true]
      have hw' : s.2.overlay.writable = true := by rw [hov, hover]; exact hwr
      simp only [hw', if_true]
      rw [hov, hover]
      have key : ∀ ov : Overlay, ov.writable = true →
          ({ visible := ov.visible, readable := ov.readable, writable := true,
             keyColor := ov.keyColor, alpha := ov.alpha, flags := ov.flags } : Overlay) = ov := by
        intro ov hw
        cases ov
        simp only at hw
        simp [hw]
      exact key _ hwr
  · show (HideWindowScope.leave (HideWindowScope.enter d.world).1 s.2).calls = _
    rw [hl₃, hl₂, hl₁]
    simp [List.append_assoc]
  · intro hv
    refine ⟨hh₁ hv, hh₃ ?_⟩
    rw [enter_hidden d.world hv]


/-! ## Back-buffer view and resize -/

/-- The two ways `CreateVertices` ends; it touches the vertex buffer and the world only. -/
theorem CreateVertices_cases (pf : Platform) (d : DeviceContext) :
    RenderContext.CreateVertices pf d =
      if FAILED (pf.answer Api.CreateBuffer (d.world.count Api.CreateBuffer)) then
        Outcome.returned (pf.answer Api.CreateBuffer (d.world.count Api.CreateBuffer))
          { d with vertexBuffer := none
                   world := (call pf Api.CreateBuffer [d.renderWidth, d.renderHeight] d.world).2 }
      else
        Outcome.returned S_OK
          { d with vertexBuffer := some { Width := d.renderWidth, Height := d.renderHeight }
                   world := (call pf Api.CreateBuffer [d.renderWidth, d.renderHeight] d.world).2 }
                     := by
  unfold RenderContext.CreateVertices
  simp only [HR, DeviceContext.call, call_status]

/-- The release of the back-buffer view touches the view and the world only, and records the
release exactly when a view was held. -/
theorem releaseBackBufferView_eq (d : DeviceContext) :
    d.releaseBackBufferView =
      { d with backBufferView := none
               world := { d.world with calls := d.world.calls ++
                 d.backBufferView.toList.map (fun _ => (Api.ReleaseBackBufferView, [])) } } := by
  unfold DeviceContext.releaseBackBufferView
  cases h : d.backBufferView with
  | none =>
    simp only [Option.toList_none, List.map_nil, List.append_nil]
    cases d
    simp_all
  | some v => simp

/-- How `CreateRenderTargetView` ends on a context with a swap chain: it returns, it touches
the view and the world only, the view it leaves is the old one (when the buffer could not be
got), absent, or created for the current size of the buffers, and on success it is the
last. -/
theorem CreateRenderTargetView_spec (pf : Platform) (d : DeviceContext) (size : Extent)
    (hs : d.swapChain = some size) :
    ∃ hr v w', RenderContext.CreateRenderTargetView pf d =
        Outcome.returned hr { d with backBufferView := v, world := w' } ∧
      (FAILED hr = false → hr = S_OK ∧ v = some size) ∧
      (v = d.backBufferView ∨ v = none ∨ v = some size) ∧
      w'.overlay = d.world.overlay ∧ ∃ l, w'.calls = d.world.calls ++ l := by
  unfold RenderContext.CreateRenderTargetView
  simp only [hs, HR, DeviceContext.call, releaseBackBufferView_eq]
  split_ifs <;>
    refine ⟨_, _, _, rfl, ?_, ?_, rfl, ⟨_, by simp only [call, List.append_assoc]; rfl⟩⟩ <;>
    simp_all


theorem discard_CreateVertices (pf : Platform) (d : DeviceContext) :
    ∃ vb w', discard (RenderContext.CreateVertices pf d) (fun d => Outcome.returned S_OK d) =
        Outcome.returned S_OK { d with vertexBuffer := vb, world := w' } ∧
      w'.overlay = d.world.overlay ∧ ∃ l, w'.calls = d.world.calls ++ l := by
  rw [CreateVertices_cases]
  split_ifs
  · exact ⟨_, _, rfl, rfl, _, rfl⟩
  · exact ⟨_, _, rfl, rfl, _, rfl⟩

/-- How `Resize` ends on a context with a swap chain. -/
theorem Resize_spec (pf : Platform) (w h : Nat) (d : DeviceContext) (sc : Extent)
    (hs : d.swapChain = some sc) :
    ∃ hr d', RenderContext.Resize pf w h d = Outcome.returned hr d' ∧
      (FAILED hr = false → hr = S_OK ∧
        d'.swapChain = some { Width := max w 1, Height := max h 1 } ∧
        d'.backBufferView = some { Width := max w 1, Height := max h 1 } ∧
        d'.renderWidth = max w 1 ∧ d'.renderHeight = max h 1) ∧
      (d'.backBufferView = none ∨ d'.ViewCurrent) ∧ d'.swapChain.isSome = true ∧
      d'.world.overlay = d.world.overlay ∧
      ∃ rest, d'.world.calls = d.world.calls ++
        (d.backBufferView.toList.map (fun _ => (Api.ReleaseBackBufferView, [])) ++
          (Api.ResizeBuffers, [0, max w 1, max h 1]) :: rest) := by
  unfold RenderContext.Resize
  simp only [hs, releaseBackBufferView_eq]
  simp only [HR, DeviceContext.call]
  by_cases h₁ : FAILED (call pf Api.ResizeBuffers [0, max w 1, max h 1]
      { d.world with calls := d.world.calls ++
        d.backBufferView.toList.map (fun _ => (Api.ReleaseBackBufferView, [])) }).1 = true
  · simp only [h₁, if_true]
    refine ⟨_, _, rfl, fun hok => ?_, Or.inl rfl, by simp [hs], rfl, [], ?_⟩
    · rw [hok] at h₁; exact Bool.noConfusion h₁
    · simp [call, List.append_assoc]
  · simp only [h₁, if_false]
    obtain ⟨hr, v, w', hcr, hok, hv, hov, l, hl⟩ := CreateRenderTargetView_spec pf
      { d with backBufferView := none
               world := (call pf Api.ResizeBuffers [0, max w 1, max h 1]
                 { d.world with calls := d.world.calls ++
                   d.backBufferView.toList.map (fun _ => (Api.ReleaseBackBufferView, [])) }).2
               swapChain := some { Width := max w 1, Height := max h 1 } }
      { Width := max w 1, Height := max h 1 } rfl
    rw [hcr]
    simp only at hv hov hl
    by_cases h₂ : FAILED hr = true
    · simp only [h₂, if_true]
      refine ⟨_, _, rfl, fun hok' => ?_, ?_, rfl, hov, l, ?_⟩
      · rw [hok'] at h₂; exact Bool.noConfusion h₂
      · rcases hv with hv | hv | hv
        · exact Or.inl hv
        · exact Or.inl hv
        · exact Or.inr ⟨_, rfl, hv⟩
      · show w'.calls = _
        rw [hl]
        simp [call, List.append_assoc]
    · simp only [h₂, if_false]
      obtain ⟨hS, hview⟩ := hok (by simpa using h₂)
      obtain ⟨vb, w'', hcv, hov'', l'', hl''⟩ := discard_CreateVertices pf
        { RenderContext.UpdateViewport (max w 1) (max h 1)
            { d with backBufferView := v
                     world := w'
                     swapChain := some { Width := max w 1, Height := max h 1 } } with
          renderWidth := max w 1, renderHeight := max h 1 }
      refine ⟨S_OK, _, hcv, fun _ => ⟨rfl, rfl, hview, rfl, rfl⟩, Or.inr ⟨_, rfl, hview⟩, rfl,
        ?_, l ++ l'', ?_⟩
      · show w''.overlay = _
        rw [hov'']
        exact hov
      · show w''.calls = _
        rw [hl'']
        show w'.calls ++ l'' = _
        rw [hl]
        simp [call, List.append_assoc]


/-! ## Initialize -/

/-- A chain `HR(expr); rest` that returned a success status: `expr` returned a success
status and `rest` returned the status of the chain. -/
theorem HR_returned {σ : Type} {o : Outcome σ} {rest : σ → Outcome σ} {hr : HRESULT} {s : σ}
    (h : HR o rest = Outcome.returned hr s) (hok : FAILED hr = false) :
    ∃ hr' s', o = Outcome.returned hr' s' ∧ FAILED hr' = false ∧
      rest s' = Outcome.returned hr s := by
  cases o with
  | returned hr' s' =>
    simp only [HR] at h
    by_cases hf : FAILED hr' = true
    · simp only [hf, if_true, Outcome.returned.injEq] at h
      rw [h.1, hok] at hf
      exact Bool.noConfusion hf
    · simp only [hf, if_false] at h
      exact ⟨hr', s', rfl, by simpa using hf, h⟩
  | nullDereference s' => exact Outcome.noConfusion h
  | running s' => exact Outcome.noConfusion h

/-- A platform call followed by steps that keep the swap chain and the view keeps them. -/
theorem HR_call_same (pf : Platform) (a : Api) (args : List Nat) (d d₁ : DeviceContext)
    (rest : DeviceContext → Outcome DeviceContext) (h : d.SameView d₁)
    (hrest : ∀ s, d.SameView s → d.SameView (rest s).state ∧ (rest s).status ≠ none) :
    d.SameView (HR (DeviceContext.call pf a args d₁) rest).state ∧
      (HR (DeviceContext.call pf a args d₁) rest).status ≠ none := by
  simp only [HR, DeviceContext.call]
  split_ifs
  · exact ⟨h, by simp [Outcome.status]⟩
  · exact hrest _ h

/-- The set-up of the effect returns and leaves the swap chain and the back-buffer view
alone. -/
theorem SetupResources_frame (host : Host) (pf : Platform) (rw rh : Nat) (d : DeviceContext) :
    d.SameView (DigitalGlitch.SetupResources host pf rw rh d).state ∧
    (DigitalGlitch.SetupResources host pf rw rh d).status ≠ none := by
  unfold DigitalGlitch.SetupResources
  have hs : d.SameView d := ⟨rfl, rfl⟩
  refine HR_call_same pf _ _ d _ _ ⟨hs.1, hs.2⟩ (fun s hs => ?_)
  refine HR_call_same pf _ _ d _ _ ⟨hs.1, hs.2⟩ (fun s hs => ?_)
  refine HR_call_same pf _ _ d _ _ ⟨hs.1, hs.2⟩ (fun s hs => ?_)
  refine HR_call_same pf _ _ d _ _ ⟨hs.1, hs.2⟩ (fun s hs => ?_)
  refine HR_call_same pf _ _ d _ _ ⟨hs.1, hs.2⟩ (fun s hs => ?_)
  refine HR_call_same pf _ _ d _ _ ⟨hs.1, hs.2⟩ (fun s hs => ?_)
  refine HR_call_same pf _ _ d _ _ ⟨hs.1, hs.2⟩ (fun s hs => ?_)
  refine HR_call_same pf _ _ d _ _ ⟨hs.1, hs.2⟩ (fun s hs => ?_)
  refine HR_call_same pf _ _ d _ _ ⟨hs.1, hs.2⟩ (fun s hs => ?_)
  refine HR_call_same pf _ _ d _ _ ⟨hs.1, hs.2⟩ (fun s hs => ?_)
  refine HR_call_same pf _ _ d _ _ ⟨hs.1, hs.2⟩ (fun s hs => ?_)
  refine HR_call_same pf _ _ d _ _ ⟨hs.1, hs.2⟩ (fun s hs => ?_)
  refine HR_call_same pf _ _ d _ _ ⟨hs.1, hs.2⟩ (fun s hs => ?_)
  exact ⟨hs, by simp [Outcome.status]⟩

/-- The last statements of `Initialize` return; on success they mark the context
initialized; they leave the swap chain and the back-buffer view alone. -/
theorem Initialize_glitch_spec (host : Host) (pf : Platform) (d : DeviceContext) :
    ∃ hr d', RenderContext.Initialize.glitch host pf d = Outcome.returned hr d' ∧
      d'.swapChain = d.swapChain ∧ d'.backBufferView = d.backBufferView ∧
      (FAILED hr = false → hr = S_OK ∧ d'.rc.initialized = true) := by
  unfold RenderContext.Initialize.glitch
  obtain ⟨⟨h₁, h₂⟩, h₃⟩ := SetupResources_frame host pf d.renderWidth d.renderHeight
    { d with rc := { d.rc with intensity := 1 / 2, noiseTexture := [] },
             trashFrame1Tex := none, trashFrame2Tex := none }
  cases hres : DigitalGlitch.SetupResources host pf d.renderWidth d.renderHeight
    { d with rc := { d.rc with intensity := 1 / 2, noiseTexture := [] },
             trashFrame1Tex := none, trashFrame2Tex := none } with
  | returned hr g =>
    rw [hres] at h₁ h₂
    simp only [Outcome.state] at h₁ h₂
    simp only
    split_ifs with hf
    · exact ⟨_, _, rfl, h₁, h₂, fun h => by rw [h] at hf; exact Bool.noConfusion hf⟩
    · exact ⟨_, _, rfl, h₁, h₂, fun _ => ⟨rfl, rfl⟩⟩
  | nullDereference g => rw [hres] at h₃; exact absurd rfl h₃
  | running g => rw [hres] at h₃; exact absurd rfl h₃

/-- After a successful `Initialize` of a context that was not initialized, the context is
initialized and holds a back-buffer view created for the size of the swap-chain buffers. -/
theorem Initialize_post (host : Host) (pf : Platform) (fuel : Nat) (d₀ d : DeviceContext)
    (hr : HRESULT) (hfresh : d₀.rc.initialized = false)
    (h : RenderContext.Initialize host pf fuel d₀ = Outcome.returned hr d)
    (hok : FAILED hr = false) :
    hr = S_OK ∧ d.rc.initialized = true ∧ d.ViewCurrent := by
  unfold RenderContext.Initialize at h
  simp only [hfresh, Bool.false_eq_true, if_false] at h
  obtain ⟨_, _, -, -, h⟩ := HR_returned h hok
  obtain ⟨_, _, -, -, h⟩ := HR_returned h hok
  obtain ⟨_, _, -, -, h⟩ := HR_returned h hok
  obtain ⟨_, _, -, -, h⟩ := HR_returned h hok
  obtain ⟨_, _, -, -, h⟩ := HR_returned h hok
  obtain ⟨_, _, -, -, h⟩ := HR_returned h hok
  obtain ⟨_, _, -, -, h⟩ := HR_returned h hok
  obtain ⟨_, _, -, -, h⟩ := HR_returned h hok
  obtain ⟨_, _, -, -, h⟩ := HR_returned h hok
  obtain ⟨_, d₁, -, -, h⟩ := HR_returned h hok
  obtain ⟨hr₂, d₂, hview, hok₂, h⟩ := HR_returned h hok
  cases hsc : d₁.swapChain with
  | none =>
    unfold RenderContext.CreateRenderTargetView at hview
    simp only [hsc] at hview
    exact Outcome.noConfusion hview
  | some size =>
    obtain ⟨hr', v, w', hcr, hsucc, -, -, -⟩ := CreateRenderTargetView_spec pf d₁ size hsc
    rw [hcr] at hview
    simp only [Outcome.returned.injEq] at hview
    obtain ⟨e₁, e₂⟩ := hview
    subst e₁
    obtain ⟨-, hv⟩ := hsucc hok₂
    obtain ⟨hr₃, d₃, hg, hsw, hbv, hinit⟩ := Initialize_glitch_spec host pf
      (RenderContext.UpdateViewport d₂.renderWidth d₂.renderHeight d₂)
    rw [hg] at h
    simp only [Outcome.returned.injEq] at h
    obtain ⟨e₃, e₄⟩ := h
    subst e₃ e₄
    obtain ⟨hS, hi⟩ := hinit hok
    refine ⟨hS, hi, size, ?_, ?_⟩
    · rw [hsw, ← e₂]; exact hsc
    · rw [hbv, ← e₂]; exact hv


/-! ## The log of one frame -/

theorem Update_log (host : Host) (ctx : RenderContext) :
    (DigitalGlitch.Update host ctx).log = ctx.log ++
      (if DigitalGlitch.regenerates ctx.intensity (host.RandomFloat ctx.draws)
       then [Call.UpdateNoiseTexture] else []) := by
  unfold DigitalGlitch.Update
  simp only [RandomFloat]
  split_ifs
  · rw [UpdateNoiseTexture_log]
  · simp

theorem presentCalls_append (a b : List Call) :
    presentCalls (a ++ b) = presentCalls a ++ presentCalls b := by
  induction a with
  | nil => rfl
  | cons c a ih => cases c <;> simp [presentCalls, ih]

theorem OnRenderImage_log (host : Host) (ctx : RenderContext) :
    (DigitalGlitch.OnRenderImage host ctx).log =
      ctx.log ++ [Call.OnRenderImage (if host.RandomFloat ctx.draws > 1 / 2 then 1 else 2)] :=
  rfl

theorem RenderSingleFrame_log_eq (host : Host) (x : ℚ) (ctx : RenderContext) :
    (RenderSingleFrame host x ctx).2.log =
      (DigitalGlitch.OnRenderImage host (DigitalGlitch.Update host
        { ctx.emit (Call.RenderSingleFrame x) with intensity := x })).log ++
        [Call.Present 1 0] := by
  unfold RenderSingleFrame
  simp only
  split_ifs <;> rfl

/-- The calls of one `RenderSingleFrame(x)`, in order: the frame itself, the regeneration of
the noise texture if the draw asks for it, the draw call, one `Present(1, 0)`. -/
theorem RenderSingleFrame_log (host : Host) (x : ℚ) (ctx : RenderContext) :
    ∃ trash, (RenderSingleFrame host x ctx).2.log = ctx.log ++
      ([Call.RenderSingleFrame x] ++
        (if DigitalGlitch.regenerates x (host.RandomFloat ctx.draws)
         then [Call.UpdateNoiseTexture] else []) ++
        [Call.OnRenderImage trash, Call.Present 1 0]) := by
  refine ⟨if host.RandomFloat (DigitalGlitch.Update host
    { ctx.emit (Call.RenderSingleFrame x) with intensity := x }).draws > 1 / 2 then 1 else 2, ?_⟩
  rw [RenderSingleFrame_log_eq, OnRenderImage_log, Update_log]
  simp only [RenderContext.emit, List.append_assoc, List.singleton_append, List.cons_append,
    List.nil_append]

/-- The frame counter after one `RenderSingleFrame(x)`. -/
theorem RenderSingleFrame_frameCount (host : Host) (x : ℚ) (ctx : RenderContext) :
    (RenderSingleFrame host x ctx).2.frameCount =
      if FAILED (host.Present ctx.presents) then ctx.frameCount
      else (ctx.frameCount + 1) % 2 ^ 32 := by
  have hq : Quiet { ctx.emit (Call.RenderSingleFrame x) with intensity := x }
      (DigitalGlitch.OnRenderImage host (DigitalGlitch.Update host
        { ctx.emit (Call.RenderSingleFrame x) with intensity := x })) :=
    (Update_quiet host _).trans (OnRenderImage_quiet host _)
  obtain ⟨p, -, f, -, -, -⟩ := hq
  have hp : (DigitalGlitch.OnRenderImage host (DigitalGlitch.Update host
      { ctx.emit (Call.RenderSingleFrame x) with intensity := x })).presents = ctx.presents := p
  have hf : (DigitalGlitch.OnRenderImage host (DigitalGlitch.Update host
      { ctx.emit (Call.RenderSingleFrame x) with intensity := x })).frameCount =
      ctx.frameCount := f
  unfold RenderSingleFrame
  simp only [hp]
  split_ifs <;> simp only [hf]

/-! ## The frame when `Map` may fail -/

/-- When `Map` succeeds, the regeneration of the noise texture returns. -/
theorem UpdateNoiseTexture_mapped_returned (host : Host) (map : HRESULT) (ctx : RenderContext)
    (h : FAILED map = false) :
    DigitalGlitch.UpdateNoiseTexture.mapped host map ctx =
      Exit.returned (DigitalGlitch.UpdateNoiseTexture host ctx) := by
  unfold DigitalGlitch.UpdateNoiseTexture.mapped DigitalGlitch.UpdateNoiseTexture
  simp only [h, Bool.false_eq_true, if_false]

/-- When the noise texture is not regenerated or `Map` succeeds, `Update` returns. -/
theorem Update_mapped_returned (host : Host) (map : HRESULT) (ctx : RenderContext)
    (h : DigitalGlitch.regenerates ctx.intensity (host.RandomFloat ctx.draws) = false ∨
      FAILED map = false) :
    DigitalGlitch.Update.mapped host map ctx =
      Exit.returned (DigitalGlitch.Update host ctx) := by
  unfold DigitalGlitch.Update.mapped DigitalGlitch.Update
  simp only [RandomFloat]
  by_cases hreg : DigitalGlitch.regenerates ctx.intensity (host.RandomFloat ctx.draws) = true
  · have hmap : FAILED map = false := by
      rcases h with h | h
      · rw [hreg] at h; exact absurd h (by decide)
      · exact h
    rw [if_pos hreg, if_pos hreg]
    exact UpdateNoiseTexture_mapped_returned host map _ hmap
  · rw [if_neg hreg, if_neg hreg]

/-- When the noise texture is regenerated and `Map` fails, `Update` is left by the
exception, after the draw and the call of `UpdateNoiseTexture`. -/
theorem Update_mapped_thrown (host : Host) (map : HRESULT) (ctx : RenderContext)
    (hreg : DigitalGlitch.regenerates ctx.intensity (host.RandomFloat ctx.draws) = true)
    (hmap : FAILED map = true) :
    DigitalGlitch.Update.mapped host map ctx =
      Exit.thrown map ((RandomFloat host ctx).2.emit Call.UpdateNoiseTexture) := by
  unfold DigitalGlitch.Update.mapped
  simp only [RandomFloat]
  rw [if_pos hreg]
  unfold DigitalGlitch.UpdateNoiseTexture.mapped
  simp only [hmap, if_true]

/-- When the noise texture is not regenerated or `Map` succeeds, the frame is rendered as
`RenderSingleFrame` renders it. -/
theorem RenderSingleFrame_mapped_returned (host : Host) (map : HRESULT) (x : ℚ)
    (ctx : RenderContext)
    (h : DigitalGlitch.regenerates x (host.RandomFloat ctx.draws) = false ∨
      FAILED map = false) :
    RenderSingleFrame.mapped host map x ctx = Exit.returned (RenderSingleFrame host x ctx) := by
  have h' := Update_mapped_returned host map
    { ctx.emit (Call.RenderSingleFrame x) with intensity := x } h
  unfold RenderSingleFrame.mapped RenderSingleFrame
  simp only
  rw [h']
  simp only
  split_ifs <;> rfl

/-- When the noise texture is regenerated and `Map` fails, the frame is left by the
exception: the log has the frame and the call of `UpdateNoiseTexture`, and nothing else. -/
theorem RenderSingleFrame_mapped_thrown (host : Host) (map : HRESULT) (x : ℚ)
    (ctx : RenderContext)
    (hreg : DigitalGlitch.regenerates x (host.RandomFloat ctx.draws) = true)
    (hmap : FAILED map = true) :
    RenderSingleFrame.mapped host map x ctx =
      Exit.thrown map
        { ctx with intensity := x, draws := ctx.draws + 1,
                   log := ctx.log ++ [Call.RenderSingleFrame x, Call.UpdateNoiseTexture] } := by
  have h' := Update_mapped_thrown host map
    { ctx.emit (Call.RenderSingleFrame x) with intensity := x } hreg hmap
  unfold RenderSingleFrame.mapped
  simp only
  rw [h']
  simp [RenderContext.emit, RandomFloat]

/-! # The claims, continued -/

/-- C11 fails on the code: on the platform where the first acquire reports the loss of the
session and no session can be opened any more, a first `Refresh` of an established item
returns `E_ACCESSDENIED` and leaves the item without a session; the next `Refresh` of that
item makes no call to establish one: it goes through the null handle. -/
theorem Refresh_dereferences_null_session :
    (CaptureItem.Refresh lostPlatform 2 (establishedItem, World.start)).status =
      some E_ACCESSDENIED ∧
    (CaptureItem.Refresh lostPlatform 2 (establishedItem, World.start)).state.1.outputDuplication =
      none ∧
    CaptureItem.Refresh lostPlatform 2
        (CaptureItem.Refresh lostPlatform 2 (establishedItem, World.start)).state =
      Outcome.nullDereference
        (CaptureItem.Refresh lostPlatform 2 (establishedItem, World.start)).state := by
  decide

/-- C12, as stated, fails: the first acquire delivers a frame with a non-zero timestamp
(`k = 0`), the frame is copied, but its release fails, and `Refresh` returns that failure,
not success. -/
theorem Refresh_release_failure_returned :
    FAILED ((failingPlatform Api.ReleaseFrame 0 DXGI_ERROR_ACCESS_LOST).answer
      Api.AcquireNextFrame 0) = false ∧
    (failingPlatform Api.ReleaseFrame 0 DXGI_ERROR_ACCESS_LOST).LastPresentTime 0 ≠ 0 ∧
    (CaptureItem.Refresh (failingPlatform Api.ReleaseFrame 0 DXGI_ERROR_ACCESS_LOST) 1
      (establishedItem, World.start)).status = some DXGI_ERROR_ACCESS_LOST ∧
    (CaptureItem.Refresh (failingPlatform Api.ReleaseFrame 0 DXGI_ERROR_ACCESS_LOST) 1
      (establishedItem, World.start)).state.1.content = some 0 := by
  decide

/-- C12, amended: for every `k`, if the first `k` acquire attempts of `Refresh` on an
established item report the loss of the session, every re-establishment succeeds, attempt
`k + 1` delivers a frame with a non-zero timestamp, and the query of the frame's texture and
the release of the frame succeed, then `Refresh` (given fuel for `k + 1` iterations) returns
`S_OK`, has opened exactly `k` sessions, has copied that frame into the snapshot, and leaves
the item established: the snapshot has the format, width and height of the mode reported by
the session it holds, which for `k > 0` is the session opened last. -/
theorem Refresh_recovers_from_session_loss (pf : Platform) (k : Nat) (item : CaptureItem)
    (w : World) (fuel : Nat) (hest : item.Established) (hfuel : k < fuel)
    (hlost : ∀ j, j < k → pf.answer Api.AcquireNextFrame (w.count Api.AcquireNextFrame + j) =
      DXGI_ERROR_ACCESS_LOST)
    (hdup : ∀ n, FAILED (pf.answer Api.DuplicateOutput n) = false)
    (htex : ∀ n, FAILED (pf.answer Api.CreateTexture2D n) = false)
    (hview : ∀ n, FAILED (pf.answer Api.CreateShaderResourceView n) = false)
    (hacq : FAILED (pf.answer Api.AcquireNextFrame (w.count Api.AcquireNextFrame + k)) = false)
    (hnew : pf.LastPresentTime (w.count Api.AcquireNextFrame + k) ≠ 0)
    (hquery : FAILED (pf.answer Api.QueryInterface (w.count Api.QueryInterface)) = false)
    (hrel : FAILED (pf.answer Api.ReleaseFrame (w.count Api.ReleaseFrame)) = false) :
    ∃ item' w', CaptureItem.Refresh pf fuel (item, w) = Outcome.returned S_OK (item', w') ∧
      w'.count Api.DuplicateOutput = w.count Api.DuplicateOutput + k ∧
      item'.content = some (w.count Api.AcquireNextFrame + k) ∧
      item'.Established ∧
      (k = 0 → item'.outputDuplication = item.outputDuplication) ∧
      (0 < k → item'.outputDuplication =
        some { index := w'.count Api.DuplicateOutput - 1,
               mode := pf.mode (w'.count Api.DuplicateOutput - 1) }) := by
  obtain ⟨item', w', h, hest', hcont, hd, -, -, h0, hpos⟩ :=
    Refresh_after_losses pf k item w fuel hest hfuel hlost hdup htex hview hacq hnew hquery hrel
  exact ⟨item', w', h, hd, hcont, hest', h0, hpos⟩

/-- C12, amended, at one loss of the session: one session is opened anew, in the mode
1280 x 720, the frame of the second acquire is copied into the snapshot, and `Refresh`
returns `S_OK`. -/
theorem Refresh_recovers_from_session_loss_witness :
    ∃ item' w', CaptureItem.Refresh recoveringPlatform 2 (establishedItem, World.start) =
        Outcome.returned S_OK (item', w') ∧
      w'.count Api.DuplicateOutput = 1 ∧ item'.content = some 1 ∧ item'.Established ∧
      item'.outputDuplication =
        some { index := 0,
               mode := { Format := DXGI_FORMAT_B8G8R8A8_UNORM, Width := 1280, Height := 720 } } :=
                 by
  obtain ⟨item', w', h, hd, hc, he, -, hp⟩ :=
    Refresh_recovers_from_session_loss recoveringPlatform 1 establishedItem World.start 2
      ⟨rfl, _, _, rfl, rfl, rfl, rfl, rfl, rfl⟩ (by decide)
      (fun j hj => by
        obtain rfl : j = 0 := by omega
        decide)
      (fun _ => rfl) (fun _ => rfl) (fun _ => rfl) (by decide) (by decide) (by decide)
      (by decide)
  refine ⟨item', w', h, hd, hc, he, ?_⟩
  rw [hp (by decide), hd]
  rfl

/-- C13: if an acquire attempt of `Refresh` fails with a status other than the loss of the
session (an acquire timeout for one), `Refresh` returns exactly that status; the item is
unchanged (no session was opened, nothing was copied into the snapshot) and the acquire is
the only call made. -/
theorem Refresh_propagates_other_failure (pf : Platform) (fuel : Nat) (item : CaptureItem)
    (w : World) (session : Duplication) (hs : item.outputDuplication = some session)
    (hne : pf.answer Api.AcquireNextFrame (w.count Api.AcquireNextFrame) ≠
      DXGI_ERROR_ACCESS_LOST)
    (hfail : FAILED (pf.answer Api.AcquireNextFrame (w.count Api.AcquireNextFrame)) = true) :
    CaptureItem.Refresh pf (fuel + 1) (item, w) =
      Outcome.returned (pf.answer Api.AcquireNextFrame (w.count Api.AcquireNextFrame))
        (item, { w with calls := w.calls ++
          [(Api.AcquireNextFrame, [1000, w.overlay.alpha])] }) := by
  rw [Refresh_succ pf fuel item w session hs]
  simp only [hne, hfail, if_false, if_true]

/-- C13 at an acquire timeout: `Refresh` returns `DXGI_ERROR_WAIT_TIMEOUT` after the one
acquire. -/
theorem Refresh_propagates_other_failure_witness :
    CaptureItem.Refresh (failingPlatform Api.AcquireNextFrame 0 DXGI_ERROR_WAIT_TIMEOUT) 3
        (establishedItem, World.start) =
      Outcome.returned DXGI_ERROR_WAIT_TIMEOUT
        (establishedItem, { World.start with calls := World.start.calls ++
          [(Api.AcquireNextFrame, [1000, World.start.overlay.alpha])] }) :=
  Refresh_propagates_other_failure (failingPlatform Api.AcquireNextFrame 0 DXGI_ERROR_WAIT_TIMEOUT)
    2 establishedItem World.start _ rfl (by decide) (by decide)

/-- C14, as stated, fails: when the session is opened and the creation of the snapshot
texture fails, `SetupDuplication(device)` returns the failure and leaves the item with the
session but without snapshot and view. -/
theorem SetupDuplication_leaves_session_only :
    (CaptureItem.SetupDuplication (failingPlatform Api.CreateTexture2D 0 E_FAIL)
      (establishedItem, World.start)).status = some E_FAIL ∧
    (CaptureItem.SetupDuplication (failingPlatform Api.CreateTexture2D 0 E_FAIL)
      (establishedItem, World.start)).state.1.outputDuplication.isSome = true ∧
    (CaptureItem.SetupDuplication (failingPlatform Api.CreateTexture2D 0 E_FAIL)
      (establishedItem, World.start)).state.1.snapshot = none ∧
    (CaptureItem.SetupDuplication (failingPlatform Api.CreateTexture2D 0 E_FAIL)
      (establishedItem, World.start)).state.1.snapshotView = none := by
  decide

/-- C14, amended: on an item whose output is bound, `SetupDuplication(device)` returns for
every outcome of the three calls it makes.  Either it returns `S_OK` and the item is
established: session, snapshot and view present, the snapshot in the format and size of the
mode the new session reports.  Or it returns the status of the first failing call, with the
view absent and exactly the objects created before that call present: none after a failed
`DuplicateOutput`, the session after a failed `CreateTexture2D`, the session and the snapshot
after a failed `CreateShaderResourceView`.  In every case the output stays bound and the
function, invoked again, returns again. -/
theorem SetupDuplication_outcomes (pf : Platform) (item : CaptureItem) (w : World)
    (hout : item.output = true) :
    ∃ hr item' w', CaptureItem.SetupDuplication pf (item, w) =
        Outcome.returned hr (item', w') ∧
      item'.output = true ∧
      (FAILED hr = false → hr = S_OK ∧ item'.Established ∧
        ∃ session, item'.outputDuplication = some session ∧
          session.mode = pf.mode (w.count Api.DuplicateOutput)) ∧
      (FAILED hr = true → item'.snapshotView = none ∧
        ((hr = pf.answer Api.DuplicateOutput (w.count Api.DuplicateOutput) ∧
            item'.outputDuplication = none ∧ item'.snapshot = none) ∨
          (hr = pf.answer Api.CreateTexture2D (w.count Api.CreateTexture2D) ∧
            item'.outputDuplication.isSome = true ∧ item'.snapshot = none) ∨
          (hr = pf.answer Api.CreateShaderResourceView (w.count Api.CreateShaderResourceView) ∧
            item'.outputDuplication.isSome = true ∧ item'.snapshot.isSome = true))) ∧
      ∃ hr₂ s₂, CaptureItem.SetupDuplication pf (item', w') = Outcome.returned hr₂ s₂ := by
  have again : ∀ (it : CaptureItem) (v : World), it.output = true →
      ∃ hr₂ s₂, CaptureItem.SetupDuplication pf (it, v) = Outcome.returned hr₂ s₂ := by
    intro it v h
    rw [SetupDuplication_cases pf it v h]
    simp only
    split_ifs <;> exact ⟨_, _, rfl⟩
  rw [SetupDuplication_cases pf item w hout]
  simp only
  split_ifs with h₁ h₂ h₃
  · refine ⟨_, _, _, rfl, rfl, fun h => ?_, fun _ => ⟨rfl, Or.inl ⟨rfl, rfl, rfl⟩⟩,
      again _ _ rfl⟩
    rw [h] at h₁; exact Bool.noConfusion h₁
  · refine ⟨_, _, _, rfl, rfl, fun h => ?_, fun _ => ⟨rfl, Or.inr (Or.inl ⟨rfl, rfl, rfl⟩)⟩,
      again _ _ rfl⟩
    rw [h] at h₂; exact Bool.noConfusion h₂
  · refine ⟨_, _, _, rfl, rfl, fun h => ?_, fun _ => ⟨rfl, Or.inr (Or.inr ⟨rfl, rfl, rfl⟩)⟩,
      again _ _ rfl⟩
    rw [h] at h₃; exact Bool.noConfusion h₃
  · refine ⟨_, _, _, rfl, rfl, fun _ => ⟨rfl, ⟨rfl, _, _, rfl, rfl, rfl, rfl, rfl, rfl⟩,
      _, rfl, rfl⟩, fun h => ?_, again _ _ rfl⟩
    rw [FAILED_S_OK] at h; exact Bool.noConfusion h

/-- C14, amended, on the platform where the creation of the snapshot view fails: the status
is `E_FAIL`, the session and the snapshot are present, the view is absent. -/
theorem SetupDuplication_outcomes_witness :
    ∃ hr item' w', CaptureItem.SetupDuplication
        (failingPlatform Api.CreateShaderResourceView 0 E_FAIL) (establishedItem, World.start) =
        Outcome.returned hr (item', w') ∧
      hr = E_FAIL ∧ item'.snapshotView = none ∧ item'.outputDuplication.isSome = true ∧
      item'.snapshot.isSome = true := by
  obtain ⟨hr, item', w', h, -, -, hfail, -⟩ :=
    SetupDuplication_outcomes (failingPlatform Api.CreateShaderResourceView 0 E_FAIL)
      establishedItem World.start rfl
  have hstat : (CaptureItem.SetupDuplication
      (failingPlatform Api.CreateShaderResourceView 0 E_FAIL)
      (establishedItem, World.start)).status = some E_FAIL := by decide
  rw [h] at hstat
  simp only [Outcome.status, Option.some.injEq] at hstat
  subst hstat
  obtain ⟨hv, hcase⟩ := hfail (by decide)
  rcases hcase with ⟨e, -, -⟩ | ⟨e, -, -⟩ | ⟨-, hd, hsn⟩
  · exact absurd e (by decide)
  · exact absurd e (by decide)
  · exact ⟨_, item', w', h, rfl, hv, hd, hsn⟩

/-- C15: when a swap chain exists, `Resize(w, h)` returns, and if it succeeds the buffers of
the swap chain were resized to `(max(w,1), max(h,1))` and `renderWidth = max(w,1)`,
`renderHeight = max(h,1)` afterwards, so the render size is `(w, h)` for `w, h ≥ 1`.  When no
swap chain exists, `Resize` returns `S_OK` and changes nothing. -/
theorem Resize_sets_render_size (pf : Platform) (w h : Nat) (d : DeviceContext) :
    (d.swapChain = none → RenderContext.Resize pf w h d = Outcome.returned S_OK d) ∧
    (d.swapChain ≠ none →
      ∃ hr d', RenderContext.Resize pf w h d = Outcome.returned hr d' ∧
        (FAILED hr = false →
          (Api.ResizeBuffers, [0, max w 1, max h 1]) ∈ World.since d.world d'.world ∧
          d'.swapChain = some { Width := max w 1, Height := max h 1 } ∧
          d'.renderWidth = max w 1 ∧ d'.renderHeight = max h 1 ∧
          (1 ≤ w → 1 ≤ h → d'.renderWidth = w ∧ d'.renderHeight = h))) := by
  constructor
  · intro hs
    unfold RenderContext.Resize
    simp only [hs]
  · intro hs
    obtain ⟨sc, hsc⟩ := Option.ne_none_iff_exists'.mp hs
    obtain ⟨hr, d', hres, hok, -, -, -, rest, hcalls⟩ := Resize_spec pf w h d sc hsc
    refine ⟨hr, d', hres, fun hsucc => ?_⟩
    obtain ⟨-, hsw, -, hrw, hrh⟩ := hok hsucc
    refine ⟨?_, hsw, hrw, hrh, fun hw hh => ?_⟩
    · rw [since_of_calls hcalls]
      simp
    · rw [hrw, hrh]
      exact ⟨Nat.max_eq_left hw, Nat.max_eq_left hh⟩

/-- C15 at `Resize(0, 600)` on a context with a swap chain, every call succeeding: the call
returns `S_OK` and the render size becomes `(1, 600)`; and at a context without swap chain,
which stays as it is. -/
theorem Resize_sets_render_size_witness :
    (RenderContext.Resize okPlatform 0 600 shownDevice).status = some S_OK ∧
    (RenderContext.Resize okPlatform 0 600 shownDevice).state.renderWidth = 1 ∧
    (RenderContext.Resize okPlatform 0 600 shownDevice).state.renderHeight = 600 ∧
    RenderContext.Resize okPlatform 800 600 (DeviceContext.fresh World.start) =
      Outcome.returned S_OK (DeviceContext.fresh World.start) := by
  obtain ⟨hr, d', h, hok⟩ :=
    (Resize_sets_render_size okPlatform 0 600 shownDevice).2 (by decide)
  have hstat : (RenderContext.Resize okPlatform 0 600 shownDevice).status = some S_OK := by
    decide
  have hhr : hr = S_OK := by
    rw [h] at hstat
    simpa [Outcome.status] using hstat
  subst hhr
  rw [h]
  exact ⟨rfl, (hok FAILED_S_OK).2.2.1, (hok FAILED_S_OK).2.2.2.1,
    (Resize_sets_render_size okPlatform 800 600 (DeviceContext.fresh World.start)).1 rfl⟩

/-- Every state reached by `Resize` calls from a state with a swap chain has a swap chain,
and its back-buffer view is absent or created for the current size of the buffers. -/
theorem ResizedFrom_invariant (pf : Platform) (d d' : DeviceContext)
    (hsc : d.swapChain.isSome = true) (hv : d.backBufferView = none ∨ d.ViewCurrent)
    (h : ResizedFrom pf d d') :
    d'.swapChain.isSome = true ∧ (d'.backBufferView = none ∨ d'.ViewCurrent) := by
  induction h with
  | start => exact ⟨hsc, hv⟩
  | resize w h hr _ hres ih =>
    obtain ⟨sc, hsc₁⟩ := Option.isSome_iff_exists.mp ih.1
    obtain ⟨hr', d'', hres', -, hview, hsome, -, -⟩ := Resize_spec pf w h _ sc hsc₁
    rw [hres'] at hres
    simp only [Outcome.returned.injEq] at hres
    rw [← hres.2]
    exact ⟨hsome, hview⟩

/-- Every state reached by successful `Resize` calls from a state that holds a current view
holds a current view. -/
theorem ResizedOkFrom_invariant (pf : Platform) (d d' : DeviceContext) (hv : d.ViewCurrent)
    (h : ResizedOkFrom pf d d') : d'.ViewCurrent := by
  induction h with
  | start => exact hv
  | resize w h hr _ hres hok ih =>
    obtain ⟨sc, hsc₁, -⟩ := ih
    obtain ⟨hr', d'', hres', hsucc, -, -, -, -⟩ := Resize_spec pf w h _ sc hsc₁
    rw [hres'] at hres
    simp only [Outcome.returned.injEq] at hres
    obtain ⟨e₁, e₂⟩ := hres
    subst e₁ e₂
    obtain ⟨-, hsw, hbv, -, -⟩ := hsucc hok
    exact ⟨_, hsw, hbv⟩

/-- C16, as stated, fails: after a successful `Initialize`, a `Resize` whose `ResizeBuffers`
call fails returns the failure and leaves the context without a back-buffer view. -/
theorem Resize_failure_leaves_no_view :
    (RenderContext.Initialize quietHost (failingPlatform Api.ResizeBuffers 0 E_FAIL) 1
      (DeviceContext.fresh World.start)).status = some S_OK ∧
    (RenderContext.Resize (failingPlatform Api.ResizeBuffers 0 E_FAIL) 800 600
      (RenderContext.Initialize quietHost (failingPlatform Api.ResizeBuffers 0 E_FAIL) 1
        (DeviceContext.fresh World.start)).state).status = some E_FAIL ∧
    (RenderContext.Resize (failingPlatform Api.ResizeBuffers 0 E_FAIL) 800 600
      (RenderContext.Initialize quietHost (failingPlatform Api.ResizeBuffers 0 E_FAIL) 1
        (DeviceContext.fresh World.start)).state).state.backBufferView = none := by
  decide

/-- C16, amended: in every state reached from a successful `Initialize` by any sequence of
successful `Resize` calls, the context holds a back-buffer view that was created for the
current size of the swap-chain buffers; when calls of the sequence may fail, the view is
either absent or such a view; and within every `Resize` the release of a held view is
recorded before the `ResizeBuffers` call. -/
theorem Resize_keeps_view_current (host : Host) (pf : Platform) (fuel : Nat)
    (d₀ d : DeviceContext) (hr : HRESULT) (hfresh : d₀.rc.initialized = false)
    (hinit : RenderContext.Initialize host pf fuel d₀ = Outcome.returned hr d)
    (hok : FAILED hr = false) :
    (∀ d', ResizedOkFrom pf d d' → d'.ViewCurrent) ∧
    (∀ d', ResizedFrom pf d d' → d'.backBufferView = none ∨ d'.ViewCurrent) ∧
    (∀ d' w h, ResizedFrom pf d d' →
      ∃ rest, (RenderContext.Resize pf w h d').state.world.calls = d'.world.calls ++
        (d'.backBufferView.toList.map (fun _ => (Api.ReleaseBackBufferView, [])) ++
          (Api.ResizeBuffers, [0, max w 1, max h 1]) :: rest)) := by
  obtain ⟨-, -, hview⟩ := Initialize_post host pf fuel d₀ d hr hfresh hinit hok
  have hsome : d.swapChain.isSome = true := by
    obtain ⟨size, hs, -⟩ := hview
    rw [hs]; rfl
  refine ⟨fun d' h => ResizedOkFrom_invariant pf d d' hview h,
    fun d' h => (ResizedFrom_invariant pf d d' hsome (Or.inr hview) h).2, fun d' w h hreach => ?_⟩
  obtain ⟨hs', -⟩ := ResizedFrom_invariant pf d d' hsome (Or.inr hview) hreach
  obtain ⟨sc, hsc⟩ := Option.isSome_iff_exists.mp hs'
  obtain ⟨hr', d'', hres, -, -, -, -, rest, hcalls⟩ := Resize_spec pf w h d' sc hsc
  exact ⟨rest, by rw [hres]; exact hcalls⟩

/-- C16, amended, after `Initialize` on the platform where every call succeeds: the state
reached by the successful `Resize(800, 600)` holds a current view, and that `Resize` records
the release of the old view, then `ResizeBuffers(0, 800, 600)`. -/
theorem Resize_keeps_view_current_witness :
    (RenderContext.Resize okPlatform 800 600
      (RenderContext.Initialize quietHost okPlatform 1
        (DeviceContext.fresh World.start)).state).state.ViewCurrent ∧
    ∃ rest, (RenderContext.Resize okPlatform 800 600
      (RenderContext.Initialize quietHost okPlatform 1
        (DeviceContext.fresh World.start)).state).state.world.calls =
      (RenderContext.Initialize quietHost okPlatform 1
        (DeviceContext.fresh World.start)).state.world.calls ++
        ([(Api.ReleaseBackBufferView, [])] ++ (Api.ResizeBuffers, [0, 800, 600]) :: rest) := by
  have hinit : RenderContext.Initialize quietHost okPlatform 1
      (DeviceContext.fresh World.start) = Outcome.returned S_OK
        (RenderContext.Initialize quietHost okPlatform 1
          (DeviceContext.fresh World.start)).state :=
    Outcome.eq_returned (by decide)
  have hres : RenderContext.Resize okPlatform 800 600
      (RenderContext.Initialize quietHost okPlatform 1
        (DeviceContext.fresh World.start)).state = Outcome.returned S_OK
        (RenderContext.Resize okPlatform 800 600
          (RenderContext.Initialize quietHost okPlatform 1
            (DeviceContext.fresh World.start)).state).state :=
    Outcome.eq_returned (by decide)
  obtain ⟨h₁, -, h₃⟩ := Resize_keeps_view_current quietHost okPlatform 1
    (DeviceContext.fresh World.start) _ S_OK rfl hinit FAILED_S_OK
  refine ⟨h₁ _ (ResizedOkFrom.resize 800 600 S_OK ResizedOkFrom.start hres FAILED_S_OK), ?_⟩
  obtain ⟨rest, hrest⟩ := h₃ _ 800 600 ResizedFrom.start
  have hv : (RenderContext.Initialize quietHost okPlatform 1
      (DeviceContext.fresh World.start)).state.backBufferView =
      some { Width := 1920, Height := 1080 } := by decide
  rw [hv] at hrest
  exact ⟨rest, hrest⟩

/-- C17, as stated, fails in two ways.  In a context whose `unsigned` frame counter is
`2^32 - 1` the present of the frame succeeds, `S_OK` is returned, and the counter is `0`
afterwards: it did not increase by 1.  And when the noise texture is regenerated and its
`Map` fails, the frame is left by the `_com_error` that `HRT` throws: no present call is
made. -/
theorem RenderSingleFrame_wraps_or_throws :
    (FAILED (quietHost.Present
        ({ freshContext with frameCount := 4294967295 } : RenderContext).presents) = false ∧
      RenderSingleFrame.mapped quietHost S_OK 0 { freshContext with frameCount := 4294967295 } =
        Exit.returned
          (RenderSingleFrame quietHost 0 { freshContext with frameCount := 4294967295 }) ∧
      (RenderSingleFrame quietHost 0 { freshContext with frameCount := 4294967295 }).1 = S_OK ∧
      (RenderSingleFrame quietHost 0
        { freshContext with frameCount := 4294967295 }).2.frameCount = 0) ∧
    (DigitalGlitch.regenerates 1 (threeQuarterHost.RandomFloat freshContext.draws) = true ∧
      FAILED E_FAIL = true ∧
      ∃ ctx', RenderSingleFrame.mapped threeQuarterHost E_FAIL 1 freshContext =
          Exit.thrown E_FAIL ctx' ∧
        presentCalls (newCalls freshContext ctx') = [] ∧
        ctx'.presents = freshContext.presents) := by
  have hreg : DigitalGlitch.regenerates 1 (threeQuarterHost.RandomFloat freshContext.draws) =
      true := by
    rw [regenerates_iff, Lerp_threshold_one]
    norm_num [threeQuarterHost]
  refine ⟨⟨rfl, RenderSingleFrame_mapped_returned _ _ _ _ (Or.inr rfl), ?_, ?_⟩,
    hreg, rfl, _, RenderSingleFrame_mapped_thrown _ _ _ _ hreg rfl, ?_, rfl⟩
  · rw [(RenderSingleFrame_spec quietHost 0 _).2.2.2]
    rfl
  · rw [RenderSingleFrame_frameCount]
    rfl
  · simp [newCalls, freshContext, presentCalls]

/-- C17, amended: for every intensity `x`, `RenderSingleFrame(x)`, unless it is left by the
exception of a failed `Map` of the noise texture, makes exactly one present call, and it is
`Present(1, 0)`: swap interval 1.  If the present succeeds, `S_OK` is returned and the frame
counter increases by 1 modulo `2^32` (by exactly 1 unless the `unsigned` counter wraps); if
the present fails, that status is returned and the frame counter is unchanged.  When the
noise texture is regenerated and its `Map` fails, the frame is left by the exception with no
present call made and the frame counter unchanged. -/
theorem RenderSingleFrame_presents_once (host : Host) (map : HRESULT) (x : ℚ)
    (ctx : RenderContext) :
    (DigitalGlitch.regenerates x (host.RandomFloat ctx.draws) = false ∨ FAILED map = false →
      RenderSingleFrame.mapped host map x ctx = Exit.returned (RenderSingleFrame host x ctx) ∧
      presentCalls (newCalls ctx (RenderSingleFrame host x ctx).2) = [(1, 0)] ∧
      (RenderSingleFrame host x ctx).2.presents = ctx.presents + 1 ∧
      (FAILED (host.Present ctx.presents) = false →
        (RenderSingleFrame host x ctx).1 = S_OK ∧
        (RenderSingleFrame host x ctx).2.frameCount = (ctx.frameCount + 1) % 2 ^ 32 ∧
        (ctx.frameCount + 1 < 2 ^ 32 →
          (RenderSingleFrame host x ctx).2.frameCount = ctx.frameCount + 1)) ∧
      (FAILED (host.Present ctx.presents) = true →
        (RenderSingleFrame host x ctx).1 = host.Present ctx.presents ∧
        (RenderSingleFrame host x ctx).2.frameCount = ctx.frameCount)) ∧
    (DigitalGlitch.regenerates x (host.RandomFloat ctx.draws) = true → FAILED map = true →
      ∃ ctx', RenderSingleFrame.mapped host map x ctx = Exit.thrown map ctx' ∧
        presentCalls (newCalls ctx ctx') = [] ∧ ctx'.presents = ctx.presents ∧
        ctx'.frameCount = ctx.frameCount) := by
  constructor
  · intro h
    obtain ⟨trash, hlog⟩ := RenderSingleFrame_log host x ctx
    obtain ⟨hp, -, -, hstat⟩ := RenderSingleFrame_spec host x ctx
    have hfc := RenderSingleFrame_frameCount host x ctx
    refine ⟨RenderSingleFrame_mapped_returned host map x ctx h, ?_, hp, fun hok => ?_,
      fun hbad => ?_⟩
    · rw [newCalls_of_log hlog, presentCalls_append, presentCalls_append]
      split_ifs <;> rfl
    · rw [hok] at hstat hfc
      simp only [Bool.false_eq_true, if_false] at hstat hfc
      exact ⟨hstat, hfc, fun hlt => by rw [hfc, Nat.mod_eq_of_lt hlt]⟩
    · rw [hbad] at hstat hfc
      simp only [if_true] at hstat hfc
      exact ⟨hstat, hfc⟩
  · intro hreg hmap
    refine ⟨_, RenderSingleFrame_mapped_thrown host map x ctx hreg hmap, ?_, rfl, rfl⟩
    simp [newCalls, presentCalls]

/-- C17, amended, at the quiet host, where the present succeeds, at the host whose fourth
present fails, in a context that has made three presents, and at the host whose draws are
`0.75` with a failing `Map` at intensity `1`. -/
theorem RenderSingleFrame_presents_once_witness :
    ((RenderSingleFrame quietHost (3 / 4) freshContext).1 = S_OK ∧
      (RenderSingleFrame quietHost (3 / 4) freshContext).2.frameCount = 1) ∧
    ((RenderSingleFrame presentFailingHost (3 / 4) { freshContext with presents := 3 }).1 =
        E_FAIL ∧
      (RenderSingleFrame presentFailingHost (3 / 4)
        { freshContext with presents := 3 }).2.frameCount = 0) ∧
    (∃ ctx', RenderSingleFrame.mapped threeQuarterHost E_FAIL 1 freshContext =
        Exit.thrown E_FAIL ctx' ∧
      presentCalls (newCalls freshContext ctx') = [] ∧ ctx'.presents = freshContext.presents ∧
      ctx'.frameCount = freshContext.frameCount) :=
  ⟨⟨((RenderSingleFrame_presents_once quietHost S_OK (3 / 4) freshContext).1
        (Or.inr rfl)).2.2.2.1 rfl |>.1,
      ((RenderSingleFrame_presents_once quietHost S_OK (3 / 4) freshContext).1
        (Or.inr rfl)).2.2.2.1 rfl |>.2.2 (by decide)⟩,
    ((RenderSingleFrame_presents_once presentFailingHost S_OK (3 / 4)
      { freshContext with presents := 3 }).1 (Or.inr rfl)).2.2.2.2 (by decide),
    (RenderSingleFrame_presents_once threeQuarterHost E_FAIL 1 freshContext).2
      (by rw [regenerates_iff, Lerp_threshold_one]; norm_num [threeQuarterHost]) rfl⟩

/-- C18 fails on the code.  On the platform where the creation of the snapshot view fails,
establishing the capture session fails, yet `Initialize` goes on: it refreshes the capture,
creates the swap chain, returns `S_OK` and leaves the context initialized, with a capture
item that has no snapshot view.  On the platform where `DuplicateOutput` fails, `Initialize`
goes on to the capture refresh, which goes through the null session handle. -/
theorem Initialize_ignores_failed_capture_setup :
    FAILED ((failingPlatform Api.CreateShaderResourceView 0 E_FAIL).answer
      Api.CreateShaderResourceView 0) = true ∧
    (CaptureItem.Initialize (failingPlatform Api.CreateShaderResourceView 0 E_FAIL) true
      (CaptureItem.empty, World.start)).status = some E_FAIL ∧
    (RenderContext.Initialize quietHost (failingPlatform Api.CreateShaderResourceView 0 E_FAIL) 1
      (DeviceContext.fresh World.start)).status = some S_OK ∧
    (RenderContext.Initialize quietHost (failingPlatform Api.CreateShaderResourceView 0 E_FAIL) 1
      (DeviceContext.fresh World.start)).state.rc.initialized = true ∧
    (RenderContext.Initialize quietHost (failingPlatform Api.CreateShaderResourceView 0 E_FAIL) 1
      (DeviceContext.fresh World.start)).state.captureItems.map CaptureItem.snapshotView =
      [none] ∧
    (RenderContext.Initialize quietHost (failingPlatform Api.CreateShaderResourceView 0 E_FAIL) 1
      (DeviceContext.fresh World.start)).state.world.count Api.AcquireNextFrame = 1 ∧
    (RenderContext.Initialize quietHost (failingPlatform Api.CreateShaderResourceView 0 E_FAIL) 1
      (DeviceContext.fresh World.start)).state.world.count Api.CreateSwapChainForHwnd = 1 ∧
    (RenderContext.Initialize quietHost (failingPlatform Api.DuplicateOutput 0 E_ACCESSDENIED) 1
      (DeviceContext.fresh World.start)).isNullDereference = true ∧
    (RenderContext.SetupCapture (failingPlatform Api.DuplicateOutput 0 E_ACCESSDENIED)
      (DeviceContext.fresh World.start)).status = some S_OK := by
  decide

/-- C19: for every draw `r` with `0 ≤ r ≤ 1`, in particular for every `r` in `[0, 1)`, the
interval `RandomInt(1000, 30000)` with which `ScheduleGlitch` arms the timer, with the
product and the sum rounded to `float`, is an integer between 1000 and 30000. -/
theorem ScheduleGlitch_interval_bounds (host : Host) (ctx : RenderContext)
    (h0 : 0 ≤ host.RandomFloat ctx.draws) (h1 : host.RandomFloat ctx.draws ≤ 1) :
    1000 ≤ (RootWindow.ScheduleGlitch host ctx).1 ∧
      (RootWindow.ScheduleGlitch host ctx).1 ≤ 30000 := by
  rw [ScheduleGlitch_value]
  obtain ⟨hlo, hhi⟩ := ScheduleGlitch_sum_bounds _ h0 h1
  unfold static_cast_int
  rw [if_pos (by linarith)]
  constructor
  · exact Int.le_floor.mpr (by push_cast; exact hlo)
  · have := le_trans (Int.floor_le _) hhi
    exact_mod_cast this

/-- C19 at the draw `0.75`. -/
theorem ScheduleGlitch_interval_bounds_witness :
    1000 ≤ (RootWindow.ScheduleGlitch threeQuarterHost freshContext).1 ∧
      (RootWindow.ScheduleGlitch threeQuarterHost freshContext).1 ≤ 30000 :=
  ScheduleGlitch_interval_bounds threeQuarterHost freshContext
    (by norm_num [threeQuarterHost]) (by norm_num [threeQuarterHost])

/-- C20: whenever `RefreshCapture` returns, with whatever status, the layered-window
attributes of the overlay (in fact the whole overlay record) are what they were before the
call; if the overlay was visible and its attributes could be read and written, every acquire
attempt of the refresh was made while the alpha of the overlay was 0; if the overlay was not
visible, no call of the refresh wrote its attributes. -/
theorem RefreshCapture_restores_overlay (pf : Platform) (fuel : Nat) (d d' : DeviceContext)
    (hr : HRESULT) (h : RenderContext.RefreshCapture pf fuel d = Outcome.returned hr d') :
    d'.world.overlay = d.world.overlay ∧
    (d.world.overlay.visible = true → d.world.overlay.readable = true →
      d.world.overlay.writable = true →
      ∀ args, (Api.AcquireNextFrame, args) ∈ World.since d.world d'.world → args = [1000, 0]) ∧
    (d.world.overlay.visible = false →
      ∀ args, (Api.SetLayeredWindowAttributes, args) ∉ World.since d.world d'.world) := by
  obtain ⟨hov, l₁, l₂, l₃, hcalls, -, hc₂, hn₁, hn₃, hhid⟩ :=
    RefreshCapture_world pf fuel d d' hr h
  rw [since_of_calls hcalls]
  refine ⟨hov, ?_, ?_⟩
  · intro hv hrd hw args hmem
    rw [enter_shown d.world hv hrd hw] at hc₂
    rcases List.mem_append.mp hmem with hm | hm
    · rcases List.mem_append.mp hm with hm | hm
      · exact absurd rfl (hn₁ _ hm)
      · exact (hc₂ _ hm).1 rfl
    · exact absurd rfl (hn₃ _ hm)
  · intro hv args hmem
    obtain ⟨e₁, e₃⟩ := hhid hv
    rw [e₁, e₃, List.nil_append, List.append_nil] at hmem
    exact (hc₂ _ hmem).2 rfl

/-- C20 on the context with the overlay shown, on the platform where every call succeeds:
the refresh returns, the overlay is as before, and the acquire was made at alpha 0. -/
theorem RefreshCapture_restores_overlay_witness :
    (RenderContext.RefreshCapture okPlatform 1 shownDevice).state.world.overlay =
      shownDevice.world.overlay ∧
    ∀ args, (Api.AcquireNextFrame, args) ∈ World.since shownDevice.world
      (RenderContext.RefreshCapture okPlatform 1 shownDevice).state.world → args = [1000, 0] :=
  ⟨(RefreshCapture_restores_overlay okPlatform 1 shownDevice _ S_OK
      (Outcome.eq_returned (by decide))).1,
    (RefreshCapture_restores_overlay okPlatform 1 shownDevice _ S_OK
      (Outcome.eq_returned (by decide))).2.1 rfl rfl rfl⟩

/-! # Lemmas about ComPtr -/

theorem SafeAddRef_apply (self : ComPtr) (refs : RefCounts) (o : Nat) :
    self.SafeAddRef refs o = refs o + self.holds o := by
  unfold ComPtr.SafeAddRef ComPtr.holds
  cases h : self.ptr with
  | none => simp
  | some p =>
    simp only [AddRef, Option.some.injEq]
    by_cases e : o = p
    · simp [e]
    · simp [e, Ne.symm e]

theorem SafeRelease_apply (self : ComPtr) (refs : RefCounts) (o : Nat) :
    self.SafeRelease refs o = refs o - self.holds o := by
  unfold ComPtr.SafeRelease ComPtr.holds
  cases h : self.ptr with
  | none => simp
  | some p =>
    simp only [Release, Option.some.injEq]
    by_cases e : o = p
    · simp [e]
    · simp [e, Ne.symm e]

/-- A slot counts for the object `o` exactly when it is a live handle that holds `o`. -/
theorem slot_counts (p : ComPtr) (o : Nat) :
    (if some p = some ({ ptr := some o } : ComPtr) then (1 : Int) else 0) = p.holds o := by
  unfold ComPtr.holds
  cases p with
  | mk ptr => simp

theorem holders_append (l : List (Option ComPtr)) (a : Option ComPtr) (b : Option ComPtr) :
    ((l ++ [a]).count b : Int) = l.count b + (if a = b then 1 else 0) := by
  rw [List.count_append, List.count_singleton]
  push_cast
  by_cases h : a = b
  · simp [h]
  · simp [h, beq_iff_eq]

theorem holders_set (l : List (Option ComPtr)) (i : Nat) (a old b : Option ComPtr)
    (h : l.get? i = some old) :
    ((l.set i a).count b : Int) =
      l.count b - (if old = b then 1 else 0) + (if a = b then 1 else 0) := by
  obtain ⟨hi, hget⟩ := List.get?_eq_some.mp h
  rw [List.count_set a b l i hi]
  have hold : l[i] = old := by simpa using hget
  rw [hold]
  by_cases e : old = b
  · have hpos : 1 ≤ l.count b := by
      rw [List.one_le_count_iff]
      rw [← e, ← hold]
      exact List.getElem_mem _
    by_cases e' : a = b <;> simp [e, e'] <;> omega
  · by_cases e' : a = b <;> simp [e, e', beq_iff_eq]

theorem get_eq_some {h : Handles} {i : Nat} {p : ComPtr} (e : h.get i = some p) :
    h.slots.get? i = some (some p) := by
  unfold Handles.get at e
  cases hs : h.slots.get? i with
  | none => rw [hs] at e; exact Option.noConfusion e
  | some v =>
    rw [hs] at e
    cases v with
    | none => exact Option.noConfusion e
    | some q =>
      simp only [Option.join] at e
      simpa using e


/-- One operation that does not move a handle into itself changes the count of every object
by the change of the number of handles that hold it. -/
theorem step_balance (h h' : Handles) (op : ComPtrOp) (hd : op.distinct = true)
    (hs : h.step op = some h') (o : Nat) :
    h'.refs o - h'.holders o = h.refs o - h.holders o := by
  cases op with
  | copy s =>
    simp only [Handles.step, Option.map_eq_some'] at hs
    obtain ⟨src, -, rfl⟩ := hs
    simp only [Handles.holders, ComPtr.copy, holders_append, SafeAddRef_apply, slot_counts]
    ring
  | move s =>
    simp only [Handles.step, Option.map_eq_some'] at hs
    obtain ⟨src, hsrc, rfl⟩ := hs
    simp only [Handles.holders, ComPtr.move, holders_append,
      holders_set _ _ _ _ _ (get_eq_some hsrc), slot_counts]
    simp only [ComPtr.holds]
    simp
  | assign t s =>
    simp only [Handles.step, Option.bind_eq_some, Option.map_eq_some'] at hs
    obtain ⟨self, hself, src, -, rfl⟩ := hs
    simp only [Handles.holders, holders_set _ _ _ _ _ (get_eq_some hself), slot_counts]
    unfold ComPtr.assign
    split_ifs with e
    · simp only [SafeAddRef_apply, SafeRelease_apply]
      simp only [ComPtr.holds]
      ring
    · ring
  | assignConverting t s =>
    simp only [Handles.step, Option.bind_eq_some, Option.map_eq_some'] at hs
    obtain ⟨self, hself, src, -, rfl⟩ := hs
    simp only [Handles.holders, holders_set _ _ _ _ _ (get_eq_some hself), slot_counts,
      ComPtr.assignConverting, SafeAddRef_apply, SafeRelease_apply]
    simp only [ComPtr.holds]
    ring
  | moveAssign t s =>
    have hts : t ≠ s := by simpa [ComPtrOp.distinct] using hd
    simp only [Handles.step, Option.bind_eq_some, Option.map_eq_some', hts, if_false] at hs
    obtain ⟨self, hself, src, hsrc, rfl⟩ := hs
    have hself' : (h.slots.set s (some ({ ptr := none } : ComPtr))).get? t =
        some (some self) := by
      rw [List.get?_eq_getElem?, List.getElem?_set_ne (Ne.symm hts), ← List.get?_eq_getElem?]
      exact get_eq_some hself
    simp only [Handles.holders, ComPtr.moveAssign, SafeRelease_apply]
    rw [holders_set _ _ _ _ _ hself', holders_set _ _ _ _ _ (get_eq_some hsrc)]
    simp only [slot_counts, ComPtr.holds]
    simp only [reduceCtorEq, if_false]
    ring
  | Reset t =>
    simp only [Handles.step, Option.map_eq_some'] at hs
    obtain ⟨self, hself, rfl⟩ := hs
    simp only [Handles.holders, holders_set _ _ _ _ _ (get_eq_some hself), slot_counts,
      ComPtr.Reset, SafeRelease_apply]
    simp only [ComPtr.holds]
    simp
  | destroy t =>
    simp only [Handles.step, Option.map_eq_some'] at hs
    obtain ⟨self, hself, rfl⟩ := hs
    simp only [Handles.holders, holders_set _ _ _ _ _ (get_eq_some hself), slot_counts,
      ComPtr.destroy, SafeRelease_apply]
    simp

/-- Over a sequence of operations none of which moves a handle into itself, the count of
every object stays its count at the start plus the change of the number of handles that
hold it. -/
theorem run_balance (ops : List ComPtrOp) : ∀ (h h' : Handles),
    (∀ op ∈ ops, op.distinct = true) → h.run ops = some h' → ∀ o : Nat,
    h'.refs o - h'.holders o = h.refs o - h.holders o := by
  induction ops with
  | nil =>
    intro h h' _ hr o
    simp only [Handles.run, Option.some.injEq] at hr
    rw [hr]
  | cons op ops ih =>
    intro h h' hd hr o
    simp only [Handles.run, Option.bind_eq_some] at hr
    obtain ⟨h₁, hstep, hrest⟩ := hr
    rw [ih h₁ h' (fun op' hm => hd op' (List.mem_cons_of_mem _ hm)) hrest o]
    exact step_balance h h₁ op (hd op (List.mem_cons_self _ _)) hstep o


/-! # Lemmas about the random colour -/

theorem RandomByte_lt (host : Host) (ctx : RenderContext) : (RandomByte host ctx).1 < 256 :=
  Nat.mod_lt _ (by decide)

theorem RandomByte_draws (host : Host) (ctx : RenderContext) :
    (RandomByte host ctx).2 = { ctx with draws := ctx.draws + 1 } := rfl

theorem to_float_two_hundred_fifty_five : to_float 255 = 255 := by
  simpa using to_float_natCast 255 (by norm_num)

theorem RandomByte_value (host : Host) (ctx : RenderContext) :
    (RandomByte host ctx).1 =
      (static_cast_int (to_float (host.RandomFloat ctx.draws * 255))).toNat % 256 := by
  unfold RandomByte
  simp only [RandomFloat, to_float_two_hundred_fifty_five]

/-- The value `RandomColorBGRA` builds from its four bytes. -/
theorem RandomColorBGRA_value (host : Host) (ctx : RenderContext) :
    (RandomColorBGRA host ctx).1 =
      ((RandomByte host ctx).1 |||
        ((RandomByte host { ctx with draws := ctx.draws + 1 }).1 <<< 8) |||
        ((RandomByte host { ctx with draws := ctx.draws + 2 }).1 <<< 8) |||
        ((RandomByte host { ctx with draws := ctx.draws + 3 }).1 <<< 8)) % 2 ^ 32 := rfl

theorem shift_eight_lt (n : Nat) (h : n < 256) : n <<< 8 < 2 ^ 16 := by
  rw [Nat.shiftLeft_eq]
  omega

theorem RandomColorBGRA_lt (host : Host) (ctx : RenderContext) :
    (RandomColorBGRA host ctx).1 < 2 ^ 16 := by
  rw [RandomColorBGRA_value]
  have hb := RandomByte_lt host ctx
  have hg := shift_eight_lt _ (RandomByte_lt host { ctx with draws := ctx.draws + 1 })
  have hr := shift_eight_lt _ (RandomByte_lt host { ctx with draws := ctx.draws + 2 })
  have ha := shift_eight_lt _ (RandomByte_lt host { ctx with draws := ctx.draws + 3 })
  have h : (RandomByte host ctx).1 |||
      ((RandomByte host { ctx with draws := ctx.draws + 1 }).1 <<< 8) |||
      ((RandomByte host { ctx with draws := ctx.draws + 2 }).1 <<< 8) |||
      ((RandomByte host { ctx with draws := ctx.draws + 3 }).1 <<< 8) < 2 ^ 16 :=
    Nat.or_lt_two_pow (Nat.or_lt_two_pow (Nat.or_lt_two_pow (by omega) hg) hr) ha
  omega


/-! # Lemmas about the intensities and the refreshes of a run -/

/-- For `0 ≤ i < F` the ramp intensity lies between `0` and `0.75`. -/
theorem TriangleSeries_bounds (i F : Int) (h0 : 0 ≤ i) (hi : i < F) :
    0 ≤ TriangleSeries i F 0 (3 / 4) ∧ TriangleSeries i F 0 (3 / 4) ≤ 3 / 4 := by
  obtain ⟨hp0, hp2⟩ := phase_bounds i F h0 hi.le (lt_of_le_of_lt h0 hi)
  rw [TriangleSeries_ramp]
  exact shape_bounds hp0 hp2

/-- The intensity stored in the effect after `RenderSingleFrame(x)` is `x`. -/
theorem RenderSingleFrame_intensity (host : Host) (x : ℚ) (ctx : RenderContext) :
    (RenderSingleFrame host x ctx).2.intensity = x := by
  have h₁ := (Update_quiet host
    { ctx.emit (Call.RenderSingleFrame x) with intensity := x }).2.2.2.2.1
  have h₂ := (OnRenderImage_quiet host (DigitalGlitch.Update host
    { ctx.emit (Call.RenderSingleFrame x) with intensity := x })).2.2.2.2.1
  unfold RenderSingleFrame
  simp only
  split_ifs
  · exact h₂.trans h₁
  · exact h₂.trans h₁

/-- Every element of the ramp is the ramp intensity of an index below `F`. -/
theorem mem_rampIntensities {F : Nat} {x : ℚ} (h : x ∈ rampIntensities F) :
    ∃ i : Nat, i < F ∧ x = TriangleSeries i F 0 (3 / 4) := by
  unfold rampIntensities at h
  obtain ⟨i, hi, rfl⟩ := List.mem_map.mp h
  exact ⟨i, List.mem_range.mp hi, rfl⟩

/-- Every intensity of the ramp followed by the settle frame lies between `0` and `0.75`. -/
theorem ramp_settle_bounds {F : Nat} {x : ℚ} (h : x ∈ rampIntensities F ++ [0]) :
    0 ≤ x ∧ x ≤ 3 / 4 := by
  rcases List.mem_append.mp h with h | h
  · obtain ⟨i, hi, rfl⟩ := mem_rampIntensities h
    exact TriangleSeries_bounds i F (by exact_mod_cast Nat.zero_le i) (by exact_mod_cast hi)
  · rw [List.mem_singleton.mp h]
    norm_num

/-- The frames rendered by any run of `RenderFrame`, whether or not a present fails, are
frames of the ramp followed by the settle frame. -/
theorem RenderFrame_renders_ramp (host : Host) (ctx : RenderContext) (F : Nat)
    (hinit : ctx.initialized = true)
    (hF : RenderFrame.frames (host.RandomFloat ctx.draws) = F) (x : ℚ)
    (hx : x ∈ renderCalls (newCalls ctx (RenderFrame host ctx).2)) :
    x ∈ rampIntensities F ++ [0] := by
  by_cases hall : ∀ k, k ≤ F → FAILED (host.Present (ctx.presents + k)) = false
  · rw [(RenderFrame_ok host ctx F hinit hF hall).2.1] at hx
    exact hx
  · have hex : ∃ k, k ≤ F ∧ FAILED (host.Present (ctx.presents + k)) = true := by
      by_contra hne
      apply hall
      intro k hk
      by_contra hk'
      exact hne ⟨k, hk, by simpa using hk'⟩
    classical
    have hk := Nat.find_spec hex
    have hmin : ∀ j, j < Nat.find hex → FAILED (host.Present (ctx.presents + j)) = false := by
      intro j hj
      have := Nat.find_min hex hj
      by_contra hj'
      exact this ⟨le_trans (le_of_lt hj) hk.1, by simpa using hj'⟩
    rw [(RenderFrame_fail host ctx F (Nat.find hex) hinit hF hk.1 hmin hk.2).2] at hx
    exact List.mem_of_mem_take hx

theorem frameEvents_append (a b : List Call) :
    frameEvents (a ++ b) = frameEvents a ++ frameEvents b := by
  induction a with
  | nil => rfl
  | cons c a ih => cases c <;> simp [frameEvents, ih]

/-- In a piece of log without refresh the refresh and frame calls are the frames. -/
theorem frameEvents_of_no_refresh (l : List Call) (h : refreshCalls l = 0) :
    frameEvents l = (renderCalls l).map Call.RenderSingleFrame := by
  induction l with
  | nil => rfl
  | cons c l ih =>
    cases c with
    | RefreshCapture => simp [refreshCalls] at h
    | RenderSingleFrame x =>
      simp only [refreshCalls] at h
      simp [frameEvents, renderCalls, ih h]
    | UpdateNoiseTexture =>
      simp only [refreshCalls] at h
      simp [frameEvents, renderCalls, ih h]
    | OnRenderImage t =>
      simp only [refreshCalls] at h
      simp [frameEvents, renderCalls, ih h]
    | Present i f =>
      simp only [refreshCalls] at h
      simp [frameEvents, renderCalls, ih h]

/-- The log after the optional refresh at the head of a loop iteration. -/
theorem refresh_step_log (host : Host) (i : Nat) (ctx : RenderContext) :
    (if i % 10 = 9 then (RefreshCapture host ctx).2 else ctx).log =
      ctx.log ++ (if i % 10 = 9 then [Call.RefreshCapture] else []) := by
  split_ifs
  · rfl
  · simp

/-- When none of the next `n` presents fails, the refresh and frame calls of the loop are,
iteration by iteration, the refresh if `j % 10 = 9` and then frame `j`. -/
theorem loop_events (host : Host) (frames : Int) (n : Nat) : ∀ (i : Nat) (ctx : RenderContext),
    (∀ k, k < n → FAILED (host.Present (ctx.presents + k)) = false) →
    ∃ l, (RenderFrame.loop host frames n i ctx).2.log = ctx.log ++ l ∧
      frameEvents l = (List.range' i n).flatMap (rampEvents frames) := by
  induction n with
  | zero => intro i ctx _; exact ⟨[], by simp [RenderFrame.loop], rfl⟩
  | succ n ih =>
    intro i ctx hok
    obtain ⟨hp0, -⟩ := refresh_step host i ctx
    have hl0 := refresh_step_log host i ctx
    obtain ⟨hp1, -, ⟨l1, hl1, hr1, hf1⟩, hs1⟩ := RenderSingleFrame_spec host
      (TriangleSeries i frames 0 (3 / 4)) (if i % 10 = 9 then (RefreshCapture host ctx).2 else ctx)
    have h0 : FAILED (host.Present ctx.presents) = false := by simpa using hok 0 (by omega)
    rw [hp0] at hs1 hp1
    rw [h0] at hs1
    simp only [Bool.false_eq_true, if_false] at hs1
    rw [loop_succ, hs1, FAILED_S_OK]
    simp only [Bool.false_eq_true, if_false]
    obtain ⟨l2, hl2, he2⟩ := ih (i + 1) _ (fun k hk => by
      rw [hp1]
      have := hok (k + 1) (by omega)
      rwa [show ctx.presents + 1 + k = ctx.presents + (k + 1) by omega])
    refine ⟨(if i % 10 = 9 then [Call.RefreshCapture] else []) ++ l1 ++ l2, ?_, ?_⟩
    · rw [hl2, hl1, hl0]; simp [List.append_assoc]
    · rw [frameEvents_append, frameEvents_append, he2, frameEvents_of_no_refresh l1 hf1, hr1,
        List.range'_succ, List.flatMap_cons, rampEvents]
      split_ifs <;> simp [frameEvents]

/-- The refresh and frame calls of a run in which no present fails. -/
theorem RenderFrame_events (host : Host) (ctx : RenderContext) (F : Nat)
    (hinit : ctx.initialized = true)
    (hF : RenderFrame.frames (host.RandomFloat ctx.draws) = F)
    (hok : ∀ k, k ≤ F → FAILED (host.Present (ctx.presents + k)) = false) :
    frameEvents (newCalls ctx (RenderFrame host ctx).2) =
      (List.range F).flatMap (rampEvents F) ++ [Call.RenderSingleFrame 0] := by
  rw [RenderFrame_of_initialized host ctx hinit, hF]
  obtain ⟨hnone, hp, -⟩ := loop_ok host F F 0 (RandomFloat host ctx).2
    (fun k hk => hok k (by omega))
  obtain ⟨l, hl, he⟩ := loop_events host F F 0 (RandomFloat host ctx).2
    (fun k hk => hok k (by omega))
  have hnone' : (RenderFrame.loop host F (F : Int).toNat 0 (RandomFloat host ctx).2).1 = none := by
    rw [Int.toNat_natCast]; exact hnone
  rw [animate_of_none host F _ hnone']
  simp only [Int.toNat_natCast]
  obtain ⟨-, -, ⟨l1, hl1, hr1, hf1⟩, -⟩ :=
    RenderSingleFrame_spec host 0 (RenderFrame.loop host F F 0 (RandomFloat host ctx).2).2
  have hlog : ∀ c : HRESULT × RenderContext, c.2.log = ctx.log ++ (l ++ l1) →
      frameEvents (newCalls ctx c.2) =
        (List.range F).flatMap (rampEvents F) ++ [Call.RenderSingleFrame 0] := by
    intro c hc
    rw [newCalls_of_log hc, frameEvents_append, he, frameEvents_of_no_refresh l1 hf1, hr1,
      List.range_eq_range']
    rfl
  have hboth : (RenderSingleFrame host 0
      (RenderFrame.loop host F F 0 (RandomFloat host ctx).2).2).2.log = ctx.log ++ (l ++ l1) := by
    rw [hl1, hl]
    show ctx.log ++ l ++ l1 = _
    rw [List.append_assoc]
  split_ifs
  · exact hlog _ hboth
  · exact hlog _ hboth

/-- Below `F` there are `F / 10` indices with `j % 10 = 9`. -/
theorem refresh_indices (F : Nat) :
    ((List.range' 0 F).filter (fun j => j % 10 = 9)).length = F / 10 := by
  induction F with
  | zero => rfl
  | succ F ih =>
    rw [← List.range_eq_range'] at ih ⊢
    rw [List.range_succ, List.filter_append, List.length_append, ih]
    by_cases h : F % 10 = 9
    · simp [h]; omega
    · simp [h]; omega


/-! # Lemmas about the noise texture -/

/-- One unfolding of the inner loop of `UpdateNoiseTexture`. -/
theorem row_succ (host : Host) (n color : Nat) (ctx : RenderContext) :
    DigitalGlitch.UpdateNoiseTexture.row host (n + 1) color ctx =
      if host.RandomFloat ctx.draws > 89 / 100 then
        ((RandomColorBGRA host { ctx with draws := ctx.draws + 1 }).1 ::
          (DigitalGlitch.UpdateNoiseTexture.row host n
            (RandomColorBGRA host { ctx with draws := ctx.draws + 1 }).1
            (RandomColorBGRA host { ctx with draws := ctx.draws + 1 }).2).1,
         (DigitalGlitch.UpdateNoiseTexture.row host n
            (RandomColorBGRA host { ctx with draws := ctx.draws + 1 }).1
            (RandomColorBGRA host { ctx with draws := ctx.draws + 1 }).2).2)
      else
        (color :: (DigitalGlitch.UpdateNoiseTexture.row host n color
            { ctx with draws := ctx.draws + 1 }).1,
         (DigitalGlitch.UpdateNoiseTexture.row host n color
            { ctx with draws := ctx.draws + 1 }).2) := by
  rw [DigitalGlitch.UpdateNoiseTexture.row]
  simp only [RandomFloat]
  split_ifs <;> rfl

/-- The inner loop writes the pixels of the raster. -/
theorem row_eq_spec (host : Host) (n : Nat) : ∀ (color : Nat) (ctx : RenderContext),
    (DigitalGlitch.UpdateNoiseTexture.row host n color ctx).1 =
      noiseRasterSpec host n color ctx := by
  induction n with
  | zero => intro color ctx; rfl
  | succ n ih =>
    intro color ctx
    rw [row_succ, noiseRasterSpec]
    by_cases h : host.RandomFloat ctx.draws ≤ 89 / 100
    · rw [if_neg (not_lt.mpr h), if_pos h, ih]
    · rw [if_pos (not_le.mp h), if_neg h, ih]

theorem row_length (host : Host) (n : Nat) : ∀ (color : Nat) (ctx : RenderContext),
    (DigitalGlitch.UpdateNoiseTexture.row host n color ctx).1.length = n := by
  induction n with
  | zero => intro color ctx; rfl
  | succ n ih =>
    intro color ctx
    rw [row_succ]
    split_ifs <;> simp [ih]

/-- A row of `a + b` pixels is a row of `a` pixels followed by a row of `b` pixels that
starts with the colour and the draws the first row ended with. -/
theorem row_add (host : Host) (a b : Nat) : ∀ (color : Nat) (ctx : RenderContext),
    (DigitalGlitch.UpdateNoiseTexture.row host (a + b) color ctx).1 =
      (DigitalGlitch.UpdateNoiseTexture.row host a color ctx).1 ++
        (DigitalGlitch.UpdateNoiseTexture.row host b
          (DigitalGlitch.UpdateNoiseTexture.row host a color ctx).2.1
          (DigitalGlitch.UpdateNoiseTexture.row host a color ctx).2.2).1 := by
  induction a with
  | zero => intro color ctx; rw [Nat.zero_add]; rfl
  | succ a ih =>
    intro color ctx
    rw [show a + 1 + b = (a + b) + 1 by omega, row_succ, row_succ host a]
    split_ifs <;> simp [ih]

/-- One unfolding of the outer loop of `UpdateNoiseTexture`. -/
theorem rows_succ (host : Host) (width height color : Nat) (ctx : RenderContext) :
    DigitalGlitch.UpdateNoiseTexture.rows host width (height + 1) color ctx =
      ((DigitalGlitch.UpdateNoiseTexture.row host width color ctx).1 ::
        (DigitalGlitch.UpdateNoiseTexture.rows host width height
          (DigitalGlitch.UpdateNoiseTexture.row host width color ctx).2.1
          (DigitalGlitch.UpdateNoiseTexture.row host width color ctx).2.2).1,
       (DigitalGlitch.UpdateNoiseTexture.rows host width height
          (DigitalGlitch.UpdateNoiseTexture.row host width color ctx).2.1
          (DigitalGlitch.UpdateNoiseTexture.row host width color ctx).2.2).2) := by
  rw [DigitalGlitch.UpdateNoiseTexture.rows]

/-- The rows written by the outer loop: `height` rows of `width` pixels, which read row by
row are one row of `width * height` pixels. -/
theorem rows_spec (host : Host) (width height : Nat) : ∀ (color : Nat) (ctx : RenderContext),
    (DigitalGlitch.UpdateNoiseTexture.rows host width height color ctx).1.length = height ∧
    (∀ r ∈ (DigitalGlitch.UpdateNoiseTexture.rows host width height color ctx).1,
      r.length = width) ∧
    (DigitalGlitch.UpdateNoiseTexture.rows host width height color ctx).1.flatten =
      (DigitalGlitch.UpdateNoiseTexture.row host (width * height) color ctx).1 := by
  induction height with
  | zero =>
    intro color ctx
    refine ⟨rfl, fun r hr => ?_, rfl⟩
    exact absurd hr (List.not_mem_nil r)
  | succ height ih =>
    intro color ctx
    obtain ⟨h₁, h₂, h₃⟩ := ih (DigitalGlitch.UpdateNoiseTexture.row host width color ctx).2.1
      (DigitalGlitch.UpdateNoiseTexture.row host width color ctx).2.2
    rw [rows_succ]
    refine ⟨by simp [h₁], ?_, ?_⟩
    · intro r hr
      rcases List.mem_cons.mp hr with e | hr
      · rw [e]; exact row_length host width color ctx
      · exact h₂ r hr
    · rw [List.flatten_cons, h₃, Nat.mul_succ, Nat.add_comm, row_add]

/-- The texture after `fill`. -/
theorem fill_noiseTexture (host : Host) (width height : Nat) (ctx : RenderContext) :
    (DigitalGlitch.UpdateNoiseTexture.fill host width height ctx).noiseTexture =
      (DigitalGlitch.UpdateNoiseTexture.rows host width height (RandomColorBGRA host ctx).1
        (RandomColorBGRA host ctx).2).1 := rfl


/-! # Lemmas about the fields kept by the steps of `Initialize` and `Resize` -/

/-- The macro `HR`: the rest of the function runs exactly when the expression returned a
success status. -/
theorem HR_eq {σ : Type} (o : Outcome σ) (rest : σ → Outcome σ) :
    HR o rest = if o.succeeded then rest o.state else o := by
  cases o with
  | returned hr s =>
    simp only [HR, Outcome.succeeded, Outcome.state]
    cases FAILED hr <;> rfl
  | nullDereference s => rfl
  | running s => rfl

theorem discard_eq {σ : Type} (o : Outcome σ) (rest : σ → Outcome σ) :
    discard o rest = if o.status.isSome then rest o.state else o := by
  cases o <;> rfl

/-- A property of `HR(expr); rest` follows from the property of `expr` when it stops and of
the rest when it goes on. -/
theorem HR_goal {σ : Type} (G : Outcome σ → Prop) (o : Outcome σ) (rest : σ → Outcome σ)
    (h₁ : o.succeeded = false → G o) (h₂ : o.succeeded = true → G (rest o.state)) :
    G (HR o rest) := by
  rw [HR_eq]
  cases h : o.succeeded
  · simp only [Bool.false_eq_true, if_false]
    exact h₁ h
  · simp only [if_true]
    exact h₂ h

/-- A projection of the state that `expr` and the rest keep is kept by `HR(expr); rest`. -/
theorem HR_keeps {σ α : Type} (proj : σ → α) (o : Outcome σ) (rest : σ → Outcome σ) (x : α)
    (h₁ : proj o.state = x) (h₂ : ∀ s, proj s = x → proj (rest s).state = x) :
    proj (HR o rest).state = x := by
  rw [HR_eq]
  split_ifs
  · exact h₂ _ h₁
  · exact h₁

theorem call_state (pf : Platform) (a : Api) (args : List Nat) (d : DeviceContext) :
    (DeviceContext.call pf a args d).state = { d with world := (call pf a args d.world).2 } :=
  rfl

theorem call_kept (pf : Platform) (a : Api) (args : List Nat) (d : DeviceContext) :
    (DeviceContext.call pf a args d).state.kept = d.kept := rfl

theorem CreateVertices_kept (pf : Platform) (d : DeviceContext) :
    (RenderContext.CreateVertices pf d).state.kept = d.kept := by
  rw [CreateVertices_cases]
  split_ifs <;> rfl

theorem InitPipeline_kept (pf : Platform) (d : DeviceContext) :
    (RenderContext.InitPipeline pf d).state.kept = d.kept := by
  unfold RenderContext.InitPipeline
  refine HR_keeps _ _ _ _ rfl (fun s hs => ?_)
  refine HR_keeps _ _ _ _ hs (fun s hs => ?_)
  refine HR_keeps _ _ _ _ hs (fun s hs => ?_)
  refine HR_keeps _ _ _ _ hs (fun s hs => ?_)
  exact hs

theorem CreateRasterizerState_kept (pf : Platform) (d : DeviceContext) :
    (RenderContext.CreateRasterizerState pf d).state.kept = d.kept := by
  unfold RenderContext.CreateRasterizerState
  refine HR_keeps _ _ _ _ rfl (fun s hs => ?_)
  refine HR_keeps _ _ _ _ hs (fun s hs => ?_)
  exact hs

theorem releaseBackBufferView_kept (d : DeviceContext) :
    d.releaseBackBufferView.kept = d.kept := by
  rw [releaseBackBufferView_eq]
  rfl

theorem CreateRenderTargetView_kept (pf : Platform) (d : DeviceContext) :
    (RenderContext.CreateRenderTargetView pf d).state.kept = d.kept := by
  unfold RenderContext.CreateRenderTargetView
  cases d.swapChain with
  | none => rfl
  | some size =>
    simp only
    refine HR_keeps _ _ _ _ rfl (fun s hs => ?_)
    refine HR_keeps _ _ _ _ ((call_kept _ _ _ _).trans
      ((releaseBackBufferView_kept s).trans hs)) (fun s hs => ?_)
    refine HR_keeps _ _ _ _ hs (fun s hs => ?_)
    refine HR_keeps _ _ _ _ hs (fun s hs => ?_)
    exact hs


/-- The loop over the capture items keeps their number, however it ends. -/
theorem RefreshCapture_items_length (pf : Platform) (fuel : Nat) (items : List CaptureItem) :
    ∀ (done : List CaptureItem) (hr : HRESULT) (w : World),
      (RenderContext.RefreshCapture.items pf fuel items done hr w).state.1.length =
        done.length + items.length := by
  induction items with
  | nil => intro done hr w; rfl
  | cons item rest ih =>
    intro done hr w
    rw [RenderContext.RefreshCapture.items]
    cases hres : CaptureItem.Refresh pf fuel (item, w) with
    | returned hrItem s =>
      simp only
      rw [ih]
      simp
      omega
    | nullDereference s => simp [Outcome.state]
    | running s => simp [Outcome.state]

theorem RefreshCapture_kept (pf : Platform) (fuel : Nat) (d : DeviceContext) :
    (RenderContext.RefreshCapture pf fuel d).state.kept = d.kept := by
  have hlen := RefreshCapture_items_length pf fuel d.captureItems [] S_OK
    (HideWindowScope.enter d.world).2
  unfold RenderContext.RefreshCapture
  cases hres : RenderContext.RefreshCapture.items pf fuel d.captureItems [] S_OK
      (HideWindowScope.enter d.world).2 with
  | returned hr s =>
    rw [hres] at hlen
    simp only [Outcome.state, List.length_nil, Nat.zero_add] at hlen
    simp only [Outcome.state, DeviceContext.kept, hlen]
  | nullDereference s =>
    rw [hres] at hlen
    simp only [Outcome.state, List.length_nil, Nat.zero_add] at hlen
    simp only [Outcome.state, DeviceContext.kept, hlen]
  | running s =>
    rw [hres] at hlen
    simp only [Outcome.state, List.length_nil, Nat.zero_add] at hlen
    simp only [Outcome.state, DeviceContext.kept, hlen]

/-- What `SetupCapture` does to the kept fields: it appends at most one capture item, and
exactly one when it returns a success status. -/
theorem SetupCapture_kept (pf : Platform) (d : DeviceContext) :
    ((RenderContext.SetupCapture pf d).state.kept = d.kept ∧
        (RenderContext.SetupCapture pf d).succeeded = false) ∨
      (RenderContext.SetupCapture pf d).state.kept =
        (d.rc.initialized, d.renderWidth, d.renderHeight, d.captureItems.length + 1,
          d.trashFrame1Tex, d.trashFrame2Tex) := by
  unfold RenderContext.SetupCapture
  rw [HR_eq]
  split_ifs with h₁
  · rw [HR_eq]
    split_ifs with h₂
    · right
      cases CaptureItem.Initialize pf true
        (CaptureItem.empty, (DeviceContext.call pf Api.EnumOutputs [0]
          (DeviceContext.call pf Api.EnumAdapters [0] d).state).state.world) <;>
        simp [Outcome.state, DeviceContext.kept, DeviceContext.call]
    · left
      exact ⟨rfl, by simpa using h₂⟩
  · left
    exact ⟨rfl, by simpa using h₁⟩


/-- A projection of the state after a success status of `HR(expr); rest` is the projection
after a success status of the rest. -/
theorem HR_success_keeps {σ α : Type} (proj : σ → α) (o : Outcome σ) (rest : σ → Outcome σ)
    (x : α)
    (h : o.succeeded = true → (rest o.state).succeeded = true → proj (rest o.state).state = x) :
    (HR o rest).succeeded = true → proj (HR o rest).state = x := by
  rw [HR_eq]
  cases hs : o.succeeded
  · simp only [Bool.false_eq_true, if_false]
    intro h'
    rw [hs] at h'
    exact absurd h' (by decide)
  · simp only [if_true]
    exact h hs

/-- The set-up of the effect, however it ends, keeps the flag `initialized`, the render size
and the number of capture items. -/
theorem SetupResources_core (host : Host) (pf : Platform) (rw rh : Nat) (d : DeviceContext) :
    (DigitalGlitch.SetupResources host pf rw rh d).state.core = d.core := by
  unfold DigitalGlitch.SetupResources
  refine HR_keeps _ _ _ _ rfl (fun s hs => ?_)
  refine HR_keeps _ _ _ _ hs (fun s hs => ?_)
  refine HR_keeps _ _ _ _ hs (fun s hs => ?_)
  refine HR_keeps _ _ _ _ hs (fun s hs => ?_)
  refine HR_keeps _ _ _ _ hs (fun s hs => ?_)
  refine HR_keeps _ _ _ _ hs (fun s hs => ?_)
  refine HR_keeps _ _ _ _ hs (fun s hs => ?_)
  refine HR_keeps _ _ _ _ hs (fun s hs => ?_)
  refine HR_keeps _ _ _ _ hs (fun s hs => ?_)
  refine HR_keeps _ _ _ _ hs (fun s hs => ?_)
  refine HR_keeps _ _ _ _ hs (fun s hs => ?_)
  refine HR_keeps _ _ _ _ hs (fun s hs => ?_)
  refine HR_keeps _ _ _ _ ?_ (fun s hs => hs)
  rw [← hs]
  simp only [call_state, DeviceContext.core, (UpdateNoiseTexture_quiet host s.rc).2.2.2.1]

/-- After a success status of the set-up of the effect both trash textures have the size
the set-up was given. -/
theorem SetupResources_trash (host : Host) (pf : Platform) (rw rh : Nat) (d : DeviceContext) :
    (DigitalGlitch.SetupResources host pf rw rh d).succeeded = true →
    (DigitalGlitch.SetupResources host pf rw rh d).state.trash =
      (some { Width := rw, Height := rh }, some { Width := rw, Height := rh }) := by
  unfold DigitalGlitch.SetupResources
  refine HR_success_keeps _ _ _ _ (fun _ => ?_)
  refine HR_success_keeps _ _ _ _ (fun _ => ?_)
  refine HR_success_keeps _ _ _ _ (fun _ => ?_)
  refine HR_success_keeps _ _ _ _ (fun _ => ?_)
  refine HR_success_keeps _ _ _ _ (fun _ => ?_)
  refine HR_success_keeps _ _ _ _ (fun _ => ?_)
  refine HR_success_keeps _ _ _ _ (fun _ => ?_)
  refine HR_success_keeps _ _ _ _ (fun _ => ?_)
  refine HR_success_keeps _ _ _ _ (fun _ => ?_)
  refine HR_success_keeps _ _ _ _ (fun _ => ?_)
  refine HR_success_keeps _ _ _ _ (fun _ => ?_)
  refine HR_success_keeps _ _ _ _ (fun _ => ?_)
  refine HR_success_keeps _ _ _ _ (fun _ => ?_)
  intro _
  rfl


theorem core_of_kept {a b : DeviceContext} (h : a.kept = b.kept) : a.core = b.core := by
  simp only [DeviceContext.kept, Prod.mk.injEq] at h
  simp only [DeviceContext.core, h.1, h.2.1, h.2.2.1, h.2.2.2.1]

theorem trash_of_kept {a b : DeviceContext} (h : a.kept = b.kept) : a.trash = b.trash := by
  simp only [DeviceContext.kept, Prod.mk.injEq] at h
  simp only [DeviceContext.trash, h.2.2.2.2.1, h.2.2.2.2.2]

/-- A step of `Initialize` that stops the function leaves the context not initialized. -/
theorem goal_of_stop (n : Nat) (pf : Platform) (o : Outcome DeviceContext) (m : Nat)
    (hk : o.state.core = (false, pf.clientWidth, pf.clientHeight, m))
    (hm : n ≤ m ∧ m ≤ n + 1) (hs : o.succeeded = false) : InitializeGoal n pf o := by
  simp only [DeviceContext.core, Prod.mk.injEq] at hk
  refine ⟨by rw [hk.2.2.2]; exact hm.1, by rw [hk.2.2.2]; exact hm.2, fun _ => hk.1,
    fun h => ?_⟩
  rw [hs] at h
  exact absurd h (by decide)

/-- A step of `Initialize` that keeps the flag, the render size and the number of capture
items, followed by the rest of the function. -/
theorem Initialize_stage (n : Nat) (pf : Platform) (o : Outcome DeviceContext)
    (rest : DeviceContext → Outcome DeviceContext) (m : Nat)
    (hk : o.state.core = (false, pf.clientWidth, pf.clientHeight, m))
    (hm : n ≤ m ∧ m ≤ n + 1)
    (hrest : ∀ s : DeviceContext, s.core = (false, pf.clientWidth, pf.clientHeight, m) →
      InitializeGoal n pf (rest s)) :
    InitializeGoal n pf (HR o rest) :=
  HR_goal (InitializeGoal n pf) o rest (goal_of_stop n pf o m hk hm) (fun _ => hrest _ hk)

/-- The last statements of `Initialize`, on a context that is not initialized and has the
render size of the client area. -/
theorem Initialize_glitch_goal (host : Host) (pf : Platform) (d : DeviceContext) (n : Nat)
    (hk : d.core = (false, pf.clientWidth, pf.clientHeight, n + 1)) :
    InitializeGoal n pf (RenderContext.Initialize.glitch host pf d) := by
  simp only [DeviceContext.core, Prod.mk.injEq] at hk
  obtain ⟨hi, hw, hh, hl⟩ := hk
  have hcore := SetupResources_core host pf d.renderWidth d.renderHeight
    { d with rc := { d.rc with intensity := 1 / 2, noiseTexture := [] },
             trashFrame1Tex := none, trashFrame2Tex := none }
  have htrash := SetupResources_trash host pf d.renderWidth d.renderHeight
    { d with rc := { d.rc with intensity := 1 / 2, noiseTexture := [] },
             trashFrame1Tex := none, trashFrame2Tex := none }
  unfold RenderContext.Initialize.glitch
  cases hres : DigitalGlitch.SetupResources host pf d.renderWidth d.renderHeight
    { d with rc := { d.rc with intensity := 1 / 2, noiseTexture := [] },
             trashFrame1Tex := none, trashFrame2Tex := none } with
  | returned hr g =>
    rw [hres] at hcore htrash
    simp only [Outcome.state, DeviceContext.core, Prod.mk.injEq, hi, hw, hh, hl] at hcore
    simp only [Outcome.state, Outcome.succeeded, DeviceContext.trash, Prod.mk.injEq, hw,
      hh] at htrash
    obtain ⟨gi, gw, gh, gl⟩ := hcore
    simp only
    split_ifs with hf
    · refine ⟨?_, ?_, fun _ => gi, fun h => ?_⟩
      · show n ≤ g.captureItems.length
        omega
      · show g.captureItems.length ≤ n + 1
        omega
      · simp only [Outcome.succeeded, hf] at h
        exact absurd h (by decide)
    · have hok : FAILED hr = false := by simpa using hf
      obtain ⟨t₁, t₂⟩ := htrash (by simp [hok])
      refine ⟨?_, ?_, fun h => ?_, fun _ => ?_⟩
      · show n ≤ g.captureItems.length
        omega
      · show g.captureItems.length ≤ n + 1
        omega
      · simp only [Outcome.succeeded, FAILED_S_OK] at h
        exact absurd h (by decide)
      · simp only [Outcome.state, DeviceContext.kept, gw, gh, gl, t₁, t₂]
  | nullDereference g =>
    rw [hres] at hcore
    exact goal_of_stop n pf _ (n + 1)
      (by simpa [Outcome.state, DeviceContext.core, hi, hw, hh, hl] using hcore)
      ⟨Nat.le_succ n, le_rfl⟩ rfl
  | running g =>
    rw [hres] at hcore
    exact goal_of_stop n pf _ (n + 1)
      (by simpa [Outcome.state, DeviceContext.core, hi, hw, hh, hl] using hcore)
      ⟨Nat.le_succ n, le_rfl⟩ rfl

/-- What a call of `Initialize` on a context that is not initialized leaves behind. -/
theorem Initialize_goal (host : Host) (pf : Platform) (fuel : Nat) (d : DeviceContext)
    (hfresh : d.rc.initialized = false) :
    InitializeGoal d.captureItems.length pf (RenderContext.Initialize host pf fuel d) := by
  unfold RenderContext.Initialize
  rw [if_neg (by simp [hfresh])]
  have h₀ : (DeviceContext.call pf Api.D3D11CreateDevice []
      { d with renderWidth := pf.clientWidth, renderHeight := pf.clientHeight,
               device := false }).state.core =
      (false, pf.clientWidth, pf.clientHeight, d.captureItems.length) := by
    simp only [call_state, DeviceContext.core, hfresh]
  refine Initialize_stage _ pf _ _ _ h₀ ⟨le_rfl, Nat.le_succ _⟩ (fun s hs => ?_)
  refine Initialize_stage _ pf _ _ _ hs ⟨le_rfl, Nat.le_succ _⟩ (fun s hs => ?_)
  refine Initialize_stage _ pf _ _ _ hs ⟨le_rfl, Nat.le_succ _⟩ (fun s hs => ?_)
  refine Initialize_stage _ pf _ _ _ hs ⟨le_rfl, Nat.le_succ _⟩ (fun s hs => ?_)
  -- the capture set-up
  have hafter : ∀ s' : DeviceContext,
      s'.core = (false, pf.clientWidth, pf.clientHeight, d.captureItems.length + 1) →
      InitializeGoal d.captureItems.length pf
        (HR (RenderContext.RefreshCapture pf fuel s') fun d =>
          HR (DeviceContext.call pf Api.CreateSwapChainForHwnd [d.renderWidth, d.renderHeight]
              { d with swapChain := none }) fun d =>
          HR (RenderContext.InitPipeline pf
              { d with swapChain := some { Width := d.renderWidth, Height := d.renderHeight } })
            fun d =>
          HR (RenderContext.CreateVertices pf d) fun d =>
          HR (RenderContext.CreateRasterizerState pf d) fun d =>
          HR (RenderContext.CreateRenderTargetView pf d) fun d =>
          RenderContext.Initialize.glitch host pf
            (RenderContext.UpdateViewport d.renderWidth d.renderHeight d)) := by
    intro s' hs'
    refine Initialize_stage _ pf _ _ _ ((core_of_kept (RefreshCapture_kept pf fuel s')).trans hs')
      ⟨Nat.le_succ _, le_rfl⟩ (fun s hs => ?_)
    refine Initialize_stage _ pf _ _ _ hs ⟨Nat.le_succ _, le_rfl⟩ (fun s hs => ?_)
    refine Initialize_stage _ pf _ _ _ ((core_of_kept (InitPipeline_kept pf _)).trans hs)
      ⟨Nat.le_succ _, le_rfl⟩ (fun s hs => ?_)
    refine Initialize_stage _ pf _ _ _ ((core_of_kept (CreateVertices_kept pf _)).trans hs)
      ⟨Nat.le_succ _, le_rfl⟩ (fun s hs => ?_)
    refine Initialize_stage _ pf _ _ _
      ((core_of_kept (CreateRasterizerState_kept pf _)).trans hs)
      ⟨Nat.le_succ _, le_rfl⟩ (fun s hs => ?_)
    refine Initialize_stage _ pf _ _ _
      ((core_of_kept (CreateRenderTargetView_kept pf _)).trans hs)
      ⟨Nat.le_succ _, le_rfl⟩ (fun s hs => ?_)
    exact Initialize_glitch_goal host pf _ _ hs
  rcases SetupCapture_kept pf s with ⟨hsame, hstop⟩ | hmore
  · rw [HR_eq, hstop]
    simp only [Bool.false_eq_true, if_false]
    exact goal_of_stop _ pf _ _ ((core_of_kept hsame).trans hs) ⟨le_rfl, Nat.le_succ _⟩ hstop
  · have hcore : (RenderContext.SetupCapture pf s).state.core =
        (false, pf.clientWidth, pf.clientHeight, d.captureItems.length + 1) := by
      simp only [DeviceContext.core, Prod.mk.injEq] at hs
      simp only [DeviceContext.kept, Prod.mk.injEq] at hmore
      simp only [DeviceContext.core, hmore.1, hmore.2.1, hmore.2.2.1, hmore.2.2.2.1, hs.1,
        hs.2.1, hs.2.2.1, hs.2.2.2]
    exact HR_goal (InitializeGoal d.captureItems.length pf) _ _
      (goal_of_stop _ pf _ _ hcore ⟨Nat.le_succ _, le_rfl⟩) (fun _ => hafter _ hcore)


theorem discard_keeps {σ α : Type} (proj : σ → α) (o : Outcome σ) (rest : σ → Outcome σ)
    (x : α) (h₁ : proj o.state = x) (h₂ : ∀ s, proj s = x → proj (rest s).state = x) :
    proj (discard o rest).state = x := by
  rw [discard_eq]
  split_ifs
  · exact h₂ _ h₁
  · exact h₁

/-- However `Resize` ends, it leaves the trash textures of the effect as they are. -/
theorem Resize_trash (pf : Platform) (w h : Nat) (d : DeviceContext) :
    (RenderContext.Resize pf w h d).state.trash = d.trash := by
  unfold RenderContext.Resize
  cases d.swapChain with
  | none => rfl
  | some size =>
    simp only
    refine HR_keeps _ _ _ _ (trash_of_kept ((call_kept _ _ _ _).trans
      (releaseBackBufferView_kept d))) (fun s hs => ?_)
    refine HR_keeps _ _ _ _ ((trash_of_kept (CreateRenderTargetView_kept pf _)).trans hs)
      (fun s hs => ?_)
    refine discard_keeps _ _ _ _ ?_ (fun s hs => hs)
    rw [CreateVertices_cases]
    split_ifs <;> exact hs

/-- Successful `Resize` calls leave the trash textures of the effect as they are. -/
theorem ResizedOkFrom_trash (pf : Platform) (d d' : DeviceContext)
    (h : ResizedOkFrom pf d d') : d'.trash = d.trash := by
  induction h with
  | start => rfl
  | @resize d₁ d₂ w h hr _ hres _ ih =>
    have hkeep := Resize_trash pf w h d₁
    rw [hres] at hkeep
    exact hkeep.trans ih

/-- The outcome of `Initialize` on a context that is initialized. -/
theorem Initialize_of_initialized (host : Host) (pf : Platform) (fuel : Nat)
    (d : DeviceContext) (h : d.rc.initialized = true) :
    RenderContext.Initialize host pf fuel d = Outcome.returned S_OK d := by
  unfold RenderContext.Initialize
  rw [if_pos h]

/-- What a call of `Initialize` that returns does to a context that is not initialized. -/
theorem Initialize_returned (host : Host) (pf : Platform) (fuel : Nat) (d d' : DeviceContext)
    (hr : HRESULT) (hfresh : d.rc.initialized = false)
    (h : RenderContext.Initialize host pf fuel d = Outcome.returned hr d') :
    d.captureItems.length ≤ d'.captureItems.length ∧
    d'.captureItems.length ≤ d.captureItems.length + 1 ∧
    (FAILED hr = true → d'.rc.initialized = false) ∧
    (FAILED hr = false → d'.rc.initialized = true ∧
      d'.captureItems.length = d.captureItems.length + 1 ∧
      d'.renderWidth = pf.clientWidth ∧ d'.renderHeight = pf.clientHeight ∧
      d'.trash = (some { Width := pf.clientWidth, Height := pf.clientHeight },
        some { Width := pf.clientWidth, Height := pf.clientHeight })) := by
  obtain ⟨h₁, h₂, h₃, h₄⟩ := Initialize_goal host pf fuel d hfresh
  rw [h] at h₁ h₂ h₃ h₄
  simp only [Outcome.state, Outcome.succeeded, Bool.not_eq_false', Bool.not_eq_true',
    DeviceContext.kept, Prod.mk.injEq] at h₁ h₂ h₃ h₄
  refine ⟨h₁, h₂, h₃, fun hok => ?_⟩
  obtain ⟨a, b, c, e, f, g⟩ := h₄ hok
  exact ⟨a, e, b, c, by simp only [DeviceContext.trash, f, g]⟩

/-! # The claims, concluded -/

/-- C21, as stated, fails: two distinct handles hold the object 7, whose count is 2.  Copy
assignment of the first from the second leaves the count at 2, it does not increment it;
move assignment of the first from the second leaves the count at 1, not unchanged. -/
theorem ComPtr_assign_between_holders :
    sharedHandles.get 0 = some { ptr := some 7 } ∧
    sharedHandles.get 1 = some { ptr := some 7 } ∧ sharedHandles.refs 7 = 2 ∧
    (sharedHandles.step (ComPtrOp.assign 0 1)).map (fun h => h.refs 7) = some 2 ∧
    (sharedHandles.step (ComPtrOp.moveAssign 0 1)).map (fun h => h.refs 7) = some 1 ∧
    (sharedHandles.step (ComPtrOp.moveAssign 0 1)).map (fun h => h.get 1) =
      some (some { ptr := none }) := by
  decide

/-- C21, amended: every operation changes the count of an object `o` by the number of
handles it makes hold `o` minus the number it makes give up `o`.  Copy construction from
`source` adds one if `source` holds `o`.  Copy assignment (with or without conversion) adds
one if `source` holds `o` and takes one off if the target held `o` before, so the count of
`o` is unchanged when the target already holds it.  Move construction changes no count and
leaves the source null.  Move assignment from another handle takes one off if the target
held `o` before and leaves the source null.  `Reset` and destruction take one off if the
handle holds `o`, and `Reset` leaves the handle null.  Operations on null handles change no
count.  Hence over any sequence of these operations, none moving a handle into itself, the
count of `o` equals its external count (its count less its holders at the start) plus the
number of handles that hold it. -/
theorem ComPtr_one_reference_per_handle (self source : ComPtr) (refs : RefCounts) (o : Nat) :
    ((ComPtr.copy source refs).1.ptr = source.ptr ∧
      (ComPtr.copy source refs).2 o = refs o + source.holds o) ∧
    ((ComPtr.assign self source refs).1.ptr = source.ptr ∧
      (ComPtr.assign self source refs).2 o = refs o + source.holds o - self.holds o) ∧
    ((ComPtr.assignConverting self source refs).1.ptr = source.ptr ∧
      (ComPtr.assignConverting self source refs).2 o =
        refs o + source.holds o - self.holds o) ∧
    ((ComPtr.move source).1.ptr = source.ptr ∧ (ComPtr.move source).2.ptr = none) ∧
    ((ComPtr.moveAssign self source refs).1.ptr = source.ptr ∧
      (ComPtr.moveAssign self source refs).2.1.ptr = none ∧
      (ComPtr.moveAssign self source refs).2.2 o = refs o - self.holds o) ∧
    ((ComPtr.Reset self refs).1.ptr = none ∧
      (ComPtr.Reset self refs).2 o = refs o - self.holds o) ∧
    ComPtr.destroy self refs o = refs o - self.holds o ∧
    (source.ptr = none → (ComPtr.copy source refs).2 = refs) ∧
    (self.ptr = none → (ComPtr.Reset self refs).2 = refs ∧ ComPtr.destroy self refs = refs ∧
      (source.ptr = none → (ComPtr.assign self source refs).2 = refs ∧
        (ComPtr.assignConverting self source refs).2 = refs ∧
        (ComPtr.moveAssign self source refs).2.2 = refs)) ∧
    (∀ (ops : List ComPtrOp) (h h' : Handles), (∀ op ∈ ops, op.distinct = true) →
      h.run ops = some h' → h'.refs o = (h.refs o - h.holders o) + h'.holders o) := by
  refine ⟨⟨rfl, ?_⟩, ⟨?_, ?_⟩, ⟨rfl, ?_⟩, ⟨rfl, rfl⟩, ⟨rfl, rfl, ?_⟩, ⟨rfl, ?_⟩, ?_, ?_, ?_, ?_⟩
  · simp only [ComPtr.copy, SafeAddRef_apply, ComPtr.holds]
  · unfold ComPtr.assign
    split_ifs with e
    · rfl
    · exact not_not.mp e
  · unfold ComPtr.assign
    split_ifs with e
    · simp only [SafeAddRef_apply, SafeRelease_apply, ComPtr.holds]
      ring
    · simp only [ComPtr.holds, not_not.mp e]
      ring
  · simp only [ComPtr.assignConverting, SafeAddRef_apply, SafeRelease_apply, ComPtr.holds]
    ring
  · simp only [ComPtr.moveAssign, SafeRelease_apply]
  · simp only [ComPtr.Reset, SafeRelease_apply]
  · simp only [ComPtr.destroy, SafeRelease_apply]
  · intro hs
    simp only [ComPtr.copy, ComPtr.SafeAddRef, hs]
  · intro hn
    refine ⟨?_, ?_, fun hs => ⟨?_, ?_, ?_⟩⟩
    · simp only [ComPtr.Reset, ComPtr.SafeRelease, hn]
    · simp only [ComPtr.destroy, ComPtr.SafeRelease, hn]
    · simp only [ComPtr.assign, hn, hs, ne_eq, not_true_eq_false, if_false]
    · simp only [ComPtr.assignConverting, ComPtr.SafeAddRef, ComPtr.SafeRelease, hn, hs]
    · simp only [ComPtr.moveAssign, ComPtr.SafeRelease, hn]
  · intro ops h h' hd hr
    have := run_balance ops h h' hd hr o
    linarith

/-- C21, amended, on a handle that holds the object 7 and a null handle: after a copy
construction, a copy assignment, a move assignment and a `Reset`, one handle holds the
object and its count is 1 again. -/
theorem ComPtr_one_reference_per_handle_witness :
    ∃ h', sampleHandles.run [ComPtrOp.copy 0, ComPtrOp.assign 1 0, ComPtrOp.moveAssign 1 2,
        ComPtrOp.Reset 0, ComPtrOp.destroy 2] = some h' ∧
      h'.holders 7 = 1 ∧ h'.refs 7 = 1 := by
  refine ⟨_, rfl, by decide, ?_⟩
  have h := (ComPtr_one_reference_per_handle { ptr := none } { ptr := none } (fun _ => 0)
    7).2.2.2.2.2.2.2.2.2 [ComPtrOp.copy 0, ComPtrOp.assign 1 0, ComPtrOp.moveAssign 1 2,
      ComPtrOp.Reset 0, ComPtrOp.destroy 2] sampleHandles _ (by decide) rfl
  rw [h]
  decide

/-- C22 fails on the code: on a handle that holds the object 7, whose count is 1,
`MoveTo(target)` stores the object to `*target` and leaves the handle null, but the count
of the object stays 1; `CopyTo(target)` is the method that raises it to 2.  After `MoveTo`
the destruction of the handle releases nothing, so the count is still 1. -/
theorem MoveTo_keeps_reference_count :
    (ComPtr.MoveTo { ptr := some 7 } (fun _ => 1)).1 = some 7 ∧
    (ComPtr.MoveTo { ptr := some 7 } (fun _ => 1)).2.1 = { ptr := none } ∧
    (ComPtr.MoveTo { ptr := some 7 } (fun _ => 1)).2.2 7 = 1 ∧
    (ComPtr.CopyTo { ptr := some 7 } (fun _ => 1)).2 7 = 2 ∧
    ComPtr.destroy (ComPtr.MoveTo { ptr := some 7 } (fun _ => 1)).2.1
      (ComPtr.MoveTo { ptr := some 7 } (fun _ => 1)).2.2 7 = 1 := by
  decide

/-- C23: in a run of `RenderFrame` with frame count `F` (the count of a draw in `[0, 1]`) in
which no present fails, whatever the refreshes return, the refresh and frame calls are, for
`i = 0, …, F - 1` in order, a capture refresh exactly when `i % 10 = 9`, immediately
followed by frame `i`, and then the settle frame; so the capture is refreshed at these
iterations and nowhere else.  The number of refreshes is `(F + 1) / 10`, the number of
`i < F` with `i % 10 = 9`, and it is at least 1 and at most 5. -/
theorem RenderFrame_refresh_schedule (host : Host) (ctx : RenderContext) (F : Nat)
    (hinit : ctx.initialized = true)
    (h0 : 0 ≤ host.RandomFloat ctx.draws) (h1 : host.RandomFloat ctx.draws ≤ 1)
    (hF : RenderFrame.frames (host.RandomFloat ctx.draws) = F)
    (hok : ∀ k, k ≤ F → FAILED (host.Present (ctx.presents + k)) = false) :
    frameEvents (newCalls ctx (RenderFrame host ctx).2) =
      (List.range F).flatMap (fun i : Nat =>
        (if i % 10 = 9 then [Call.RefreshCapture] else []) ++
          [Call.RenderSingleFrame (TriangleSeries i F 0 (3 / 4))]) ++
        [Call.RenderSingleFrame 0] ∧
    refreshCalls (newCalls ctx (RenderFrame host ctx).2) =
      ((List.range F).filter (fun i => i % 10 = 9)).length ∧
    refreshCalls (newCalls ctx (RenderFrame host ctx).2) = (F + 1) / 10 ∧
    F % 2 = 0 ∧ 14 ≤ F ∧ F ≤ 54 ∧ 1 ≤ (F + 1) / 10 ∧ (F + 1) / 10 ≤ 5 := by
  obtain ⟨heven, h14, h54⟩ := frames_range _ h0 h1 F hF
  have hcount := (RenderFrame_ok host ctx F hinit hF hok).2.2
  refine ⟨RenderFrame_events host ctx F hinit hF hok, ?_, ?_, heven, h14, h54, by omega,
    by omega⟩
  · rw [hcount, List.range_eq_range']
  · rw [hcount, refresh_indices]
    omega

/-- C23 at the quiet host: the run has frame count 14 and refreshes the capture once, before
frame 9. -/
theorem RenderFrame_refresh_schedule_witness :
    refreshCalls (newCalls freshContext (RenderFrame quietHost freshContext).2) = (14 + 1) / 10 ∧
    ((List.range 14).filter (fun i => i % 10 = 9)) = [9] :=
  ⟨(RenderFrame_refresh_schedule quietHost freshContext 14 rfl (by norm_num [quietHost])
      (by norm_num [quietHost]) frames_zero (fun _ _ => rfl)).2.2.1, by decide⟩

/-- C24: `UpdateNoiseTexture` writes a texture of `height` rows of `width` pixels each, so
every one of the `width x height` pixels once; read in raster order (row by row, the colour
carried over from the end of a row to the start of the next) the pixels are those of
`noiseRasterSpec`: each pixel equals the pixel written just before it when its draw is at
most `0.89` and is a newly drawn random colour when its draw exceeds `0.89`; the first pixel
is the colour drawn initially unless its own draw exceeds `0.89`.  This holds for every
width and height, and `UpdateNoiseTexture` itself fills the texture of 64 x 32. -/
theorem UpdateNoiseTexture_raster_order (host : Host) (width height : Nat)
    (ctx : RenderContext) :
    (DigitalGlitch.UpdateNoiseTexture.fill host width height ctx).noiseTexture.length =
      height ∧
    (∀ r ∈ (DigitalGlitch.UpdateNoiseTexture.fill host width height ctx).noiseTexture,
      r.length = width) ∧
    (DigitalGlitch.UpdateNoiseTexture.fill host width height ctx).noiseTexture.flatten.length =
      width * height ∧
    (DigitalGlitch.UpdateNoiseTexture.fill host width height ctx).noiseTexture.flatten =
      noiseRasterSpec host (width * height) (RandomColorBGRA host ctx).1
        (RandomColorBGRA host ctx).2 ∧
    (0 < width * height →
      (DigitalGlitch.UpdateNoiseTexture.fill host width height ctx).noiseTexture.flatten.head? =
        some (if host.RandomFloat (ctx.draws + 4) ≤ 89 / 100 then (RandomColorBGRA host ctx).1
          else (RandomColorBGRA host { ctx with draws := ctx.draws + 5 }).1)) ∧
    (DigitalGlitch.UpdateNoiseTexture host ctx).noiseTexture =
      (DigitalGlitch.UpdateNoiseTexture.fill host 64 32
        (ctx.emit Call.UpdateNoiseTexture)).noiseTexture := by
  obtain ⟨h₁, h₂, h₃⟩ := rows_spec host width height (RandomColorBGRA host ctx).1
    (RandomColorBGRA host ctx).2
  rw [fill_noiseTexture]
  refine ⟨h₁, h₂, ?_, ?_, fun hpos => ?_, rfl⟩
  · rw [h₃, row_length]
  · rw [h₃, row_eq_spec]
  · rw [h₃, row_eq_spec]
    obtain ⟨n, hn⟩ : ∃ n, width * height = n + 1 := ⟨width * height - 1, by omega⟩
    rw [hn, noiseRasterSpec]
    by_cases h : host.RandomFloat (ctx.draws + 4) ≤ 89 / 100
    · have h' : host.RandomFloat (RandomColorBGRA host ctx).2.draws ≤ 89 / 100 := h
      rw [if_pos h, if_pos h']
      rfl
    · have h' : ¬ host.RandomFloat (RandomColorBGRA host ctx).2.draws ≤ 89 / 100 := h
      rw [if_neg h, if_neg h']
      rfl

/-- C24 at the quiet host, whose draws are all `0`: the first pixel of the texture of
64 x 32 is the colour drawn initially. -/
theorem UpdateNoiseTexture_raster_order_witness :
    (DigitalGlitch.UpdateNoiseTexture.fill quietHost 64 32
      freshContext).noiseTexture.flatten.head? =
      some (RandomColorBGRA quietHost freshContext).1 := by
  have h := (UpdateNoiseTexture_raster_order quietHost 64 32 freshContext).2.2.2.2.1
    (by decide)
  rw [if_pos (by norm_num [quietHost])] at h
  exact h

/-- C25 fails on the code.  On the platform where the query of the frame's texture fails
with `E_NOINTERFACE`, the first acquire of `Refresh` succeeds and delivers a new frame, and
`Refresh` returns `E_NOINTERFACE` after the two calls `AcquireNextFrame` and
`QueryInterface`: the acquired frame is neither copied nor released.  On the other paths the
frame is released: a frame with timestamp 0 is released without copy before the next
acquire, and a new frame is copied and then released. -/
theorem Refresh_keeps_frame_on_failed_query :
    FAILED ((failingPlatform Api.QueryInterface 0 E_NOINTERFACE).answer
      Api.AcquireNextFrame 0) = false ∧
    (failingPlatform Api.QueryInterface 0 E_NOINTERFACE).LastPresentTime 0 ≠ 0 ∧
    (CaptureItem.Refresh (failingPlatform Api.QueryInterface 0 E_NOINTERFACE) 1
      (establishedItem, World.start)).status = some E_NOINTERFACE ∧
    (CaptureItem.Refresh (failingPlatform Api.QueryInterface 0 E_NOINTERFACE) 1
      (establishedItem, World.start)).state.2.calls =
      [(Api.AcquireNextFrame, [1000, 255]), (Api.QueryInterface, [])] ∧
    (CaptureItem.Refresh (failingPlatform Api.QueryInterface 0 E_NOINTERFACE) 1
      (establishedItem, World.start)).state.2.count Api.ReleaseFrame = 0 ∧
    (CaptureItem.Refresh (failingPlatform Api.QueryInterface 0 E_NOINTERFACE) 1
      (establishedItem, World.start)).state.1.content = none ∧
    (CaptureItem.Refresh emptyFramePlatform 2 (establishedItem, World.start)).status =
      some S_OK ∧
    (CaptureItem.Refresh emptyFramePlatform 2 (establishedItem, World.start)).state.2.calls =
      [(Api.AcquireNextFrame, [1000, 255]), (Api.ReleaseFrame, []),
       (Api.AcquireNextFrame, [1000, 255]), (Api.QueryInterface, []),
       (Api.CopyResource, [1]), (Api.ReleaseFrame, [])] := by
  decide

/-- C26: for all `w, h > 0` and every point `(x, y)` with `0 ≤ x ≤ w` and `0 ≤ y ≤ h`, the
point lies inside the triangle of `CreateFullscreenTriangle(w, h)`: it has barycentric
coordinates, and barycentric coordinates of it are never negative; the texture coordinates
interpolated linearly from the three vertices at the point are `(x / w, y / h)`, which lie in
`[0, 1] x [0, 1]`. -/
theorem CreateFullscreenTriangle_covers_viewport (w h x y : ℚ) (hw : 0 < w) (hh : 0 < h)
    (hx0 : 0 ≤ x) (hx : x ≤ w) (hy0 : 0 ≤ y) (hy : y ≤ h) :
    (CreateFullscreenTriangle w h).1.Position = (0, 0) ∧
    (CreateFullscreenTriangle w h).2.1.Position = (2 * w, 0) ∧
    (CreateFullscreenTriangle w h).2.2.Position = (0, 2 * h) ∧
    (∃ a b c, Barycentric (CreateFullscreenTriangle w h) (x, y) a b c) ∧
    (∀ a b c, Barycentric (CreateFullscreenTriangle w h) (x, y) a b c →
      0 ≤ a ∧ 0 ≤ b ∧ 0 ≤ c ∧
      interpolate (CreateFullscreenTriangle w h) a b c = (x / w, y / h)) ∧
    0 ≤ x / w ∧ x / w ≤ 1 ∧ 0 ≤ y / h ∧ y / h ≤ 1 := by
  have hw' : w ≠ 0 := ne_of_gt hw
  have hh' : h ≠ 0 := ne_of_gt hh
  refine ⟨rfl, ?_, ?_, ?_, ?_, div_nonneg hx0 hw.le, (div_le_one hw).mpr hx,
    div_nonneg hy0 hh.le, (div_le_one hh).mpr hy⟩
  · simp only [CreateFullscreenTriangle, mul_comm]
  · simp only [CreateFullscreenTriangle, mul_comm]
  · refine ⟨1 - x / (2 * w) - y / (2 * h), x / (2 * w), y / (2 * h), by ring, ?_⟩
    simp only [combine, CreateFullscreenTriangle, Prod.mk.injEq, mul_zero, zero_add,
      add_zero]
    constructor
    · rw [div_mul_eq_mul_div, div_eq_iff (by positivity)]
      ring
    · rw [div_mul_eq_mul_div, div_eq_iff (by positivity)]
      ring
  · intro a b c ⟨hsum, hcomb⟩
    simp only [combine, CreateFullscreenTriangle, Prod.mk.injEq, mul_zero, zero_add,
      add_zero] at hcomb
    obtain ⟨hb, hc⟩ := hcomb
    have hb' : b = x / (2 * w) := by
      field_simp
      linarith
    have hc' : c = y / (2 * h) := by
      field_simp
      linarith
    have hb1 : b ≤ 1 / 2 := by
      rw [hb', div_le_iff₀ (by positivity)]
      linarith
    have hc1 : c ≤ 1 / 2 := by
      rw [hc', div_le_iff₀ (by positivity)]
      linarith
    refine ⟨by linarith, by rw [hb']; positivity, by rw [hc']; positivity, ?_⟩
    simp only [interpolate, combine, CreateFullscreenTriangle, Prod.mk.injEq, mul_zero,
      zero_add, add_zero]
    constructor
    · rw [hb']
      field_simp
      ring
    · rw [hc']
      field_simp
      ring

/-- C26 at the centre of a viewport of 1920 x 1080: the weights `1/2, 1/4, 1/4` are
barycentric coordinates of the point `(960, 540)`, and the texture coordinates interpolated
with them are `(1/2, 1/2)`. -/
theorem CreateFullscreenTriangle_covers_viewport_witness :
    Barycentric (CreateFullscreenTriangle 1920 1080) (960, 540) (1 / 2) (1 / 4) (1 / 4) ∧
    interpolate (CreateFullscreenTriangle 1920 1080) (1 / 2) (1 / 4) (1 / 4) =
      (960 / 1920, 540 / 1080) := by
  have hb : Barycentric (CreateFullscreenTriangle 1920 1080) (960, 540) (1 / 2) (1 / 4)
      (1 / 4) := by
    refine ⟨by norm_num, ?_⟩
    simp only [combine, CreateFullscreenTriangle, Prod.mk.injEq]
    constructor <;> norm_num
  exact ⟨hb, ((CreateFullscreenTriangle_covers_viewport 1920 1080 960 540 (by norm_num)
    (by norm_num) (by norm_num) (by norm_num) (by norm_num) (by norm_num)).2.2.2.2.1
      (1 / 2) (1 / 4) (1 / 4) hb).2.2.2⟩

/-- C27 fails on the code: with the draws `0, 0, 0.5, 0` the four bytes are `b = 0`,
`g = 0`, `r = 127`, `a = 0`; the colour `b | g<<8 | r<<16 | a<<24` of the claim is
`0x007F0000`, the function returns `0x00007F00`, because it shifts `g`, `r` and `a` all
by 8.  Every result is
below `2^16`, so not every 32-bit value is a possible result. -/
theorem RandomColorBGRA_shifts_all_by_eight :
    (RandomByte channelHost freshContext).1 = 0 ∧
    (RandomByte channelHost { freshContext with draws := 1 }).1 = 0 ∧
    (RandomByte channelHost { freshContext with draws := 2 }).1 = 127 ∧
    (RandomByte channelHost { freshContext with draws := 3 }).1 = 0 ∧
    (RandomColorBGRA channelHost freshContext).1 = 0x00007F00 ∧
    (0 ||| (0 <<< 8) ||| (127 <<< 16) ||| (0 <<< 24) : Nat) = 0x007F0000 ∧
    ∀ (host : Host) (ctx : RenderContext), (RandomColorBGRA host ctx).1 < 2 ^ 16 := by
  have z : ∀ ctx : RenderContext, channelHost.RandomFloat ctx.draws = 0 →
      (RandomByte channelHost ctx).1 = 0 := by
    intro ctx h
    rw [RandomByte_value, h, zero_mul, to_float_zero]
    norm_num [static_cast_int]
  have b0 : (RandomByte channelHost freshContext).1 = 0 := z _ rfl
  have b1 : (RandomByte channelHost { freshContext with draws := 1 }).1 = 0 := z _ rfl
  have b2 : (RandomByte channelHost { freshContext with draws := 2 }).1 = 127 := by
    rw [RandomByte_value]
    have : static_cast_int (to_float (channelHost.RandomFloat 2 * 255)) = 127 := by
      have e : channelHost.RandomFloat 2 * 255 = 255 / 2 := by
        norm_num [channelHost]
      rw [e, to_float_exact (255 / 2) 255 (-1) (by norm_num) (by norm_num) (by norm_num)]
      unfold static_cast_int
      rw [if_pos (by norm_num), Int.floor_eq_iff]
      constructor <;> norm_num
    show (static_cast_int (to_float (channelHost.RandomFloat 2 * 255))).toNat % 256 = 127
    rw [this]
    decide
  have b3 : (RandomByte channelHost { freshContext with draws := 3 }).1 = 0 := z _ rfl
  refine ⟨b0, b1, b2, b3, ?_, by decide, RandomColorBGRA_lt⟩
  rw [RandomColorBGRA_value]
  have e1 : ({ freshContext with draws := freshContext.draws + 1 } : RenderContext) =
      { freshContext with draws := 1 } := rfl
  have e2 : ({ freshContext with draws := freshContext.draws + 2 } : RenderContext) =
      { freshContext with draws := 2 } := rfl
  have e3 : ({ freshContext with draws := freshContext.draws + 3 } : RenderContext) =
      { freshContext with draws := 3 } := rfl
  rw [e1, e2, e3, b0, b1, b2, b3]
  decide

/-- C28, as stated, fails: after a successful `Initialize` at a client area of 1920 x 1080
and a successful `Resize(800, 600)` the render size is 800 x 600 and both trash textures
are still 1920 x 1080. -/
theorem Resize_leaves_trash_textures :
    (RenderContext.Initialize quietHost okPlatform 1
      (DeviceContext.fresh World.start)).status = some S_OK ∧
    (RenderContext.Resize okPlatform 800 600
      (RenderContext.Initialize quietHost okPlatform 1
        (DeviceContext.fresh World.start)).state).status = some S_OK ∧
    (RenderContext.Resize okPlatform 800 600
      (RenderContext.Initialize quietHost okPlatform 1
        (DeviceContext.fresh World.start)).state).state.renderWidth = 800 ∧
    (RenderContext.Resize okPlatform 800 600
      (RenderContext.Initialize quietHost okPlatform 1
        (DeviceContext.fresh World.start)).state).state.renderHeight = 600 ∧
    (RenderContext.Resize okPlatform 800 600
      (RenderContext.Initialize quietHost okPlatform 1
        (DeviceContext.fresh World.start)).state).state.trashFrame1Tex =
      some { Width := 1920, Height := 1080 } ∧
    (RenderContext.Resize okPlatform 800 600
      (RenderContext.Initialize quietHost okPlatform 1
        (DeviceContext.fresh World.start)).state).state.trashFrame2Tex =
      some { Width := 1920, Height := 1080 } := by
  decide

/-- C28, amended: after a successful `Initialize` the render size is the size of the client
area and both trash textures of the effect have that size; in every state reached from
there by any sequence of successful `Resize` calls both trash textures still have the size
of the client area at `Initialize`, so they have the current render size exactly when the
current render size is that size. -/
theorem Resize_keeps_trash_textures (host : Host) (pf : Platform) (fuel : Nat)
    (d₀ d : DeviceContext) (hr : HRESULT) (hfresh : d₀.rc.initialized = false)
    (hinit : RenderContext.Initialize host pf fuel d₀ = Outcome.returned hr d)
    (hok : FAILED hr = false) :
    (d.renderWidth = pf.clientWidth ∧ d.renderHeight = pf.clientHeight ∧
      d.trashFrame1Tex = some { Width := d.renderWidth, Height := d.renderHeight } ∧
      d.trashFrame2Tex = some { Width := d.renderWidth, Height := d.renderHeight }) ∧
    (∀ d', ResizedOkFrom pf d d' →
      d'.trashFrame1Tex = some { Width := pf.clientWidth, Height := pf.clientHeight } ∧
      d'.trashFrame2Tex = some { Width := pf.clientWidth, Height := pf.clientHeight } ∧
      ((d'.trashFrame1Tex = some { Width := d'.renderWidth, Height := d'.renderHeight } ∧
          d'.trashFrame2Tex = some { Width := d'.renderWidth, Height := d'.renderHeight }) ↔
        (d'.renderWidth = pf.clientWidth ∧ d'.renderHeight = pf.clientHeight))) := by
  obtain ⟨-, -, -, hsucc⟩ := Initialize_returned host pf fuel d₀ d hr hfresh hinit
  obtain ⟨-, -, hw, hh, ht⟩ := hsucc hok
  simp only [DeviceContext.trash, Prod.mk.injEq] at ht
  refine ⟨⟨hw, hh, by rw [ht.1, hw, hh], by rw [ht.2, hw, hh]⟩, fun d' hreach => ?_⟩
  have hkeep := ResizedOkFrom_trash pf d d' hreach
  simp only [DeviceContext.trash, Prod.mk.injEq] at hkeep
  have h₁ : d'.trashFrame1Tex = some { Width := pf.clientWidth, Height := pf.clientHeight } :=
    hkeep.1.trans ht.1
  have h₂ : d'.trashFrame2Tex = some { Width := pf.clientWidth, Height := pf.clientHeight } :=
    hkeep.2.trans ht.2
  refine ⟨h₁, h₂, fun h => ?_, fun h => ?_⟩
  · have e := h₁.symm.trans h.1
    simp only [Option.some.injEq, Extent.mk.injEq] at e
    exact ⟨e.1.symm, e.2.symm⟩
  · rw [h₁, h₂, h.1, h.2]
    exact ⟨rfl, rfl⟩

/-- C28, amended, on the platform where every call succeeds, with a client area of
1920 x 1080: after `Initialize` and the successful `Resize(800, 600)` both trash textures
are 1920 x 1080. -/
theorem Resize_keeps_trash_textures_witness :
    (RenderContext.Resize okPlatform 800 600
      (RenderContext.Initialize quietHost okPlatform 1
        (DeviceContext.fresh World.start)).state).state.trashFrame1Tex =
      some { Width := 1920, Height := 1080 } ∧
    (RenderContext.Resize okPlatform 800 600
      (RenderContext.Initialize quietHost okPlatform 1
        (DeviceContext.fresh World.start)).state).state.trashFrame2Tex =
      some { Width := 1920, Height := 1080 } := by
  have hinit : RenderContext.Initialize quietHost okPlatform 1
      (DeviceContext.fresh World.start) = Outcome.returned S_OK
        (RenderContext.Initialize quietHost okPlatform 1
          (DeviceContext.fresh World.start)).state :=
    Outcome.eq_returned (by decide)
  have hres : RenderContext.Resize okPlatform 800 600
      (RenderContext.Initialize quietHost okPlatform 1
        (DeviceContext.fresh World.start)).state = Outcome.returned S_OK
        (RenderContext.Resize okPlatform 800 600
          (RenderContext.Initialize quietHost okPlatform 1
            (DeviceContext.fresh World.start)).state).state :=
    Outcome.eq_returned (by decide)
  obtain ⟨h₁, h₂, -⟩ := (Resize_keeps_trash_textures quietHost okPlatform 1
    (DeviceContext.fresh World.start) _ S_OK rfl hinit FAILED_S_OK).2 _
    (ResizedOkFrom.resize 800 600 S_OK ResizedOkFrom.start hres FAILED_S_OK)
  exact ⟨h₁, h₂⟩

/-- C29, as stated, fails: on the platform where the first creation of the swap chain
fails, a first `Initialize` returns `E_FAIL` after the capture set-up and leaves one capture
item in the collection; the retry succeeds and appends a second one, so the initialized
context holds two capture items.  When the platform refuses a second session while the
first is held, the retry appends the second item all the same and then goes through its
null session handle. -/
theorem Initialize_retry_appends_capture_item :
    (RenderContext.Initialize quietHost (failingPlatform Api.CreateSwapChainForHwnd 0 E_FAIL) 1
      (DeviceContext.fresh World.start)).status = some E_FAIL ∧
    (RenderContext.Initialize quietHost (failingPlatform Api.CreateSwapChainForHwnd 0 E_FAIL) 1
      (DeviceContext.fresh World.start)).state.captureItems.length = 1 ∧
    (RenderContext.Initialize quietHost (failingPlatform Api.CreateSwapChainForHwnd 0 E_FAIL) 1
      (RenderContext.Initialize quietHost (failingPlatform Api.CreateSwapChainForHwnd 0 E_FAIL) 1
        (DeviceContext.fresh World.start)).state).status = some S_OK ∧
    (RenderContext.Initialize quietHost (failingPlatform Api.CreateSwapChainForHwnd 0 E_FAIL) 1
      (RenderContext.Initialize quietHost (failingPlatform Api.CreateSwapChainForHwnd 0 E_FAIL) 1
        (DeviceContext.fresh World.start)).state).state.rc.initialized = true ∧
    (RenderContext.Initialize quietHost (failingPlatform Api.CreateSwapChainForHwnd 0 E_FAIL) 1
      (RenderContext.Initialize quietHost (failingPlatform Api.CreateSwapChainForHwnd 0 E_FAIL) 1
        (DeviceContext.fresh World.start)).state).state.captureItems.length = 2 ∧
    (RenderContext.Initialize quietHost retryPlatform 1
      (DeviceContext.fresh World.start)).status = some E_FAIL ∧
    (RenderContext.Initialize quietHost retryPlatform 1
      (RenderContext.Initialize quietHost retryPlatform 1
        (DeviceContext.fresh World.start)).state).isNullDereference = true ∧
    (RenderContext.Initialize quietHost retryPlatform 1
      (RenderContext.Initialize quietHost retryPlatform 1
        (DeviceContext.fresh World.start)).state).state.captureItems.length = 2 := by
  decide

/-- C29, amended: in every state reached from a context that is not initialized and holds no
capture item by a sequence of `Initialize` calls of which `failures` returned a failure, the
collection holds at most `failures` capture items while the context is not initialized, and
at least one and at most `failures + 1` when it is initialized; so as long as no call failed
it holds at most one capture item, and exactly one whenever the context is initialized.  A
call on a context that is not initialized appends at most one capture item and removes
none.  A repeated `Initialize` after success changes nothing and returns `S_OK`. -/
theorem Initialize_capture_items (host : Host) (pf : Platform) (fuel : Nat)
    (d₀ : DeviceContext) (hempty : d₀.captureItems = []) (hfresh : d₀.rc.initialized = false) :
    (∀ failures d, InitializedFrom host pf fuel d₀ failures d →
      d.captureItems.length ≤ failures + (if d.rc.initialized then 1 else 0) ∧
      (d.rc.initialized = true → 1 ≤ d.captureItems.length)) ∧
    (∀ d, InitializedFrom host pf fuel d₀ 0 d →
      d.captureItems.length ≤ 1 ∧ (d.rc.initialized = true → d.captureItems.length = 1)) ∧
    (∀ d hr d', d.rc.initialized = false →
      RenderContext.Initialize host pf fuel d = Outcome.returned hr d' →
      d.captureItems.length ≤ d'.captureItems.length ∧
      d'.captureItems.length ≤ d.captureItems.length + 1) ∧
    (∀ d, d.rc.initialized = true →
      RenderContext.Initialize host pf fuel d = Outcome.returned S_OK d) := by
  have main : ∀ failures d, InitializedFrom host pf fuel d₀ failures d →
      d.captureItems.length ≤ failures + (if d.rc.initialized then 1 else 0) ∧
      (d.rc.initialized = true → 1 ≤ d.captureItems.length) := by
    intro failures d h
    induction h with
    | start =>
      rw [hempty, hfresh]
      exact ⟨Nat.zero_le _, fun h => absurd h (by decide)⟩
    | @failure f d₁ d₂ hr _ hcall hbad ih =>
      cases hi : d₁.rc.initialized with
      | true =>
        rw [Initialize_of_initialized host pf fuel d₁ hi] at hcall
        simp only [Outcome.returned.injEq] at hcall
        rw [← hcall.1, FAILED_S_OK] at hbad
        exact absurd hbad (by decide)
      | false =>
        obtain ⟨-, hle, hfail, -⟩ := Initialize_returned host pf fuel d₁ d₂ hr hi hcall
        have h₁ := ih.1
        rw [hi] at h₁
        simp only [Bool.false_eq_true, if_false, Nat.add_zero] at h₁
        rw [hfail hbad]
        simp only [Bool.false_eq_true, if_false, Nat.add_zero]
        exact ⟨by omega, fun h => absurd h (by decide)⟩
    | @success f d₁ d₂ hr _ hcall hgood ih =>
      cases hi : d₁.rc.initialized with
      | true =>
        rw [Initialize_of_initialized host pf fuel d₁ hi] at hcall
        simp only [Outcome.returned.injEq] at hcall
        rw [← hcall.2]
        exact ih
      | false =>
        obtain ⟨-, -, -, hsucc⟩ := Initialize_returned host pf fuel d₁ d₂ hr hi hcall
        obtain ⟨hinit, hlen, -⟩ := hsucc hgood
        have h₁ := ih.1
        rw [hi] at h₁
        simp only [Bool.false_eq_true, if_false, Nat.add_zero] at h₁
        rw [hinit]
        simp only [if_true]
        exact ⟨by omega, fun _ => by omega⟩
  refine ⟨main, fun d h => ?_, fun d hr d' hi hcall => ?_,
    Initialize_of_initialized host pf fuel⟩
  · obtain ⟨h₁, h₂⟩ := main 0 d h
    cases hi : d.rc.initialized with
    | true =>
      rw [hi] at h₁
      simp only [if_true] at h₁
      exact ⟨by omega, fun _ => by have := h₂ hi; omega⟩
    | false =>
      rw [hi] at h₁
      simp only [Bool.false_eq_true, if_false] at h₁
      exact ⟨by omega, fun h => absurd h (by decide)⟩
  · obtain ⟨h₁, h₂, -, -⟩ := Initialize_returned host pf fuel d d' hr hi hcall
    exact ⟨h₁, h₂⟩

/-- C29, amended, on the platform where every call succeeds: after `Initialize` on the
fresh context the collection holds exactly one capture item, and the state is reached
without a failed call. -/
theorem Initialize_capture_items_witness :
    InitializedFrom quietHost okPlatform 1 (DeviceContext.fresh World.start) 0
      (RenderContext.Initialize quietHost okPlatform 1 (DeviceContext.fresh World.start)).state ∧
    (RenderContext.Initialize quietHost okPlatform 1
      (DeviceContext.fresh World.start)).state.captureItems.length = 1 := by
  have hinit : RenderContext.Initialize quietHost okPlatform 1
      (DeviceContext.fresh World.start) = Outcome.returned S_OK
        (RenderContext.Initialize quietHost okPlatform 1
          (DeviceContext.fresh World.start)).state :=
    Outcome.eq_returned (by decide)
  have hreach : InitializedFrom quietHost okPlatform 1 (DeviceContext.fresh World.start) 0
      (RenderContext.Initialize quietHost okPlatform 1
        (DeviceContext.fresh World.start)).state :=
    InitializedFrom.success S_OK InitializedFrom.start hinit FAILED_S_OK
  exact ⟨hreach, ((Initialize_capture_items quietHost okPlatform 1
    (DeviceContext.fresh World.start) rfl rfl).2.1 _ hreach).2 (by decide)⟩

/-- C30: in a run of `RenderFrame` with frame count `F` every ramp intensity
`TriangleSeries(i, F, 0, 0.75)`, `0 ≤ i < F`, lies between `0` and `0.75`; every intensity
the run passes to `RenderSingleFrame`, whether or not a present fails, lies between `0` and
`0.75`, so within `[0, 1]`, and the threshold `Lerp(0.9, 0.5, intensity)` of the noise
regeneration lies between `0.6` and `0.9`; when no present fails the last frame, the settle
frame, is passed `0`; and the intensity stored in the effect after `RenderSingleFrame(x)` is
`x`.  This holds for every frame count, so for every even `F` from 14 to 54. -/
theorem RenderFrame_intensity_in_range (host : Host) (ctx : RenderContext) (F : Nat)
    (hinit : ctx.initialized = true)
    (hF : RenderFrame.frames (host.RandomFloat ctx.draws) = F) :
    (∀ i : Nat, i < F →
      0 ≤ TriangleSeries i F 0 (3 / 4) ∧ TriangleSeries i F 0 (3 / 4) ≤ 3 / 4) ∧
    (∀ x ∈ renderCalls (newCalls ctx (RenderFrame host ctx).2),
      0 ≤ x ∧ x ≤ 3 / 4 ∧ x ≤ 1 ∧
      3 / 5 ≤ Lerp (9 / 10) (1 / 2) x ∧ Lerp (9 / 10) (1 / 2) x ≤ 9 / 10) ∧
    ((∀ k, k ≤ F → FAILED (host.Present (ctx.presents + k)) = false) →
      (renderCalls (newCalls ctx (RenderFrame host ctx).2)).getLast? = some 0) ∧
    (∀ (x : ℚ) (c : RenderContext), (RenderSingleFrame host x c).2.intensity = x) := by
  refine ⟨fun i hi => TriangleSeries_bounds i F (by exact_mod_cast Nat.zero_le i)
    (by exact_mod_cast hi), fun x hx => ?_, fun hok => ?_, RenderSingleFrame_intensity host⟩
  · obtain ⟨hx0, hx1⟩ := ramp_settle_bounds (RenderFrame_renders_ramp host ctx F hinit hF x hx)
    obtain ⟨hl, hu⟩ := Lerp_threshold_bounds x hx0 hx1
    exact ⟨hx0, hx1, by linarith, hl, hu⟩
  · rw [(RenderFrame_ok host ctx F hinit hF hok).2.1]
    simp

/-- C30 at the quiet host, whose run has frame count 14: frame 7 is passed the peak `0.75`,
within the bounds, and the settle frame is passed `0`. -/
theorem RenderFrame_intensity_in_range_witness :
    (0 ≤ TriangleSeries 7 14 0 (3 / 4) ∧ TriangleSeries 7 14 0 (3 / 4) ≤ 3 / 4) ∧
    (renderCalls (newCalls freshContext (RenderFrame quietHost freshContext).2)).getLast? =
      some 0 :=
  ⟨(RenderFrame_intensity_in_range quietHost freshContext 14 rfl frames_zero).1 7 (by decide),
    (RenderFrame_intensity_in_range quietHost freshContext 14 rfl frames_zero).2.2.1
      (fun _ _ => rfl)⟩

end gt
